import Mathlib

/-!
# RDMA demos: atomic fetch-and-add, RDMA read, RDMA write

Shallow embedding of `src/rdma_atomic_demo.c`, `src/rdma_read_demo.c` and
`src/rdma_write_demo.c`.

The three programs share their session machinery (`rdma_connection_init`,
`rdma_connection_cleanup`, `wait_event`, `build_qp`) verbatim; they differ in
`reg_mem`, in the connection parameters, in the work request and in the
server's observation loop.  The embedding is one development indexed by
`Demo`.

Every call into libibverbs, librdmacm and the socket layer is an entry of a
trace (`Call`), carrying its arguments and the result the environment gave.
The environment (`Env`) scripts those results.  A run is a pure function from
configuration and environment to a return value and a trace.  Loops that can
wait for ever (completion polling, acknowledgement reads, buffer polling)
consume a finite list of scripted results; when the list is exhausted before
the loop ends the run is reported as still waiting (`ret = none`).
-/

namespace Rdma

/-! ## Constants -/

/-- Which of the three executables. -/
inductive Demo where
  | atomic
  | read
  | write
  deriving DecidableEq, Repr

def COUNTER_SIZE : Nat := 8
def MSG_SIZE : Nat := 64
def DEFAULT_PORT : Int := 18515
def DEFAULT_COUNT : Int := 10
def ATOMIC_ADD_VALUE : Nat := 1

def ROLE_UNDEF : Int := 0
def ROLE_SERVER : Int := 1
def ROLE_CLIENT : Int := 2

/-- The `enum ibv_access_flags` bits of `<infiniband/verbs.h>` used by `reg_mem`. -/
def IBV_ACCESS_LOCAL_WRITE : Nat := 1
def IBV_ACCESS_REMOTE_WRITE : Nat := 2
def IBV_ACCESS_REMOTE_READ : Nat := 4
def IBV_ACCESS_REMOTE_ATOMIC : Nat := 8

/-- The `IBV_SEND_SIGNALED` bit of `enum ibv_send_flags`. -/
def IBV_SEND_SIGNALED : Nat := 2

/-- The value `IBV_WC_SUCCESS` of `enum ibv_wc_status`. -/
def IBV_WC_SUCCESS : Nat := 0

/-- The states `IBV_QPS_RTR` and `IBV_QPS_RTS` of `enum ibv_qp_state`. -/
def IBV_QPS_RTR : Nat := 2
def IBV_QPS_RTS : Nat := 3

/-- The value `EINTR` of `<errno.h>`. -/
def EINTR : Int := 4

/-- Bytes are natural numbers below 256. -/
abbrev Bytes := List Nat

/-! ## Data model -/

/-- The `struct atomic_config` / `read_config` / `write_config`. -/
structure Config where
  role : Int
  ip : String
  port : Int
  count : Int
  deriving DecidableEq, Repr

/-- Handles stand for the non-NULL pointers returned by the libraries. -/
abbrev Handle := Nat

/-- The fields of `struct ibv_mr` the demos read. -/
structure ibv_mr where
  handle : Handle
  lkey : Nat
  rkey : Nat
  deriving DecidableEq, Repr

/-- The `struct rdma_connection`; `none` is the NULL pointer. -/
structure rdma_connection where
  ec : Option Handle
  cm_id : Option Handle
  pd : Option Handle
  comp_ch : Option Handle
  cq : Option Handle
  qp : Option Handle
  mr : Option ibv_mr
  buf : Option Nat
  deriving DecidableEq, Repr

/-- The `struct atomic_mr_info` / `read_mr_info` / `write_mr_info`. -/
structure mr_info where
  rkey : Nat
  vaddr : Nat
  deriving DecidableEq, Repr

/-- The `enum rdma_cm_event_type`, in the order of `<rdma/rdma_cma.h>`
(the order the comment in `rdma_write_demo.c` lists them). -/
inductive rdma_cm_event_type where
  | ADDR_RESOLVED
  | ADDR_ERROR
  | ROUTE_RESOLVED
  | ROUTE_ERROR
  | CONNECT_REQUEST
  | CONNECT_RESPONSE
  | CONNECT_ERROR
  | UNREACHABLE
  | REJECTED
  | ESTABLISHED
  | DISCONNECTED
  | DEVICE_REMOVAL
  | MULTICAST_JOIN
  | MULTICAST_ERROR
  | ADDR_CHANGE
  | TIMEWAIT_EXIT
  deriving DecidableEq, Repr

/-- The fields of `struct rdma_cm_event` the demos read; `tag` names the event
object, so that two events of the same kind can be told apart. -/
structure rdma_cm_event where
  tag : Nat
  event : rdma_cm_event_type
  id : Handle
  deriving DecidableEq, Repr

/-- The fields of `struct rdma_conn_param` the demos set (the rest is zeroed by `memset`). -/
structure rdma_conn_param where
  initiator_depth : Nat
  responder_resources : Nat
  retry_count : Nat
  rnr_retry_count : Nat
  deriving DecidableEq, Repr

/-- The `enum ibv_qp_type` values; only `IBV_QPT_RC` is used. -/
inductive ibv_qp_type where
  | IBV_QPT_RC
  | IBV_QPT_UC
  | IBV_QPT_UD
  deriving DecidableEq, Repr

/-- The fields of `struct ibv_qp_init_attr` that `build_qp` sets. -/
structure ibv_qp_init_attr where
  send_cq : Option Handle
  recv_cq : Option Handle
  qp_type : ibv_qp_type
  max_send_wr : Nat
  max_recv_wr : Nat
  max_send_sge : Nat
  max_recv_sge : Nat
  deriving DecidableEq, Repr

/-- The `struct ibv_sge`. -/
structure ibv_sge where
  addr : Nat
  length : Nat
  lkey : Nat
  deriving DecidableEq, Repr

/-- The `enum ibv_wr_opcode` values the demos post. -/
inductive ibv_wr_opcode where
  | IBV_WR_RDMA_WRITE
  | IBV_WR_RDMA_READ
  | IBV_WR_ATOMIC_FETCH_AND_ADD
  deriving DecidableEq, Repr

/-- The fields of `struct ibv_send_wr` the demos set.  `remote_addr` and `rkey`
are `wr.wr.atomic.*` in the atomic demo and `wr.wr.rdma.*` in the others;
`compare_add` is set by the atomic demo only. -/
structure ibv_send_wr where
  sg_list : List ibv_sge
  num_sge : Nat
  opcode : ibv_wr_opcode
  send_flags : Nat
  remote_addr : Nat
  rkey : Nat
  compare_add : Nat
  deriving DecidableEq, Repr

/-- The `enum ibv_wc_opcode` values; `other` stands for the remaining ones. -/
inductive ibv_wc_opcode where
  | IBV_WC_SEND
  | IBV_WC_RDMA_WRITE
  | IBV_WC_RDMA_READ
  | IBV_WC_COMP_SWAP
  | IBV_WC_FETCH_ADD
  | other (code : Nat)
  deriving DecidableEq, Repr

/-- One result of `ibv_poll_cq(cq, 1, &wc)`: the return value `n` and the work
completion it stored (looked at only when `n > 0`). -/
structure PollResult where
  n : Int
  status : Nat
  opcode : ibv_wc_opcode
  deriving DecidableEq, Repr

/-- One result of `read(conn_sock, ack_buf, sizeof(ack_buf))` in the server's
observation loop: the return value, the `errno` it left, and the value found
in `*server_conn.buf` when the atomic server loads it after this read. -/
structure AckRead where
  n : Int
  errno : Int
  counter : Nat
  deriving DecidableEq, Repr

/-! ## Traces -/

/-- A call into libibverbs, librdmacm, libc or the socket layer, with its
arguments and the result the environment returned.  `stderr` is an
`fprintf(stderr, ...)` diagnostic (format string without its arguments and
newline).  `load_event_id` is the server's read of `evt->id`, `load_counter`
a read of the registered counter and `snprintf_buf` a write of the registered
buffer: accesses to memory that a peer or the library also touches. -/
inductive Call where
  | rdma_create_event_channel (res : Option Handle)
  | rdma_create_id (ec : Option Handle) (res : Option Handle)
  | rdma_bind_addr (id : Option Handle) (sin_port : Nat) (ok : Bool)
  | rdma_listen (id : Option Handle) (backlog : Nat) (ok : Bool)
  | rdma_resolve_addr (id : Option Handle) (sin_port : Nat) (timeout_ms : Nat) (ok : Bool)
  | rdma_resolve_route (id : Option Handle) (timeout_ms : Nat) (ok : Bool)
  | rdma_get_cm_event (ec : Option Handle) (res : Option rdma_cm_event)
  | load_event_id (ev : rdma_cm_event)
  | rdma_ack_cm_event (ev : rdma_cm_event)
  | ibv_alloc_pd (res : Option Handle)
  | ibv_create_comp_channel (res : Option Handle)
  | ibv_create_cq (cqe : Nat) (channel : Option Handle) (res : Option Handle)
  | rdma_create_qp (id : Option Handle) (pd : Option Handle) (attr : ibv_qp_init_attr)
      (res : Option Handle)
  | posix_memalign (alignment : Nat) (size : Nat) (res : Option Nat)
  | ibv_reg_mr (pd : Option Handle) (addr : Option Nat) (length : Nat) (access : Nat)
      (res : Option ibv_mr)
  | rdma_accept (id : Option Handle) (param : rdma_conn_param) (ok : Bool)
  | rdma_connect (id : Option Handle) (param : rdma_conn_param) (ok : Bool)
  | ibv_query_qp (qp : Option Handle) (res : Option Nat)
  | ibv_modify_qp (qp : Option Handle) (value : Int) (ok : Bool)
  | socket (res : Int)
  | setsockopt (fd : Int)
  | bind (fd : Int) (sin_port : Nat) (res : Int)
  | listen (fd : Int) (backlog : Nat)
  | accept (fd : Int) (res : Int)
  | connect (fd : Int) (sin_port : Nat) (res : Int)
  | write (fd : Int) (data : Bytes) (res : Int)
  | read (fd : Int) (count : Nat) (res : Int)
  | close (fd : Int)
  | snprintf_buf (k : Int)
  | load_counter (value : Nat)
  | ibv_post_send (qp : Option Handle) (wr : ibv_send_wr) (ok : Bool)
  | ibv_poll_cq (cq : Option Handle) (res : PollResult)
  | ibv_dereg_mr (mr : ibv_mr)
  | ibv_destroy_cq (cq : Handle)
  | ibv_destroy_comp_channel (ch : Handle)
  | ibv_dealloc_pd (pd : Handle)
  | rdma_destroy_id (id : Handle)
  | rdma_destroy_event_channel (ec : Handle)
  | free (addr : Nat)
  | stderr (msg : String)
  deriving DecidableEq, Repr

/-! ## Teardown -/

/-- The `rdma_connection_cleanup` of all three demos: seven guarded release
calls, in source order. -/
def rdma_connection_cleanup (conn : rdma_connection) : List Call :=
  (match conn.mr with | some m => [Call.ibv_dereg_mr m] | none => []) ++
  (match conn.cq with | some h => [Call.ibv_destroy_cq h] | none => []) ++
  (match conn.comp_ch with | some h => [Call.ibv_destroy_comp_channel h] | none => []) ++
  (match conn.pd with | some h => [Call.ibv_dealloc_pd h] | none => []) ++
  (match conn.cm_id with | some h => [Call.rdma_destroy_id h] | none => []) ++
  (match conn.ec with | some h => [Call.rdma_destroy_event_channel h] | none => []) ++
  (match conn.buf with | some a => [Call.free a] | none => [])

/-! ## Descriptor layout and byte order -/

/-- Round `off` up to a multiple of `a`. -/
def align_up (off a : Nat) : Nat := (off + a - 1) / a * a

/-- Offset of each field and total size of a C struct whose fields have the
given `(size, alignment)`, laid out in declaration order: every field at the
next multiple of its alignment, the total rounded up to the largest
alignment. -/
def struct_layout : List (Nat × Nat) → Nat → Nat → List Nat × Nat
  | [], off, al => ([], align_up off al)
  | (sz, a) :: fs, off, al =>
    let o := align_up off a
    let r := struct_layout fs (o + sz) (max al a)
    (o :: r.1, r.2)

/-- The fields `uint32_t rkey; uint64_t vaddr;` of `struct atomic_mr_info`
(`read_mr_info`, `write_mr_info`), each naturally aligned (alignment = size).
The structs carry no packing attribute. -/
def mr_info_fields : List (Nat × Nat) := [(4, 4), (8, 8)]

/-- The `sizeof(struct atomic_mr_info)`: the byte count every descriptor
`write` and `read` passes. -/
def sizeof_mr_info : Nat := (struct_layout mr_info_fields 0 1).2

/-- The `offsetof(struct atomic_mr_info, vaddr)`. -/
def offsetof_vaddr : Nat := ((struct_layout mr_info_fields 0 1).1).getD 1 0

/-- Little-endian bytes of the `k`-byte unsigned integer holding `v`. -/
def le_bytes : Nat → Nat → Bytes
  | 0, _ => []
  | k + 1, v => v % 256 :: le_bytes k (v / 256)

/-- Value of a little-endian byte string. -/
def le_value : Bytes → Nat
  | [] => 0
  | b :: bs => b + 256 * le_value bs

/-- Object representation of a descriptor: `rkey` at offset 0, `vaddr` at
`offsetof_vaddr`, the bytes between them taken from `pad` (they are never
assigned by the program). -/
def mr_info_bytes (info : mr_info) (pad : Bytes) : Bytes :=
  le_bytes 4 info.rkey ++
  ((pad ++ List.replicate (offsetof_vaddr - 4) 0).take (offsetof_vaddr - 4)) ++
  le_bytes 8 info.vaddr

/-- The descriptor stored in a struct whose object representation is `b`. -/
def mr_info_of_bytes (b : Bytes) : mr_info :=
  { rkey := le_value (b.take 4), vaddr := le_value ((b.drop offsetof_vaddr).take 8) }

/-- The 16-bit port number `htons(x)` puts in a socket address. -/
def htons (x : Int) : Nat := (x % 65536).toNat

/-! ## Environment -/

/-- Scripted results of every external call of one process run. -/
structure Env where
  /-- `rdma_create_event_channel()`; `none` is NULL. -/
  create_event_channel : Option Handle
  /-- `rdma_create_id`: `none` is a non-zero return, `some h` stores `h` in `conn->cm_id`. -/
  create_id : Option Handle
  bind_addr : Bool
  listen : Bool
  resolve_addr : Bool
  resolve_route : Bool
  /-- Result of the `k`-th `rdma_get_cm_event` (from 0); `none` is a non-zero return. -/
  cm_event : Nat → Option rdma_cm_event
  alloc_pd : Option Handle
  create_comp_channel : Option Handle
  create_cq : Option Handle
  /-- `rdma_create_qp`: `none` is a non-zero return, `some h` is the `cm_id->qp` it set. -/
  create_qp : Option Handle
  /-- `posix_memalign`: `none` is a non-zero return, `some a` the address stored in `conn->buf`. -/
  memalign : Option Nat
  reg_mr : Option ibv_mr
  accept : Bool
  connect : Bool
  /-- `ibv_query_qp`: `none` is a non-zero return, `some s` the `qp_state` it reported. -/
  query_qp : Option Nat
  /-- Success of the `k`-th `ibv_modify_qp` (0: RNR timer, 1: timeout). -/
  modify_qp : Nat → Bool
  socket : Int
  bind : Int
  sock_accept : Int
  sock_connect : Int
  /-- Bytes found in the padding of the uninitialised `local_info`. -/
  stack_pad : Bytes
  /-- Return value of the `write` of `local_info`. -/
  write_info : Int
  /-- Return value of the `read` into `remote_info`. -/
  read_info : Int
  /-- Bytes that `read` left in `remote_info`. -/
  read_info_data : Bytes
  /-- Server: successive results of the acknowledgement `read`. -/
  ack_reads : List AckRead
  /-- Write-demo server: successive contents of the registered buffer, as seen
  by `memcmp` and then by `memcpy` of one loop iteration. -/
  buf_polls : List (Bytes × Bytes)
  /-- Client: success of `ibv_post_send` in iteration `i`. -/
  post_send : Nat → Bool
  /-- Client: successive results of `ibv_poll_cq`. -/
  polls : List PollResult
  /-- Client: return value of `write(sockfd, "ACK", 3)` in iteration `i`. -/
  ack_write : Nat → Int
  /-- Client, atomic demo: the server's counter before the first operation. -/
  remote_counter : Nat
  /-- Client, read demo: the server's buffer at the instant of the `i`-th read. -/
  remote_text : Nat → Bytes
  /-- Server, atomic demo: the value found in `*server_conn.buf` by the `printf`
  that follows the observation loop. -/
  final_counter : Nat

/-! ## Session set-up -/

/-- Return value, session and trace of a set-up function. -/
structure ConnResult where
  ret : Int
  conn : rdma_connection
  trace : List Call

/-- The `rdma_connection_init` of all three demos. -/
def rdma_connection_init (cfg : Config) (env : Env) : ConnResult :=
  let conn0 : rdma_connection := ⟨none, none, none, none, none, none, none, none⟩
  match env.create_event_channel with
  | none =>
    ⟨-1, conn0, [Call.rdma_create_event_channel none,
      Call.stderr "rdma_create_event_channel 失败"]⟩
  | some ec =>
    let conn1 := { conn0 with ec := some ec }
    let t1 := [Call.rdma_create_event_channel (some ec)]
    match env.create_id with
    | none =>
      ⟨-1, conn1, t1 ++ [Call.rdma_create_id conn1.ec none, Call.stderr "rdma_create_id 失败 %d"]⟩
    | some id =>
      let conn2 := { conn1 with cm_id := some id }
      let t2 := t1 ++ [Call.rdma_create_id conn1.ec (some id)]
      if cfg.role = ROLE_SERVER then
        if env.bind_addr then
          if env.listen then
            ⟨0, conn2, t2 ++ [Call.rdma_bind_addr conn2.cm_id (htons cfg.port) true,
              Call.rdma_listen conn2.cm_id 1 true]⟩
          else
            ⟨-1, conn2, t2 ++ [Call.rdma_bind_addr conn2.cm_id (htons cfg.port) true,
              Call.rdma_listen conn2.cm_id 1 false, Call.stderr "rdma_listen 失败 %d"]⟩
        else
          ⟨-1, conn2, t2 ++ [Call.rdma_bind_addr conn2.cm_id (htons cfg.port) false,
            Call.stderr "rdma_bind_addr 失败 %d"]⟩
      else
        if env.resolve_addr then
          ⟨0, conn2, t2 ++ [Call.rdma_resolve_addr conn2.cm_id (htons cfg.port) 2000 true]⟩
        else
          ⟨-1, conn2, t2 ++ [Call.rdma_resolve_addr conn2.cm_id (htons cfg.port) 2000 false,
            Call.stderr "rdma_resolve_addr 失败 %d"]⟩

/-- Result of `wait_event`: `evt = some e` when it returned 0 and stored `e`
in `*evt`, `none` when it returned -1. -/
structure EventResult where
  evt : Option rdma_cm_event
  trace : List Call

/-- Return value of `wait_event`. -/
def EventResult.ret (r : EventResult) : Int := if r.evt.isSome then 0 else -1

/-- The `wait_event` of all three demos; `res` is what `rdma_get_cm_event` gives. -/
def wait_event (conn : rdma_connection) (expect : rdma_cm_event_type)
    (res : Option rdma_cm_event) : EventResult :=
  match res with
  | none =>
    ⟨none, [Call.rdma_get_cm_event conn.ec none, Call.stderr "rdma_get_cm_event 失败 %d"]⟩
  | some ev =>
    if ev.event ≠ expect then
      ⟨none, [Call.rdma_get_cm_event conn.ec (some ev), Call.stderr "期望事件 %d, 实际事件 %d",
        Call.rdma_ack_cm_event ev]⟩
    else
      ⟨some ev, [Call.rdma_get_cm_event conn.ec (some ev)]⟩

/-- The attributes `build_qp` passes to `rdma_create_qp`. -/
def qp_init_attr (conn : rdma_connection) : ibv_qp_init_attr :=
  { send_cq := conn.cq, recv_cq := conn.cq, qp_type := ibv_qp_type.IBV_QPT_RC,
    max_send_wr := 10, max_recv_wr := 10, max_send_sge := 1, max_recv_sge := 1 }

/-- The `build_qp` of all three demos. -/
def build_qp (conn : rdma_connection) (env : Env) : ConnResult :=
  match env.alloc_pd with
  | none => ⟨-1, conn, [Call.ibv_alloc_pd none, Call.stderr "ibv_alloc_pd 失败"]⟩
  | some pd =>
    let conn1 := { conn with pd := some pd }
    let t1 := [Call.ibv_alloc_pd (some pd)]
    match env.create_comp_channel with
    | none =>
      ⟨-1, conn1, t1 ++ [Call.ibv_create_comp_channel none,
        Call.stderr "ibv_create_comp_channel 失败"]⟩
    | some ch =>
      let conn2 := { conn1 with comp_ch := some ch }
      let t2 := t1 ++ [Call.ibv_create_comp_channel (some ch)]
      match env.create_cq with
      | none =>
        ⟨-1, conn2, t2 ++ [Call.ibv_create_cq 10 conn2.comp_ch none,
          Call.stderr "ibv_create_cq 失败"]⟩
      | some cq =>
        let conn3 := { conn2 with cq := some cq }
        let t3 := t2 ++ [Call.ibv_create_cq 10 conn2.comp_ch (some cq)]
        match env.create_qp with
        | none =>
          ⟨-1, conn3, t3 ++ [Call.rdma_create_qp conn3.cm_id conn3.pd (qp_init_attr conn3) none,
            Call.stderr "rdma_create_qp 失败"]⟩
        | some qp =>
          ⟨0, { conn3 with qp := some qp },
            t3 ++ [Call.rdma_create_qp conn3.cm_id conn3.pd (qp_init_attr conn3) (some qp)]⟩

/-- Size of the registered buffer: `COUNTER_SIZE` or `MSG_SIZE`. -/
def buf_size : Demo → Nat
  | Demo.atomic => COUNTER_SIZE
  | Demo.read => MSG_SIZE
  | Demo.write => MSG_SIZE

/-- Access rights `reg_mem` passes to `ibv_reg_mr`. -/
def mr_access : Demo → Nat
  | Demo.atomic => IBV_ACCESS_LOCAL_WRITE ||| IBV_ACCESS_REMOTE_ATOMIC
  | Demo.read => IBV_ACCESS_LOCAL_WRITE ||| IBV_ACCESS_REMOTE_READ ||| IBV_ACCESS_REMOTE_WRITE
  | Demo.write => IBV_ACCESS_LOCAL_WRITE ||| IBV_ACCESS_REMOTE_WRITE ||| IBV_ACCESS_REMOTE_READ

/-- Result of `reg_mem`: as `ConnResult`, with the contents of the buffer
(`*conn->buf = 0` / `memset(conn->buf, 0, MSG_SIZE)`) once it is allocated. -/
structure RegResult where
  ret : Int
  conn : rdma_connection
  data : Bytes
  trace : List Call

/-- The `reg_mem` of the three demos. -/
def reg_mem (d : Demo) (conn : rdma_connection) (env : Env) : RegResult :=
  match env.memalign with
  | none =>
    ⟨-1, conn, [], [Call.posix_memalign 4096 (buf_size d) none, Call.stderr "posix_memalign 失败"]⟩
  | some a =>
    let conn1 := { conn with buf := some a }
    let data := List.replicate (buf_size d) 0
    let t1 := [Call.posix_memalign 4096 (buf_size d) (some a)]
    match env.reg_mr with
    | none =>
      ⟨-1, conn1, data, t1 ++ [Call.ibv_reg_mr conn1.pd conn1.buf (buf_size d) (mr_access d) none,
        Call.stderr "ibv_reg_mr 失败"]⟩
    | some m =>
      ⟨0, { conn1 with mr := some m }, data,
        t1 ++ [Call.ibv_reg_mr conn1.pd conn1.buf (buf_size d) (mr_access d) (some m)]⟩

/-- Second half of `modify_qp_timeout` (read demo): the `IBV_QPS_RTS` test on
the current `qp_attr.qp_state`, setting `qp_attr.timeout = time`. -/
def modify_qp_timeout_rts (conn : rdma_connection) (time : Int) (env : Env) (qp_state : Nat)
    (t : List Call) : Int × List Call :=
  if qp_state = IBV_QPS_RTS then
    if env.modify_qp 1 then (0, t ++ [Call.ibv_modify_qp conn.qp time true])
    else (-1, t ++ [Call.ibv_modify_qp conn.qp time false,
      Call.stderr "[服务端] 设置 QP 超时属性失败: %s"])
  else (0, t)

/-- The `modify_qp_timeout` of the read demo.  In the first branch `qp_attr`
is zeroed by `memset` before `min_rnr_timer = time` is set, so the later test
reads `qp_state = 0`. -/
def modify_qp_timeout (conn : rdma_connection) (time : Int) (env : Env) : Int × List Call :=
  match env.query_qp with
  | none => (-1, [Call.ibv_query_qp conn.qp none])
  | some st =>
    let t0 := [Call.ibv_query_qp conn.qp (some st)]
    if IBV_QPS_RTR ≤ st then
      if env.modify_qp 0 then
        modify_qp_timeout_rts conn time env 0 (t0 ++ [Call.ibv_modify_qp conn.qp time true])
      else
        (-1, t0 ++ [Call.ibv_modify_qp conn.qp time false,
          Call.stderr "[服务端] 设置 QP RNR 超时属性失败: %s"])
    else modify_qp_timeout_rts conn time env st t0

/-- The `conn_param` passed to `rdma_accept` / `rdma_connect`: zeroed by
`memset`, then the assignments of the demo at hand. -/
def conn_param : Demo → rdma_conn_param
  | Demo.atomic => ⟨1, 1, 7, 7⟩
  | Demo.read => ⟨1, 1, 7, 7⟩
  | Demo.write => ⟨1, 1, 0, 0⟩

/-! ## Buffer contents -/

/-- The UTF-8 bytes of `MSG_STR` / `MSG_BASE`, the text "你好，汉为信息". -/
def MSG_STR : Bytes :=
  [228, 189, 160, 229, 165, 189, 239, 188, 140, 230, 177, 137, 228, 184, 186,
   228, 191, 161, 230, 129, 175]

/-- The characters `%d` prints for `k`. -/
def decimal (k : Int) : Bytes :=
  if k < 0 then 45 :: (Nat.toDigits 10 k.natAbs).map Char.toNat
  else (Nat.toDigits 10 k.natAbs).map Char.toNat

/-- The string `"%s%d"` formats from `MSG_STR` and `k`. -/
def format_msg (k : Int) : Bytes := MSG_STR ++ decimal k

/-- Contents of `buf` after `snprintf(buf, size, ...)` produced the string `s`:
at most `size - 1` bytes of `s`, a NUL, and the old contents behind it. -/
def snprintf (buf : Bytes) (size : Nat) (s : Bytes) : Bytes :=
  (s.take (size - 1) ++ [0]) ++ buf.drop ((s.take (size - 1)).length + 1)

/-- The bytes of `"ACK"`. -/
def ACK : Bytes := [65, 67, 75]

/-! ## Control flow of a run -/

/-- How a part of `run_server` / `run_client` ended: it ran to its end, it
jumped to `cleanup` after a failure, or the scripted results ran out while a
loop was still waiting. -/
inductive Exit where
  | finished
  | failed
  | waiting
  deriving DecidableEq, Repr

/-! ## Server -/

/-- Lines 231-263 of `run_server` (atomic demo; the same steps in the other
two): connect request, `build_qp`, `reg_mem`, `rdma_accept`, established.
After `reg_mem` the read server writes its first message into the buffer and
the atomic server's `printf` reads the counter (line 248), which still holds
what `reg_mem` stored: no peer is connected yet. -/
def server_handshake (d : Demo) (env : Env) (conn0 : rdma_connection) : ConnResult :=
  let w := wait_event conn0 rdma_cm_event_type.CONNECT_REQUEST (env.cm_event 0)
  match w.evt with
  | none => ⟨-1, conn0, w.trace ++ [Call.stderr "等待连接请求失败"]⟩
  | some evt =>
    let child := evt.id
    let conn1 := { conn0 with cm_id := some child }
    let t1 := w.trace ++ [Call.load_event_id evt, Call.rdma_ack_cm_event evt]
    let b := build_qp conn1 env
    if b.ret ≠ 0 then ⟨-1, b.conn, t1 ++ b.trace ++ [Call.stderr "传输队列创建失败"]⟩
    else
      let r := reg_mem d b.conn env
      if r.ret ≠ 0 then ⟨-1, r.conn, t1 ++ b.trace ++ r.trace ++ [Call.stderr "rdma 内存注册失败"]⟩
      else
        let t2 := t1 ++ b.trace ++ r.trace ++
          (if d = Demo.read then [Call.snprintf_buf 1] else []) ++
          (if d = Demo.atomic then [Call.load_counter (le_value r.data)] else [])
        if env.accept then
          let t3 := t2 ++ [Call.rdma_accept r.conn.cm_id (conn_param d) true]
          let w2 := wait_event r.conn rdma_cm_event_type.ESTABLISHED (env.cm_event 1)
          match w2.evt with
          | none => ⟨-1, r.conn, t3 ++ w2.trace ++ [Call.stderr "等待连接建立成功事件失败"]⟩
          | some evt2 =>
            let t4 := t3 ++ w2.trace ++ [Call.rdma_ack_cm_event evt2]
            if d = Demo.read then
              let m := modify_qp_timeout r.conn 12 env
              ⟨0, r.conn, t4 ++ m.2 ++
                (if m.1 ≠ 0 then [Call.stderr "设置qp超时时间失败"] else [])⟩
            else ⟨0, r.conn, t4⟩
        else
          ⟨-1, r.conn, t2 ++ [Call.rdma_accept r.conn.cm_id (conn_param d) false,
            Call.stderr "rdma_accept 失败"]⟩

/-- The socket variables of `run_server` after a step, with the step's outcome. -/
structure ServerSock where
  ret : Int
  listen_sock : Int
  conn_sock : Int
  trace : List Call

/-- Lines 266-286 of `run_server`: `socket`, `setsockopt`, `bind`, `listen`, `accept`. -/
def server_socket (cfg : Config) (env : Env) : ServerSock :=
  let listen_sock := env.socket
  if listen_sock < 0 then
    ⟨-1, listen_sock, -1, [Call.socket listen_sock, Call.stderr "socket 创建失败"]⟩
  else
    let t1 := [Call.socket listen_sock, Call.setsockopt listen_sock]
    if env.bind < 0 then
      ⟨-1, listen_sock, -1, t1 ++ [Call.bind listen_sock (htons (cfg.port + 1)) env.bind,
        Call.stderr "bind 失败"]⟩
    else
      let t2 := t1 ++ [Call.bind listen_sock (htons (cfg.port + 1)) env.bind,
        Call.listen listen_sock 1]
      let conn_sock := env.sock_accept
      if conn_sock < 0 then
        ⟨-1, listen_sock, conn_sock, t2 ++ [Call.accept listen_sock conn_sock,
          Call.stderr "accept 失败"]⟩
      else ⟨0, listen_sock, conn_sock, t2 ++ [Call.accept listen_sock conn_sock]⟩

/-- The `local_info` a peer fills in from its session: `mr->rkey` and the
buffer address.  Both are set whenever the program reaches this point (the
defaults stand for a NULL dereference that cannot happen). -/
def local_info (conn : rdma_connection) : mr_info :=
  { rkey := (conn.mr.map ibv_mr.rkey).getD 0, vaddr := conn.buf.getD 0 }

/-- Lines 288-298 of `run_server`: write `local_info`, then read `remote_info`.
The write demo then closes both sockets without resetting the variables. -/
def server_exchange (d : Demo) (env : Env) (conn : rdma_connection)
    (listen_sock conn_sock : Int) : Int × List Call :=
  let t1 := [Call.write conn_sock (mr_info_bytes (local_info conn) env.stack_pad) env.write_info]
  if env.write_info ≠ sizeof_mr_info then (-1, t1 ++ [Call.stderr "write local_info 失败"])
  else
    let t2 := t1 ++ [Call.read conn_sock sizeof_mr_info env.read_info]
    if env.read_info ≠ sizeof_mr_info then (-1, t2 ++ [Call.stderr "read remote_info 失败"])
    else if d = Demo.write then (0, t2 ++ [Call.close conn_sock, Call.close listen_sock])
    else (0, t2)

/-- How the server's observation loop ended. -/
inductive LoopExit where
  | reached
  | peer_closed
  | read_error
  | waiting
  deriving DecidableEq, Repr

/-- Outcome of the server's observation loop: the final `operation_count` /
`received_count` / `received_msg_count`, and (write demo) the final `last_buf`. -/
structure LoopResult where
  exit : LoopExit
  count : Int
  last_buf : Bytes
  trace : List Call

/-- What the server does after a counted acknowledgement: the atomic server
loads the counter, the read server rewrites its buffer. -/
def ack_effect (d : Demo) (count : Int) (r : AckRead) : List Call :=
  match d with
  | Demo.atomic => [Call.load_counter r.counter]
  | Demo.read => [Call.snprintf_buf (count + 1)]
  | Demo.write => []

/-- Lines 302-319 of `run_server` (atomic and read demo):
`while (operation_count < cfg->count)` around the acknowledgement `read`. -/
def server_ack_loop (d : Demo) (conn_sock : Int) (count : Int) :
    Int → List AckRead → LoopResult
  | c, [] => if c < count then ⟨LoopExit.waiting, c, [], []⟩ else ⟨LoopExit.reached, c, [], []⟩
  | c, r :: rs =>
    if c < count then
      if r.n > 0 then
        let l := server_ack_loop d conn_sock count (c + 1) rs
        ⟨l.exit, l.count, l.last_buf,
          [Call.read conn_sock 8 r.n] ++ ack_effect d (c + 1) r ++ l.trace⟩
      else if r.n = 0 then ⟨LoopExit.peer_closed, c, [], [Call.read conn_sock 8 r.n]⟩
      else if r.errno = EINTR then
        let l := server_ack_loop d conn_sock count c rs
        ⟨l.exit, l.count, l.last_buf, [Call.read conn_sock 8 r.n] ++ l.trace⟩
      else ⟨LoopExit.read_error, c, [], [Call.read conn_sock 8 r.n, Call.stderr "ack 读取失败"]⟩
    else ⟨LoopExit.reached, c, [], []⟩

/-- Lines 360-367 of `run_server` (write demo):
`while (received_msg_count < cfg->count)` around `memcmp` / `memcpy`. -/
def server_poll_loop (count : Int) : Int → Bytes → List (Bytes × Bytes) → LoopResult
  | c, last, [] =>
    if c < count then ⟨LoopExit.waiting, c, last, []⟩ else ⟨LoopExit.reached, c, last, []⟩
  | c, last, p :: ps =>
    if c < count then
      if last.take MSG_SIZE ≠ p.1.take MSG_SIZE then
        server_poll_loop count (c + 1) (p.2.take MSG_SIZE) ps
      else server_poll_loop count c last ps
    else ⟨LoopExit.reached, c, last, []⟩

/-- The observation loop of the demo at hand. -/
def server_loop (d : Demo) (cfg : Config) (env : Env) (conn_sock : Int) : LoopResult :=
  match d with
  | Demo.write => server_poll_loop cfg.count 0 (List.replicate MSG_SIZE 0) env.buf_polls
  | _ => server_ack_loop d conn_sock cfg.count 0 env.ack_reads

/-- State of `run_server` when it reaches the label `cleanup` (or stops waiting). -/
structure ServerBody where
  exit : Exit
  conn : rdma_connection
  listen_sock : Int
  conn_sock : Int
  loop : Option LoopResult
  trace : List Call

/-- What follows the observation loop before the label `cleanup`: the atomic
server's `printf` reads the counter once more (line 320). -/
def server_finish (d : Demo) (env : Env) : List Call :=
  if d = Demo.atomic then [Call.load_counter env.final_counter] else []

/-- Body of `run_server` between `rdma_connection_init` and the label `cleanup`:
handshake, socket set-up, descriptor exchange, observation loop and, once the
loop is left, what follows it. -/
def server_body (d : Demo) (cfg : Config) (env : Env) (conn0 : rdma_connection) : ServerBody :=
  let h := server_handshake d env conn0
  if h.ret ≠ 0 then ⟨Exit.failed, h.conn, -1, -1, none, h.trace⟩
  else
    let s := server_socket cfg env
    if s.ret ≠ 0 then ⟨Exit.failed, h.conn, s.listen_sock, s.conn_sock, none, h.trace ++ s.trace⟩
    else
      let x := server_exchange d env h.conn s.listen_sock s.conn_sock
      if x.1 ≠ 0 then
        ⟨Exit.failed, h.conn, s.listen_sock, s.conn_sock, none, h.trace ++ s.trace ++ x.2⟩
      else
        let l := server_loop d cfg env s.conn_sock
        ⟨if l.exit = LoopExit.waiting then Exit.waiting else Exit.finished,
          h.conn, s.listen_sock, s.conn_sock, some l,
          h.trace ++ s.trace ++ x.2 ++ l.trace ++
            (if l.exit = LoopExit.waiting then [] else server_finish d env)⟩

/-- The statements at the label `cleanup` of `run_server`. -/
def server_cleanup (conn : rdma_connection) (listen_sock conn_sock : Int) : List Call :=
  (if conn_sock ≥ 0 then [Call.close conn_sock] else []) ++
  (if listen_sock ≥ 0 then [Call.close listen_sock] else []) ++
  rdma_connection_cleanup conn

/-- Outcome of `run_server`: the return value (`none` while still waiting),
the trace, and the observation loop's result when it was entered. -/
structure ServerRun where
  ret : Option Int
  trace : List Call
  loop : Option LoopResult

/-- The `run_server` of the three demos. -/
def run_server (d : Demo) (cfg : Config) (env : Env) : ServerRun :=
  let i := rdma_connection_init cfg env
  if i.ret ≠ 0 then ⟨some (-1), i.trace ++ [Call.stderr "初始化会话资源失败"], none⟩
  else
    let b := server_body d cfg env i.conn
    match b.exit with
    | Exit.waiting => ⟨none, i.trace ++ b.trace, b.loop⟩
    | _ =>
      ⟨some 0, i.trace ++ b.trace ++ server_cleanup b.conn b.listen_sock b.conn_sock, b.loop⟩

/-! ## Client -/

/-- Lines 347-384 of `run_client` (atomic demo; the same steps in the other
two): address resolved, `rdma_resolve_route`, route resolved, `build_qp`,
`reg_mem`, `rdma_connect`, established. -/
def client_handshake (d : Demo) (env : Env) (conn0 : rdma_connection) : RegResult :=
  let w := wait_event conn0 rdma_cm_event_type.ADDR_RESOLVED (env.cm_event 0)
  match w.evt with
  | none => ⟨-1, conn0, [], w.trace ++ [Call.stderr "地址解析失败"]⟩
  | some evt =>
    let t1 := w.trace ++ [Call.rdma_ack_cm_event evt]
    if env.resolve_route then
      let t2 := t1 ++ [Call.rdma_resolve_route conn0.cm_id 2000 true]
      let w1 := wait_event conn0 rdma_cm_event_type.ROUTE_RESOLVED (env.cm_event 1)
      match w1.evt with
      | none => ⟨-1, conn0, [], t2 ++ w1.trace ++ [Call.stderr "路由解析事件失败"]⟩
      | some evt1 =>
        let t3 := t2 ++ w1.trace ++ [Call.rdma_ack_cm_event evt1]
        let b := build_qp conn0 env
        if b.ret ≠ 0 then ⟨-1, b.conn, [], t3 ++ b.trace ++ [Call.stderr "传输队列创建失败"]⟩
        else
          let r := reg_mem d b.conn env
          if r.ret ≠ 0 then
            ⟨-1, r.conn, r.data, t3 ++ b.trace ++ r.trace ++ [Call.stderr "rdma 内存注册失败"]⟩
          else
            let t4 := t3 ++ b.trace ++ r.trace
            if env.connect then
              let t5 := t4 ++ [Call.rdma_connect r.conn.cm_id (conn_param d) true]
              let w2 := wait_event r.conn rdma_cm_event_type.ESTABLISHED (env.cm_event 2)
              match w2.evt with
              | none =>
                ⟨-1, r.conn, r.data, t5 ++ w2.trace ++ [Call.stderr "等待连接建立成功事件失败"]⟩
              | some evt2 =>
                let t6 := t5 ++ w2.trace ++ [Call.rdma_ack_cm_event evt2]
                if d = Demo.read then
                  let m := modify_qp_timeout r.conn 12 env
                  ⟨0, r.conn, r.data, t6 ++ m.2 ++
                    (if m.1 ≠ 0 then [Call.stderr "设置qp超时时间失败"] else [])⟩
                else ⟨0, r.conn, r.data, t6⟩
            else
              ⟨-1, r.conn, r.data, t4 ++ [Call.rdma_connect r.conn.cm_id (conn_param d) false,
                Call.stderr "rdma_connect 失败"]⟩
    else
      ⟨-1, conn0, [], t1 ++ [Call.rdma_resolve_route conn0.cm_id 2000 false,
        Call.stderr "路由解析失败"]⟩

/-- The variable `sockfd` of `run_client` after a step, with the step's outcome. -/
structure ClientSock where
  ret : Int
  sockfd : Int
  trace : List Call

/-- Lines 387-399 of `run_client`: `socket`, `connect`. -/
def client_socket (cfg : Config) (env : Env) : ClientSock :=
  let sockfd := env.socket
  if sockfd < 0 then ⟨-1, sockfd, [Call.socket sockfd, Call.stderr "socket 创建失败"]⟩
  else if env.sock_connect < 0 then
    ⟨-1, sockfd, [Call.socket sockfd, Call.connect sockfd (htons (cfg.port + 1)) env.sock_connect,
      Call.stderr "connect 失败"]⟩
  else
    ⟨0, sockfd, [Call.socket sockfd, Call.connect sockfd (htons (cfg.port + 1)) env.sock_connect]⟩

/-- Outcome of the client's descriptor exchange: `sockfd` afterwards and the
`remote_info` it read. -/
structure ClientExchange where
  ret : Int
  sockfd : Int
  remote_info : mr_info
  trace : List Call

/-- Lines 402-411 of `run_client`: read `remote_info`, then write `local_info`.
The write demo then closes `sockfd` and sets it to -1. -/
def client_exchange (d : Demo) (env : Env) (conn : rdma_connection) (sockfd : Int) :
    ClientExchange :=
  let remote_info := mr_info_of_bytes env.read_info_data
  let t1 := [Call.read sockfd sizeof_mr_info env.read_info]
  if env.read_info ≠ sizeof_mr_info then
    ⟨-1, sockfd, remote_info, t1 ++ [Call.stderr "read remote_info 失败"]⟩
  else
    let t2 := t1 ++
      [Call.write sockfd (mr_info_bytes (local_info conn) env.stack_pad) env.write_info]
    if env.write_info ≠ sizeof_mr_info then
      ⟨-1, sockfd, remote_info, t2 ++ [Call.stderr "write local_info 失败"]⟩
    else if d = Demo.write then ⟨0, -1, remote_info, t2 ++ [Call.close sockfd]⟩
    else ⟨0, sockfd, remote_info, t2⟩

/-- Opcode of the work request each demo posts. -/
def wr_opcode : Demo → ibv_wr_opcode
  | Demo.atomic => ibv_wr_opcode.IBV_WR_ATOMIC_FETCH_AND_ADD
  | Demo.read => ibv_wr_opcode.IBV_WR_RDMA_READ
  | Demo.write => ibv_wr_opcode.IBV_WR_RDMA_WRITE

/-- Completion opcode each demo's wait loop breaks on. -/
def wc_expect : Demo → ibv_wc_opcode
  | Demo.atomic => ibv_wc_opcode.IBV_WC_FETCH_ADD
  | Demo.read => ibv_wc_opcode.IBV_WC_RDMA_READ
  | Demo.write => ibv_wc_opcode.IBV_WC_RDMA_WRITE

/-- Lines 414-426 of `run_client`: the scatter/gather element and the work
request, both zeroed by `memset` and then filled in.  `mr` and `buf` are set
whenever the program reaches this point. -/
def client_wr (d : Demo) (conn : rdma_connection) (remote_info : mr_info) : ibv_send_wr :=
  { sg_list := [{ addr := conn.buf.getD 0, length := buf_size d,
                  lkey := (conn.mr.map ibv_mr.lkey).getD 0 }],
    num_sge := 1,
    opcode := wr_opcode d,
    send_flags := IBV_SEND_SIGNALED,
    remote_addr := remote_info.vaddr,
    rkey := remote_info.rkey,
    compare_add := if d = Demo.atomic then ATOMIC_ADD_VALUE else 0 }

/-- How one wait for a completion ended. -/
inductive WaitOutcome where
  | completed
  | poll_error
  | wc_error
  | waiting
  deriving DecidableEq, Repr

/-- Outcome of one wait loop, its trace and the poll results it left unread. -/
structure WaitResult where
  outcome : WaitOutcome
  trace : List Call
  rest : List PollResult

/-- Lines 437-451 of `run_client`: the `while (1)` loop around `ibv_poll_cq`. -/
def wait_completion (expect : ibv_wc_opcode) (cq : Option Handle) : List PollResult → WaitResult
  | [] => ⟨WaitOutcome.waiting, [], []⟩
  | r :: rs =>
    if r.n < 0 then
      ⟨WaitOutcome.poll_error, [Call.ibv_poll_cq cq r, Call.stderr "ibv_poll_cq 失败"], rs⟩
    else if r.n = 0 then
      let w := wait_completion expect cq rs
      ⟨w.outcome, Call.ibv_poll_cq cq r :: w.trace, w.rest⟩
    else if r.status ≠ IBV_WC_SUCCESS then
      ⟨WaitOutcome.wc_error, [Call.ibv_poll_cq cq r, Call.stderr "[客户端] 完成队列错误: %s"], rs⟩
    else if r.opcode = expect then ⟨WaitOutcome.completed, [Call.ibv_poll_cq cq r], rs⟩
    else
      let w := wait_completion expect cq rs
      ⟨w.outcome, Call.ibv_poll_cq cq r :: w.trace, w.rest⟩

/-- Memory the client's operations touch: its own registered buffer, the
server's 64-bit counter (atomic demo) and the server's buffer (write demo). -/
structure Mem where
  data : Bytes
  remote_counter : Nat
  remote_text : Bytes
  deriving DecidableEq, Repr

/-- Effect of the `i`-th operation once it completed.  Fetch-and-add stores the
server counter's old value in the client's buffer and adds the addend to the
counter (64-bit); read copies the server's buffer; write copies the client's
buffer to the server. -/
def complete (d : Demo) (env : Env) (wr : ibv_send_wr) (i : Nat) (m : Mem) : Mem :=
  match d with
  | Demo.atomic =>
    { m with data := le_bytes COUNTER_SIZE m.remote_counter,
             remote_counter := (m.remote_counter + wr.compare_add) % 2 ^ 64 }
  | Demo.read => { m with data := ((env.remote_text i) ++ List.replicate MSG_SIZE 0).take MSG_SIZE }
  | Demo.write => { m with remote_text := m.data.take MSG_SIZE }

/-- Diagnostic of a failed `ibv_post_send`. -/
def post_fail_msg : Demo → String
  | Demo.atomic => "ibv_post_send (ATOMIC_FETCH_AND_ADD) 失败"
  | Demo.read => "ibv_post_send (RDMA_READ) 失败"
  | Demo.write => "ibv_post_send (RDMA_WRITE) 失败"

/-- Outcome of the client's `for` loop: the number of completed iterations,
the memory and the unread poll results. -/
structure ClientLoop where
  exit : Exit
  i : Nat
  mem : Mem
  polls : List PollResult
  trace : List Call

/-- What follows a completion inside the `for` loop: the atomic client loads
`old_value` from its buffer and sends "ACK"; the read client sends "ACK"; the
write client sends nothing.  Returns whether the iteration goes on. -/
def after_completion (d : Demo) (env : Env) (sockfd : Int) (i : Nat) (m : Mem) :
    Bool × List Call :=
  match d with
  | Demo.atomic =>
    if env.ack_write i ≠ 3 then
      (false, [Call.load_counter (le_value m.data), Call.write sockfd ACK (env.ack_write i),
        Call.stderr "ack 发送失败"])
    else (true, [Call.load_counter (le_value m.data), Call.write sockfd ACK (env.ack_write i)])
  | Demo.read =>
    if env.ack_write i ≠ 3 then
      (false, [Call.write sockfd ACK (env.ack_write i), Call.stderr "ack 发送失败"])
    else (true, [Call.write sockfd ACK (env.ack_write i)])
  | Demo.write => (true, [])

/-- Lines 430-465 of `run_client`: `for (int i = 0; i < cfg->count; ++i)`, with
`n` iterations still to run. -/
def client_loop (d : Demo) (env : Env) (conn : rdma_connection) (sockfd : Int)
    (wr : ibv_send_wr) : Nat → Nat → Mem → List PollResult → ClientLoop
  | 0, i, m, ps => ⟨Exit.finished, i, m, ps, []⟩
  | n + 1, i, m, ps =>
    let m1 : Mem :=
      if d = Demo.write then { m with data := snprintf m.data MSG_SIZE (format_msg (i + 1)) }
      else m
    let t0 := if d = Demo.write then [Call.snprintf_buf (i + 1)] else []
    if env.post_send i then
      let t1 := t0 ++ [Call.ibv_post_send conn.qp wr true]
      let w := wait_completion (wc_expect d) conn.cq ps
      match w.outcome with
      | WaitOutcome.completed =>
        let m2 := complete d env wr i m1
        let a := after_completion d env sockfd i m2
        if a.1 then
          let l := client_loop d env conn sockfd wr n (i + 1) m2 w.rest
          ⟨l.exit, l.i, l.mem, l.polls, t1 ++ w.trace ++ a.2 ++ l.trace⟩
        else ⟨Exit.failed, i, m2, w.rest, t1 ++ w.trace ++ a.2⟩
      | WaitOutcome.waiting => ⟨Exit.waiting, i, m1, w.rest, t1 ++ w.trace⟩
      | _ => ⟨Exit.failed, i, m1, w.rest, t1 ++ w.trace⟩
    else
      ⟨Exit.failed, i, m1, ps, t0 ++ [Call.ibv_post_send conn.qp wr false,
        Call.stderr (post_fail_msg d)]⟩

/-- State of `run_client` when it reaches the label `cleanup` (or stops waiting). -/
structure ClientBody where
  exit : Exit
  conn : rdma_connection
  sockfd : Int
  loop : Option ClientLoop
  trace : List Call

/-- Body of `run_client` between `rdma_connection_init` and the label `cleanup`. -/
def client_body (d : Demo) (cfg : Config) (env : Env) (conn0 : rdma_connection) : ClientBody :=
  let h := client_handshake d env conn0
  if h.ret ≠ 0 then ⟨Exit.failed, h.conn, -1, none, h.trace⟩
  else
    let s := client_socket cfg env
    if s.ret ≠ 0 then ⟨Exit.failed, h.conn, s.sockfd, none, h.trace ++ s.trace⟩
    else
      let x := client_exchange d env h.conn s.sockfd
      if x.ret ≠ 0 then ⟨Exit.failed, h.conn, x.sockfd, none, h.trace ++ s.trace ++ x.trace⟩
      else
        let l := client_loop d env h.conn x.sockfd (client_wr d h.conn x.remote_info)
          cfg.count.toNat 0 ⟨h.data, env.remote_counter, []⟩ env.polls
        ⟨l.exit, h.conn, x.sockfd, some l, h.trace ++ s.trace ++ x.trace ++ l.trace⟩

/-- The statements at the label `cleanup` of `run_client`. -/
def client_cleanup (conn : rdma_connection) (sockfd : Int) : List Call :=
  (if sockfd ≥ 0 then [Call.close sockfd] else []) ++ rdma_connection_cleanup conn

/-- Outcome of `run_client`: the return value (`none` while still waiting),
the trace, and the `for` loop's result when it was entered. -/
structure ClientRun where
  ret : Option Int
  trace : List Call
  loop : Option ClientLoop

/-- The `run_client` of the three demos. -/
def run_client (d : Demo) (cfg : Config) (env : Env) : ClientRun :=
  let i := rdma_connection_init cfg env
  if i.ret ≠ 0 then ⟨some (-1), i.trace ++ [Call.stderr "初始化会话资源失败"], none⟩
  else
    let b := client_body d cfg env i.conn
    match b.exit with
    | Exit.waiting => ⟨none, i.trace ++ b.trace, b.loop⟩
    | _ => ⟨some 0, i.trace ++ b.trace ++ client_cleanup b.conn b.sockfd, b.loop⟩

/-! ## Projections of a trace -/

/-- Position of a release call in the teardown order; `none` for other calls. -/
def release_rank : Call → Option Nat
  | Call.ibv_dereg_mr _ => some 0
  | Call.ibv_destroy_cq _ => some 1
  | Call.ibv_destroy_comp_channel _ => some 2
  | Call.ibv_dealloc_pd _ => some 3
  | Call.rdma_destroy_id _ => some 4
  | Call.rdma_destroy_event_channel _ => some 5
  | Call.free _ => some 6
  | _ => none

/-- The release calls of a trace. -/
def releases (t : List Call) : List Call := t.filter (fun c => (release_rank c).isSome)

/-- The values `old_value = *client_conn.buf` of a trace, in order. -/
def loads (t : List Call) : List Nat :=
  t.filterMap (fun c => match c with | Call.load_counter v => some v | _ => none)

/-! ## Sample runs -/

/-- The CM events of an undisturbed server run. -/
def server_events : Nat → Option rdma_cm_event
  | 0 => some ⟨1, rdma_cm_event_type.CONNECT_REQUEST, 21⟩
  | 1 => some ⟨2, rdma_cm_event_type.ESTABLISHED, 21⟩
  | _ => none

/-- The CM events of an undisturbed client run. -/
def client_events : Nat → Option rdma_cm_event
  | 0 => some ⟨1, rdma_cm_event_type.ADDR_RESOLVED, 20⟩
  | 1 => some ⟨2, rdma_cm_event_type.ROUTE_RESOLVED, 20⟩
  | 2 => some ⟨3, rdma_cm_event_type.ESTABLISHED, 20⟩
  | _ => none

/-- A server environment in which every call succeeds; the client sends two
acknowledgements and closes the side channel. -/
def env_server : Env :=
  { create_event_channel := some 10, create_id := some 20, bind_addr := true, listen := true,
    resolve_addr := true, resolve_route := true, cm_event := server_events,
    alloc_pd := some 30, create_comp_channel := some 40, create_cq := some 50,
    create_qp := some 60, memalign := some 8192, reg_mr := some ⟨70, 1001, 2002⟩,
    accept := true, connect := true, query_qp := some 3, modify_qp := fun _ => true,
    socket := 3, bind := 0, sock_accept := 4, sock_connect := 0, stack_pad := [0, 0, 0, 0],
    write_info := 16, read_info := 16, read_info_data := [],
    ack_reads := [⟨3, 0, 1⟩, ⟨3, 0, 2⟩, ⟨0, 0, 2⟩], buf_polls := [],
    post_send := fun _ => true, polls := [], ack_write := fun _ => 3,
    remote_counter := 0, remote_text := fun _ => [], final_counter := 2 }

/-- The server configuration `-s -a 10.0.0.1 -p 18515 -n 3`. -/
def cfg_server : Config := ⟨ROLE_SERVER, "10.0.0.1", 18515, 3⟩

/-- The client configuration `-c -a 10.0.0.1 -p 18515 -n 3`. -/
def cfg_client : Config := ⟨ROLE_CLIENT, "10.0.0.1", 18515, 3⟩

/-- A client environment in which every call succeeds: the descriptor read
delivers the bytes `env_server` wrote, and three operations complete. -/
def env_client : Env :=
  { create_event_channel := some 11, create_id := some 20, bind_addr := true, listen := true,
    resolve_addr := true, resolve_route := true, cm_event := client_events,
    alloc_pd := some 31, create_comp_channel := some 41, create_cq := some 51,
    create_qp := some 61, memalign := some 12288, reg_mr := some ⟨71, 3003, 4004⟩,
    accept := true, connect := true, query_qp := some 3, modify_qp := fun _ => true,
    socket := 5, bind := 0, sock_accept := 0, sock_connect := 0, stack_pad := [0, 0, 0, 0],
    write_info := 16, read_info := 16,
    read_info_data := mr_info_bytes ⟨2002, 8192⟩ [0, 0, 0, 0],
    ack_reads := [], buf_polls := [],
    post_send := fun _ => true,
    polls := [⟨0, 0, ibv_wc_opcode.IBV_WC_SEND⟩, ⟨1, 0, ibv_wc_opcode.IBV_WC_FETCH_ADD⟩,
      ⟨1, 0, ibv_wc_opcode.IBV_WC_FETCH_ADD⟩, ⟨1, 0, ibv_wc_opcode.IBV_WC_FETCH_ADD⟩],
    ack_write := fun _ => 3,
    remote_counter := 0, remote_text := fun _ => [], final_counter := 0 }

/-! ## Reading of the polling rules -/

/-- A poll result the wait loop passes over: no entry, or a successful
completion whose opcode is not the expected one. -/
def passed_over (expect : ibv_wc_opcode) (r : PollResult) : Prop :=
  r.n = 0 ∨ (0 < r.n ∧ r.status = IBV_WC_SUCCESS ∧ r.opcode ≠ expect)

/-- A successful completion with the expected opcode. -/
def matching (expect : ibv_wc_opcode) (r : PollResult) : Prop :=
  0 < r.n ∧ r.status = IBV_WC_SUCCESS ∧ r.opcode = expect

/-- Number of `read` calls of a trace that returned a positive byte count. -/
def positive_reads (t : List Call) : Nat :=
  (t.filter (fun c => match c with | Call.read _ _ n => decide (0 < n) | _ => false)).length

/-- Coarse classes of calls, used to say which calls a part of a run can make. -/
inductive Kind where
  | cm
  | verbs
  | sock
  | rd
  | wr
  | close
  | post
  | poll
  | store
  | load
  | release
  | diag
  deriving DecidableEq, Repr

/-- The class of a call. -/
def Call.kind : Call → Kind
  | Call.rdma_create_event_channel _ => Kind.cm
  | Call.rdma_create_id _ _ => Kind.cm
  | Call.rdma_bind_addr _ _ _ => Kind.cm
  | Call.rdma_listen _ _ _ => Kind.cm
  | Call.rdma_resolve_addr _ _ _ _ => Kind.cm
  | Call.rdma_resolve_route _ _ _ => Kind.cm
  | Call.rdma_get_cm_event _ _ => Kind.cm
  | Call.load_event_id _ => Kind.cm
  | Call.rdma_ack_cm_event _ => Kind.cm
  | Call.ibv_alloc_pd _ => Kind.verbs
  | Call.ibv_create_comp_channel _ => Kind.verbs
  | Call.ibv_create_cq _ _ _ => Kind.verbs
  | Call.rdma_create_qp _ _ _ _ => Kind.verbs
  | Call.posix_memalign _ _ _ => Kind.verbs
  | Call.ibv_reg_mr _ _ _ _ _ => Kind.verbs
  | Call.rdma_accept _ _ _ => Kind.cm
  | Call.rdma_connect _ _ _ => Kind.cm
  | Call.ibv_query_qp _ _ => Kind.verbs
  | Call.ibv_modify_qp _ _ _ => Kind.verbs
  | Call.socket _ => Kind.sock
  | Call.setsockopt _ => Kind.sock
  | Call.bind _ _ _ => Kind.sock
  | Call.listen _ _ => Kind.sock
  | Call.accept _ _ => Kind.sock
  | Call.connect _ _ _ => Kind.sock
  | Call.write _ _ _ => Kind.wr
  | Call.read _ _ _ => Kind.rd
  | Call.close _ => Kind.close
  | Call.snprintf_buf _ => Kind.store
  | Call.load_counter _ => Kind.load
  | Call.ibv_post_send _ _ _ => Kind.post
  | Call.ibv_poll_cq _ _ => Kind.poll
  | Call.ibv_dereg_mr _ => Kind.release
  | Call.ibv_destroy_cq _ => Kind.release
  | Call.ibv_destroy_comp_channel _ => Kind.release
  | Call.ibv_dealloc_pd _ => Kind.release
  | Call.rdma_destroy_id _ => Kind.release
  | Call.rdma_destroy_event_channel _ => Kind.release
  | Call.free _ => Kind.release
  | Call.stderr _ => Kind.diag

/-- Every call of `t` has one of the classes `ks`. -/
def kinds_in (ks : List Kind) (t : List Call) : Bool := t.all (fun c => decide (c.kind ∈ ks))

/-- The classes of the calls made while the connection is set up. -/
def setup_kinds : List Kind := [Kind.cm, Kind.verbs, Kind.store, Kind.diag]

/-! ## Parts of a run, named -/

/-- The handshake of a client run. -/
def client_run_handshake (d : Demo) (cfg : Config) (env : Env) : RegResult :=
  client_handshake d env (rdma_connection_init cfg env).conn

/-- The descriptor exchange of a client run. -/
def client_run_exchange (d : Demo) (cfg : Config) (env : Env) : ClientExchange :=
  client_exchange d env (client_run_handshake d cfg env).conn (client_socket cfg env).sockfd

/-- The `for` loop of a client run. -/
def client_run_loop (d : Demo) (cfg : Config) (env : Env) : ClientLoop :=
  client_loop d env (client_run_handshake d cfg env).conn (client_run_exchange d cfg env).sockfd
    (client_wr d (client_run_handshake d cfg env).conn (client_run_exchange d cfg env).remote_info)
    cfg.count.toNat 0 ⟨List.replicate (buf_size d) 0, env.remote_counter, []⟩ env.polls

/-- The trace of a client run up to the `for` loop. -/
def client_setup (d : Demo) (cfg : Config) (env : Env) : List Call :=
  (rdma_connection_init cfg env).trace ++ (client_run_handshake d cfg env).trace ++
    (client_socket cfg env).trace ++ (client_run_exchange d cfg env).trace

/-- The handshake of a server run. -/
def server_run_handshake (d : Demo) (cfg : Config) (env : Env) : ConnResult :=
  server_handshake d env (rdma_connection_init cfg env).conn

/-- The descriptor exchange of a server run. -/
def server_run_exchange (d : Demo) (cfg : Config) (env : Env) : Int × List Call :=
  server_exchange d env (server_run_handshake d cfg env).conn (server_socket cfg env).listen_sock
    (server_socket cfg env).conn_sock

/-- The trace of a server run up to the observation loop. -/
def server_setup (d : Demo) (cfg : Config) (env : Env) : List Call :=
  (rdma_connection_init cfg env).trace ++ (server_run_handshake d cfg env).trace ++
    (server_socket cfg env).trace ++ (server_run_exchange d cfg env).2

/-- The call is not a post, or it posts `wr` on `qp`. -/
def post_is (qp : Option Handle) (wr : ibv_send_wr) (c : Call) : Bool :=
  match c with
  | Call.ibv_post_send q w _ => decide (q = qp ∧ w = wr)
  | _ => true

/-- The side-channel events of a trace: the socket-level `accept` and
`connect`, every `read` and `write`, and every posted work request, in order. -/
def side_events (t : List Call) : List Call :=
  t.filter (fun c => match c with
    | Call.accept _ _ => true
    | Call.connect _ _ _ => true
    | Call.read _ _ _ => true
    | Call.write _ _ _ => true
    | Call.ibv_post_send _ _ _ => true
    | _ => false)

/-- Number of scripted reads that return a positive byte count. -/
def positives (rs : List AckRead) : Nat := (rs.filter (fun r => decide (0 < r.n))).length

/-- The call is not an `rdma_accept` / `rdma_connect`, or it passes the parameters `p`. -/
def param_is (p : rdma_conn_param) (c : Call) : Bool :=
  match c with
  | Call.rdma_accept _ q _ => decide (q = p)
  | Call.rdma_connect _ q _ => decide (q = p)
  | _ => true

/-- The call is an `rdma_get_cm_event`, a read of an event's identifier or an
`rdma_ack_cm_event`. -/
def is_cm_event (c : Call) : Bool :=
  match c with
  | Call.rdma_get_cm_event _ _ => true
  | Call.load_event_id _ => true
  | Call.rdma_ack_cm_event _ => true
  | _ => false

/-- The connection-manager event traffic of a trace: every `rdma_get_cm_event`,
every read of an event's identifier and every `rdma_ack_cm_event`, in order. -/
def cm_events (t : List Call) : List Call := t.filter is_cm_event

/-- The event a call retrieved successfully, if it is such a call. -/
def retrieved_by (c : Call) : Option rdma_cm_event :=
  match c with
  | Call.rdma_get_cm_event _ (some e) => some e
  | _ => none

/-- The event a call acknowledged, if it is such a call. -/
def acked_by (c : Call) : Option rdma_cm_event :=
  match c with
  | Call.rdma_ack_cm_event e => some e
  | _ => none

/-- The events a trace retrieved successfully, in order. -/
def retrieved (t : List Call) : List rdma_cm_event := t.filterMap retrieved_by

/-- The events a trace acknowledged, in order. -/
def acked (t : List Call) : List rdma_cm_event := t.filterMap acked_by

/-- Event traffic in which every successfully retrieved event is acknowledged
before the next retrieval, after at most one read of its identifier, and
nothing else is read or acknowledged. -/
def acked_once : List Call → Bool
  | [] => true
  | Call.rdma_get_cm_event _ none :: rest => acked_once rest
  | Call.rdma_get_cm_event _ (some e) :: Call.rdma_ack_cm_event e1 :: rest =>
    decide (e1 = e) && acked_once rest
  | Call.rdma_get_cm_event _ (some e) :: Call.load_event_id e1 :: Call.rdma_ack_cm_event e2 ::
      rest =>
    decide (e1 = e) && decide (e2 = e) && acked_once rest
  | _ => false

/-! ## Command line -/

/-- What one call of `getopt(argc, argv, "sca:p:n:")` returns, with the
`optarg` it sets for an option that takes an argument.  `unknown` is the
`'?'` returned for an unrecognised option or a missing argument.  A command
line is the list of the values `getopt` returns before it returns -1. -/
inductive Opt where
  | s
  | c
  | a (optarg : String)
  | p (optarg : String)
  | n (optarg : String)
  | unknown
  deriving DecidableEq, Repr

/-- The white space `atoi` skips. -/
def isspace (ch : Char) : Bool := ch.toNat = 32 ∨ (9 ≤ ch.toNat ∧ ch.toNat ≤ 13)

/-- The decimal digits at the head of a text, as a number. -/
def digits_value (acc : Nat) : List Char → Nat
  | [] => acc
  | ch :: rest =>
    if 48 ≤ ch.toNat ∧ ch.toNat ≤ 57 then digits_value (acc * 10 + (ch.toNat - 48)) rest
    else acc

/-- The number a text stands for, as the C library reads it in base 10: white
space, an optional sign, then decimal digits up to the first other character;
0 when there is no digit. -/
def decimal_value (text : String) : Int :=
  match text.toList.dropWhile isspace with
  | [] => 0
  | ch :: rest =>
    if ch.toNat = 45 then -((digits_value 0 rest : Nat) : Int)
    else if ch.toNat = 43 then ((digits_value 0 rest : Nat) : Int)
    else ((digits_value 0 (ch :: rest) : Nat) : Int)

/-- The largest and the smallest `long` (64 bits). -/
def LONG_MAX : Int := 9223372036854775807
def LONG_MIN : Int := -9223372036854775808

/-- The C library's `strtol(text, NULL, 10)`: the number the text stands for,
replaced by `LONG_MAX` or `LONG_MIN` when it is out of the range of `long`. -/
def strtol (text : String) : Int :=
  if decimal_value text > LONG_MAX then LONG_MAX
  else if decimal_value text < LONG_MIN then LONG_MIN
  else decimal_value text

/-- Conversion of a `long` to `int`: the value modulo 2^32, in the range of
`int`. -/
def to_int (v : Int) : Int := (v + 2147483648) % 4294967296 - 2147483648

/-- The C library's `atoi`, which glibc defines as `(int) strtol(text, NULL, 10)`;
its result is what `parse_args` stores in the `int` fields `port` and `count`.
A number in the range of `int` is returned as it is, a larger one wraps. -/
def atoi (text : String) : Int := to_int (strtol text)

/-- The text `strncpy(dst, src, n)` leaves in a zeroed `dst` of more than `n`
bytes: the first `n` characters of `src` (the characters stand for the bytes
of the C string; the padding erases what an earlier copy left). -/
def strncpy (src : String) (n : Nat) : String := String.mk (src.toList.take n)

/-- Outcome of `parse_args`: the value returned, the configuration as it
stands on return, and whether `print_usage` was called. -/
structure ParseResult where
  ret : Int
  cfg : Config
  usage : Bool
  deriving DecidableEq, Repr

/-- The `while ((opt = getopt(...)) != -1)` loop of `parse_args`: the
configuration reached, and `false` when the loop left through `default:`. -/
def getopt_loop (cfg : Config) : List Opt → Config × Bool
  | [] => (cfg, true)
  | Opt.s :: rest => getopt_loop { cfg with role := ROLE_SERVER } rest
  | Opt.c :: rest => getopt_loop { cfg with role := ROLE_CLIENT } rest
  | Opt.a optarg :: rest => getopt_loop { cfg with ip := strncpy optarg 63 } rest
  | Opt.p optarg :: rest => getopt_loop { cfg with port := atoi optarg } rest
  | Opt.n optarg :: rest => getopt_loop { cfg with count := atoi optarg } rest
  | Opt.unknown :: _ => (cfg, false)

/-- The `parse_args` of all three demos. -/
def parse_args (opts : List Opt) : ParseResult :=
  let cfg0 : Config := ⟨0, "", DEFAULT_PORT, DEFAULT_COUNT⟩
  let r := getopt_loop cfg0 opts
  if r.2 = false then ⟨-1, r.1, true⟩
  else if r.1.role = ROLE_UNDEF ∨ r.1.ip.toList.head? = none then ⟨-1, r.1, true⟩
  else ⟨0, r.1, false⟩

/-- Outcome of `main`: the exit value, if the run ends, and the calls made. -/
structure MainRun where
  ret : Option Int
  trace : List Call

/-- The `main` of all three demos. -/
def main (d : Demo) (opts : List Opt) (env : Env) : MainRun :=
  let r := parse_args opts
  if r.ret ≠ 0 then ⟨some (-1), [Call.stderr "参数解析失败"]⟩
  else if r.cfg.role = ROLE_SERVER then
    ⟨(run_server d r.cfg env).ret, (run_server d r.cfg env).trace⟩
  else if r.cfg.role = ROLE_CLIENT then
    ⟨(run_client d r.cfg env).ret, (run_client d r.cfg env).trace⟩
  else ⟨some (-1), [Call.stderr "角色错误"]⟩

/-- The text given with the last `-a` of a command line, if any. -/
def given_address : List Opt → Option String
  | [] => none
  | Opt.a optarg :: rest => (given_address rest).orElse (fun _ => some optarg)
  | _ :: rest => given_address rest

/-- The text given with the last `-p` of a command line, if any. -/
def given_port : List Opt → Option String
  | [] => none
  | Opt.p optarg :: rest => (given_port rest).orElse (fun _ => some optarg)
  | _ :: rest => given_port rest

/-- The text given with the last `-n` of a command line, if any. -/
def given_count : List Opt → Option String
  | [] => none
  | Opt.n optarg :: rest => (given_count rest).orElse (fun _ => some optarg)
  | _ :: rest => given_count rest

/-- The role selected by the last of the `-s` and `-c` of a command line. -/
def given_role : List Opt → Option Int
  | [] => none
  | Opt.s :: rest => (given_role rest).orElse (fun _ => some ROLE_SERVER)
  | Opt.c :: rest => (given_role rest).orElse (fun _ => some ROLE_CLIENT)
  | _ :: rest => given_role rest

/-- The port a call puts in a socket address is the one expected: `rp` for the
RDMA connection (`rdma_bind_addr`, `rdma_resolve_addr`), `sp` for the side
channel (`bind`, `connect`).  Other calls carry no port. -/
def port_is (rp sp : Nat) (c : Call) : Bool :=
  match c with
  | Call.rdma_bind_addr _ port _ => decide (port = rp)
  | Call.rdma_resolve_addr _ port _ _ => decide (port = rp)
  | Call.bind _ port _ => decide (port = sp)
  | Call.connect _ port _ => decide (port = sp)
  | _ => true

/-- The command line `-s -a 10.0.0.1 -p 18515 -n 3`, as `getopt` returns it. -/
def opts_server : List Opt := [Opt.s, Opt.a "10.0.0.1", Opt.p "18515", Opt.n "3"]

/-- The command line `-c -a 10.0.0.1 -p 18515 -n 3`, as `getopt` returns it. -/
def opts_client : List Opt := [Opt.c, Opt.a "10.0.0.1", Opt.p "18515", Opt.n "3"]

/-- The results of the server's `read` calls when the byte stream hands over
its pending bytes in the chunks `chunks`: one `read` per chunk, returning the
size of the chunk. -/
def delivery (chunks : List Nat) : List AckRead := chunks.map (fun n => ⟨(n : Int), 0, 0⟩)

/-- Contents of the client's buffer after the `snprintf` of its `i`-th
iteration (write demo), the buffer being zeroed by `reg_mem`: the `i`-th
message the client writes to the server's buffer. -/
def write_state : Nat → Bytes
  | 0 => List.replicate MSG_SIZE 0
  | i + 1 => snprintf (write_state i) MSG_SIZE (format_msg (i + 1))

/-- The polls of a server that finds the client's `j`-th message in its buffer,
for each `j` of `obs` in turn (0 is the zeroed buffer); `memcmp` and `memcpy`
see the same contents. -/
def observed (obs : List Nat) : List (Bytes × Bytes) :=
  obs.map (fun j => (write_state j, write_state j))

/-- The number a string of decimal digits stands for. -/
def dec_value (bs : Bytes) : Nat := bs.foldl (fun acc b => acc * 10 + (b - 48)) 0

/-- Every poll finds the state the previous poll found, or the next one: no
state is skipped.  `c` is the state recorded before the first poll. -/
def follows : Nat → List Nat → Bool
  | _, [] => true
  | c, j :: rest => (decide (j = c) || decide (j = c + 1)) && follows j rest

/-- The completion of an RDMA write, as `ibv_poll_cq` reports it. -/
def write_done : PollResult := ⟨1, IBV_WC_SUCCESS, ibv_wc_opcode.IBV_WC_RDMA_WRITE⟩

/-! ## Outstanding work requests -/

/-- The completion that ends a wait: at least one entry, status success and
the opcode the demo expects. -/
def is_match (d : Demo) (r : PollResult) : Bool :=
  decide (0 < r.n) && decide (r.status = IBV_WC_SUCCESS) && decide (r.opcode = wc_expect d)

/-- The call posted a work request: `ibv_post_send` returned 0. -/
def is_posted (c : Call) : Bool :=
  match c with
  | Call.ibv_post_send _ _ ok => ok
  | _ => false

/-- The call consumed a matching successful completion. -/
def is_consumed (d : Demo) (c : Call) : Bool :=
  match c with
  | Call.ibv_poll_cq _ r => is_match d r
  | _ => false

/-- Number of work requests a trace posted. -/
def posted (t : List Call) : Nat := (t.filter is_posted).length

/-- Number of matching successful completions a trace consumed. -/
def consumed (d : Demo) (t : List Call) : Nat := (t.filter (is_consumed d)).length

/-- One call seen with the flag "a work request is outstanding": the flag
afterwards, or `none` when the call is an `ibv_post_send` made while a request
is outstanding or consumes a matching completion while none is. -/
def pipeline_step (d : Demo) (b : Bool) (c : Call) : Option Bool :=
  match c with
  | Call.ibv_post_send _ _ ok => if b then none else some ok
  | Call.ibv_poll_cq _ r => if is_match d r then (if b then some false else none) else some b
  | _ => some b

/-- The flag "a work request is outstanding" followed along a trace. -/
def outstanding (d : Demo) : Bool → List Call → Option Bool
  | b, [] => some b
  | b, c :: rest => (pipeline_step d b c).bind (fun b1 => outstanding d b1 rest)

/-! ## Steps of the client's loop -/

/-- What a call of the client contributes to the course of its loop: a call of
`ibv_post_send` with its outcome, a matching successful completion, or a
`write` of the text "ACK" with the byte count it returned. -/
inductive Step where
  | post (ok : Bool)
  | done
  | ack (n : Int)
  deriving DecidableEq, Repr

/-- The step a call stands for, if any. -/
def step_of (d : Demo) (c : Call) : Option Step :=
  match c with
  | Call.ibv_post_send _ _ ok => some (Step.post ok)
  | Call.ibv_poll_cq _ r => if is_match d r then some Step.done else none
  | Call.write _ data n => if data = ACK then some (Step.ack n) else none
  | _ => none

/-- The steps of a trace, in order. -/
def steps (d : Demo) (t : List Call) : List Step := t.filterMap (step_of d)

/-- The steps of one iteration in which nothing fails: post, completion and,
in the atomic and read demos, the acknowledgement of 3 bytes. -/
def iteration : Demo → List Step
  | Demo.write => [Step.post true, Step.done]
  | _ => [Step.post true, Step.done, Step.ack 3]

/-- The steps of `n` iterations in which nothing fails. -/
def iterations (d : Demo) : Nat → List Step
  | 0 => []
  | n + 1 => iteration d ++ iterations d n

/-- Number of work requests the steps posted. -/
def posts : List Step → Nat
  | [] => 0
  | Step.post true :: rest => posts rest + 1
  | _ :: rest => posts rest

/-- Number of acknowledgement bytes the steps sent. -/
def ack_bytes : List Step → Int
  | [] => 0
  | Step.ack n :: rest => n + ack_bytes rest
  | _ :: rest => ack_bytes rest

/-- The call is no store to the registered buffer by the program (the only
such store in a trace is `snprintf` into it). -/
def no_store (c : Call) : Bool :=
  match c with
  | Call.snprintf_buf _ => false
  | _ => true

/-- The call is no load of the counter, or it loads the value found after one
of the reads `rs` that returned data. -/
def load_from (rs : List AckRead) (c : Call) : Bool :=
  match c with
  | Call.load_counter v => rs.any (fun r => decide (0 < r.n) && decide (v = r.counter))
  | _ => true

/-- The call is no load of the counter, or it loads a value the atomic server
can find there: the 0 that `reg_mem` stored, the value found after one of the
reads that returned data, or the value found after the observation loop. -/
def load_any (env : Env) (c : Call) : Bool :=
  match c with
  | Call.load_counter v =>
    decide (v = 0) || env.ack_reads.any (fun r => decide (0 < r.n) && decide (v = r.counter)) ||
      decide (v = env.final_counter)
  | _ => true

/-- The call is a `close`. -/
def is_close (c : Call) : Bool :=
  match c with
  | Call.close _ => true
  | _ => false

/-- The `close` calls of a trace, in order. -/
def close_calls (t : List Call) : List Call := t.filter is_close

/-! # Theorems -/

/-- The teardown trace as the concatenation of its seven optional steps. -/
theorem cleanup_eq (conn : rdma_connection) :
    rdma_connection_cleanup conn =
      (conn.mr.map Call.ibv_dereg_mr).toList ++ (conn.cq.map Call.ibv_destroy_cq).toList ++
      (conn.comp_ch.map Call.ibv_destroy_comp_channel).toList ++
      (conn.pd.map Call.ibv_dealloc_pd).toList ++ (conn.cm_id.map Call.rdma_destroy_id).toList ++
      (conn.ec.map Call.rdma_destroy_event_channel).toList ++ (conn.buf.map Call.free).toList := by
  rcases conn with ⟨ec, id, pd, ch, cq, qp, mr, buf⟩
  cases ec <;> cases id <;> cases pd <;> cases ch <;> cases cq <;> cases mr <;> cases buf <;> rfl

/-- Membership in the teardown trace. -/
theorem mem_cleanup (conn : rdma_connection) (c : Call) :
    c ∈ rdma_connection_cleanup conn ↔
      (∃ m, conn.mr = some m ∧ c = Call.ibv_dereg_mr m) ∨
      (∃ h, conn.cq = some h ∧ c = Call.ibv_destroy_cq h) ∨
      (∃ h, conn.comp_ch = some h ∧ c = Call.ibv_destroy_comp_channel h) ∨
      (∃ h, conn.pd = some h ∧ c = Call.ibv_dealloc_pd h) ∨
      (∃ h, conn.cm_id = some h ∧ c = Call.rdma_destroy_id h) ∨
      (∃ h, conn.ec = some h ∧ c = Call.rdma_destroy_event_channel h) ∨
      (∃ a, conn.buf = some a ∧ c = Call.free a) := by
  rw [cleanup_eq]
  simp only [List.mem_append, Option.mem_toList, Option.mem_def, Option.map_eq_some', or_assoc]
  simp only [eq_comm]

/-- A list of at most one element is pairwise related. -/
theorem pairwise_toList (R : Call → Call → Prop) (o : Option Call) : List.Pairwise R o.toList := by
  cases o <;> simp

/-- The teardown trace is strictly increasing in release rank. -/
theorem cleanup_pairwise (conn : rdma_connection) :
    List.Pairwise (fun a b => ∃ i j, release_rank a = some i ∧ release_rank b = some j ∧ i < j)
      (rdma_connection_cleanup conn) := by
  rw [cleanup_eq]
  simp only [List.pairwise_append, pairwise_toList, List.mem_append, Option.mem_toList,
    Option.mem_def, Option.map_eq_some', true_and]
  refine ⟨⟨⟨⟨⟨?_, ?_⟩, ?_⟩, ?_⟩, ?_⟩, ?_⟩ <;> intro a ha b hb <;> rcases hb with ⟨y, -, rfl⟩
  · rcases ha with ⟨x, -, rfl⟩
    exact ⟨_, _, rfl, rfl, by decide⟩
  · rcases ha with ⟨x, -, rfl⟩ | ⟨x, -, rfl⟩ <;> exact ⟨_, _, rfl, rfl, by decide⟩
  · rcases ha with (⟨x, -, rfl⟩ | ⟨x, -, rfl⟩) | ⟨x, -, rfl⟩ <;> exact ⟨_, _, rfl, rfl, by decide⟩
  · rcases ha with ((⟨x, -, rfl⟩ | ⟨x, -, rfl⟩) | ⟨x, -, rfl⟩) | ⟨x, -, rfl⟩ <;>
      exact ⟨_, _, rfl, rfl, by decide⟩
  · rcases ha with (((⟨x, -, rfl⟩ | ⟨x, -, rfl⟩) | ⟨x, -, rfl⟩) | ⟨x, -, rfl⟩) | ⟨x, -, rfl⟩ <;>
      exact ⟨_, _, rfl, rfl, by decide⟩
  · rcases ha with
      ((((⟨x, -, rfl⟩ | ⟨x, -, rfl⟩) | ⟨x, -, rfl⟩) | ⟨x, -, rfl⟩) | ⟨x, -, rfl⟩) | ⟨x, -, rfl⟩ <;>
      exact ⟨_, _, rfl, rfl, by decide⟩

/-- C3. For every session state, `rdma_connection_cleanup` issues only release
calls, in strictly increasing teardown rank (deregister memory region, destroy
completion queue, destroy completion channel, deallocate protection domain,
destroy connection identifier, destroy event channel, free the buffer), so
each at most once; a release call is issued exactly when its handle is set,
with that handle; and when both the memory region and the buffer are set, the
deregistration comes before the `free`. -/
theorem cleanup_order (conn : rdma_connection) :
    List.Pairwise (fun a b => ∃ i j, release_rank a = some i ∧ release_rank b = some j ∧ i < j)
      (rdma_connection_cleanup conn) ∧
    (∀ c ∈ rdma_connection_cleanup conn, (release_rank c).isSome) ∧
    (∀ m, Call.ibv_dereg_mr m ∈ rdma_connection_cleanup conn ↔ conn.mr = some m) ∧
    (∀ h, Call.ibv_destroy_cq h ∈ rdma_connection_cleanup conn ↔ conn.cq = some h) ∧
    (∀ h, Call.ibv_destroy_comp_channel h ∈ rdma_connection_cleanup conn ↔
      conn.comp_ch = some h) ∧
    (∀ h, Call.ibv_dealloc_pd h ∈ rdma_connection_cleanup conn ↔ conn.pd = some h) ∧
    (∀ h, Call.rdma_destroy_id h ∈ rdma_connection_cleanup conn ↔ conn.cm_id = some h) ∧
    (∀ h, Call.rdma_destroy_event_channel h ∈ rdma_connection_cleanup conn ↔
      conn.ec = some h) ∧
    (∀ a, Call.free a ∈ rdma_connection_cleanup conn ↔ conn.buf = some a) ∧
    (∀ m a, conn.mr = some m → conn.buf = some a →
      List.Sublist [Call.ibv_dereg_mr m, Call.free a] (rdma_connection_cleanup conn)) := by
  refine ⟨cleanup_pairwise conn, ?_, ?_, ?_, ?_, ?_, ?_, ?_, ?_, ?_⟩
  · intro c hc
    rcases (mem_cleanup conn c).1 hc with ⟨x, -, rfl⟩ | ⟨x, -, rfl⟩ | ⟨x, -, rfl⟩ |
      ⟨x, -, rfl⟩ | ⟨x, -, rfl⟩ | ⟨x, -, rfl⟩ | ⟨x, -, rfl⟩ <;> rfl
  · intro m; rw [mem_cleanup]; simp [eq_comm]
  · intro m; rw [mem_cleanup]; simp [eq_comm]
  · intro m; rw [mem_cleanup]; simp [eq_comm]
  · intro m; rw [mem_cleanup]; simp [eq_comm]
  · intro m; rw [mem_cleanup]; simp [eq_comm]
  · intro m; rw [mem_cleanup]; simp [eq_comm]
  · intro m; rw [mem_cleanup]; simp [eq_comm]
  · intro m a hm ha
    rw [cleanup_eq, hm, ha]
    show List.Sublist ([Call.ibv_dereg_mr m] ++ [Call.free a]) _
    refine List.Sublist.append ?_ ?_
    · simp
    · simp

/-- Length of a little-endian byte string. -/
theorem le_bytes_length (k v : Nat) : (le_bytes k v).length = k := by
  induction k generalizing v with
  | zero => rfl
  | succ k ih => simp [le_bytes, ih]

/-- A little-endian byte string decodes to the value it encodes, when the value fits. -/
theorem le_value_le_bytes (k v : Nat) (h : v < 256 ^ k) : le_value (le_bytes k v) = v := by
  induction k generalizing v with
  | zero => simp at h; simp [le_bytes, le_value, h]
  | succ k ih =>
    have h1 : v / 256 < 256 ^ k := by
      rw [Nat.div_lt_iff_lt_mul (by norm_num)]
      rwa [pow_succ] at h
    simp only [le_bytes, le_value, ih _ h1]
    omega

/-- C7 (as stated). The byte count of a descriptor record is not 12. -/
theorem sizeof_mr_info_ne_12 : sizeof_mr_info ≠ 12 := by decide

/-- C7 (amended). With naturally aligned fields the descriptor record is 16
bytes long: the 4-byte remote key at offset 0, 4 bytes of padding, the 8-byte
remote address at offset 8.  Every descriptor `write` of the server and of the
client carries 16 bytes and every descriptor `read` asks for 16. -/
theorem sizeof_mr_info_eq_16 (d : Demo) (env : Env) (conn : rdma_connection) (s1 s2 : Int)
    (info : mr_info) (pad : Bytes) :
    sizeof_mr_info = 16 ∧ offsetof_vaddr = 8 ∧
    (mr_info_bytes info pad).length = 16 ∧
    (mr_info_bytes info pad).take 4 = le_bytes 4 info.rkey ∧
    (mr_info_bytes info pad).drop 8 = le_bytes 8 info.vaddr ∧
    (∀ fd data r, Call.write fd data r ∈ (server_exchange d env conn s1 s2).2 →
      data.length = 16) ∧
    (∀ fd n r, Call.read fd n r ∈ (server_exchange d env conn s1 s2).2 → n = 16) ∧
    (∀ fd data r, Call.write fd data r ∈ (client_exchange d env conn s1).trace →
      data.length = 16) ∧
    (∀ fd n r, Call.read fd n r ∈ (client_exchange d env conn s1).trace → n = 16) := by
  have hs : sizeof_mr_info = 16 := by decide
  have ho : offsetof_vaddr = 8 := by decide
  have hl : ∀ i p, (mr_info_bytes i p).length = 16 := by
    intro i p
    simp [mr_info_bytes, le_bytes_length, ho]
  refine ⟨hs, ho, hl _ _, ?_, ?_, ?_, ?_, ?_, ?_⟩
  · simp [mr_info_bytes, ho, le_bytes_length]
  · unfold mr_info_bytes
    rw [ho]
    exact List.drop_left' (by simp [le_bytes_length])
  · intro fd data r h
    unfold server_exchange at h
    split_ifs at h <;> simp at h <;> (rcases h with ⟨-, rfl, -⟩; exact hl _ _)
  · intro fd n r h
    unfold server_exchange at h
    split_ifs at h <;> simp at h <;> simp [h, hs]
  · intro fd data r h
    unfold client_exchange at h
    split_ifs at h <;> simp at h <;> (rcases h with ⟨-, rfl, -⟩; exact hl _ _)
  · intro fd n r h
    unfold client_exchange at h
    split_ifs at h <;> simp at h <;> simp [h, hs]

/-- One step of the wait loop on a result that is passed over. -/
theorem wait_completion_pass (expect : ibv_wc_opcode) (cq : Option Handle) (r : PollResult)
    (rs : List PollResult) (h : passed_over expect r) :
    wait_completion expect cq (r :: rs) =
      ⟨(wait_completion expect cq rs).outcome,
        Call.ibv_poll_cq cq r :: (wait_completion expect cq rs).trace,
        (wait_completion expect cq rs).rest⟩ := by
  rcases h with h | ⟨h1, h2, h3⟩
  · simp [wait_completion, h]
  · have h4 : ¬ r.n < 0 := by omega
    have h5 : ¬ r.n = 0 := by omega
    simp [wait_completion, h2, h3, h4, h5]

/-- One step of the wait loop on a matching completion. -/
theorem wait_completion_match (expect : ibv_wc_opcode) (cq : Option Handle) (r : PollResult)
    (rs : List PollResult) (h : matching expect r) :
    wait_completion expect cq (r :: rs) = ⟨WaitOutcome.completed, [Call.ibv_poll_cq cq r], rs⟩ := by
  rcases h with ⟨h1, h2, h3⟩
  have h4 : ¬ r.n < 0 := by omega
  have h5 : ¬ r.n = 0 := by omega
  simp [wait_completion, h2, h3, h4, h5]

/-- The wait loop completes exactly on lists that start with results passed
over followed by a matching completion; the rest is left unread. -/
theorem wait_completion_completed_iff (expect : ibv_wc_opcode) (cq : Option Handle)
    (rs post : List PollResult) :
    ((wait_completion expect cq rs).outcome = WaitOutcome.completed ∧
      (wait_completion expect cq rs).rest = post) ↔
    ∃ pre r, rs = pre ++ r :: post ∧ (∀ p ∈ pre, passed_over expect p) ∧ matching expect r := by
  induction rs with
  | nil => simp [wait_completion]
  | cons r rs ih =>
    by_cases hn : r.n < 0
    · have : ¬ matching expect r := fun h => by have := h.1; omega
      have hp : ¬ passed_over expect r := by
        rintro (h | h)
        · omega
        · have := h.1; omega
      constructor
      · simp [wait_completion, hn]
      · rintro ⟨pre, x, hx, hpre, hm⟩
        cases pre with
        | nil => simp at hx; rcases hx with ⟨rfl, -⟩; exact absurd hm this
        | cons p pre =>
          simp at hx; rcases hx with ⟨rfl, -⟩
          exact absurd (hpre r (by simp)) hp
    · by_cases hp : passed_over expect r
      · have hm : ¬ matching expect r := by
          rintro ⟨h1, h2, h3⟩
          rcases hp with h | ⟨-, -, h⟩
          · omega
          · exact h h3
        rw [wait_completion_pass expect cq r rs hp]
        simp only
        rw [ih]
        constructor
        · rintro ⟨pre, x, rfl, hpre, hx⟩
          refine ⟨r :: pre, x, by simp, ?_, hx⟩
          intro p hp'
          rcases List.mem_cons.1 hp' with rfl | h
          · exact hp
          · exact hpre p h
        · rintro ⟨pre, x, hx, hpre, hmx⟩
          cases pre with
          | nil => simp at hx; rcases hx with ⟨rfl, -⟩; exact absurd hmx hm
          | cons p pre =>
            simp at hx; rcases hx with ⟨rfl, rfl⟩
            exact ⟨pre, x, rfl, fun q hq => hpre q (by simp [hq]), hmx⟩
      · by_cases hm : matching expect r
        · rw [wait_completion_match expect cq r rs hm]
          simp only [true_and]
          constructor
          · rintro rfl
            exact ⟨[], r, rfl, by simp, hm⟩
          · rintro ⟨pre, x, hx, hpre, hmx⟩
            cases pre with
            | nil => simp at hx; exact hx.2
            | cons p pre =>
              simp at hx; rcases hx with ⟨rfl, -⟩
              exact absurd (hpre r (by simp)) hp
        · have hs : r.status ≠ IBV_WC_SUCCESS := by
            intro hs
            by_cases hz : r.n = 0
            · exact hp (Or.inl hz)
            · by_cases ho : r.opcode = expect
              · exact hm ⟨by omega, hs, ho⟩
              · exact hp (Or.inr ⟨by omega, hs, ho⟩)
          have hz : ¬ r.n = 0 := fun hz => hp (Or.inl hz)
          constructor
          · simp [wait_completion, hn, hz, hs]
          · rintro ⟨pre, x, hx, hpre, hmx⟩
            cases pre with
            | nil => simp at hx; rcases hx with ⟨rfl, -⟩; exact absurd hmx hm
            | cons p pre =>
              simp at hx; rcases hx with ⟨rfl, -⟩
              exact absurd (hpre r (by simp)) hp

/-- The buffer is zero-filled whenever `reg_mem` succeeds. -/
theorem reg_mem_data (d : Demo) (conn : rdma_connection) (env : Env) :
    (reg_mem d conn env).ret = 0 → (reg_mem d conn env).data = List.replicate (buf_size d) 0 := by
  unfold reg_mem
  repeat' split
  all_goals simp

/-- The buffer is zero-filled whenever the client's handshake succeeds. -/
theorem client_handshake_data (d : Demo) (env : Env) (conn0 : rdma_connection) :
    (client_handshake d env conn0).ret = 0 →
    (client_handshake d env conn0).data = List.replicate (buf_size d) 0 := by
  unfold client_handshake
  simp only
  repeat' split
  all_goals first
    | (intro h; simp at h; done)
    | (intro _; apply reg_mem_data; simpa using ‹¬ (reg_mem d (build_qp conn0 env).conn env).ret ≠ 0›)

/-- Projections of a client run whose initialisation succeeded. -/
theorem run_client_init_ok (d : Demo) (cfg : Config) (env : Env)
    (h : (rdma_connection_init cfg env).ret = 0) :
    (run_client d cfg env).loop =
      (client_body d cfg env (rdma_connection_init cfg env).conn).loop ∧
    (run_client d cfg env).ret =
      (if (client_body d cfg env (rdma_connection_init cfg env).conn).exit = Exit.waiting
        then none else some 0) ∧
    (run_client d cfg env).trace =
      (rdma_connection_init cfg env).trace ++
        (client_body d cfg env (rdma_connection_init cfg env).conn).trace ++
        (if (client_body d cfg env (rdma_connection_init cfg env).conn).exit = Exit.waiting
          then []
          else client_cleanup (client_body d cfg env (rdma_connection_init cfg env).conn).conn
            (client_body d cfg env (rdma_connection_init cfg env).conn).sockfd) := by
  unfold run_client
  simp only [h, ne_eq, not_true_eq_false, if_false]
  cases (client_body d cfg env (rdma_connection_init cfg env).conn).exit <;> simp

/-- A client run whose initialisation failed never enters the loop. -/
theorem run_client_init_failed (d : Demo) (cfg : Config) (env : Env)
    (h : (rdma_connection_init cfg env).ret ≠ 0) :
    (run_client d cfg env).loop = none ∧ (run_client d cfg env).ret = some (-1) ∧
    (run_client d cfg env).trace =
      (rdma_connection_init cfg env).trace ++ [Call.stderr "初始化会话资源失败"] := by
  unfold run_client
  simp [h]

/-- Shape of the client's body once it entered the `for` loop. -/
theorem client_body_loop (d : Demo) (cfg : Config) (env : Env) (conn0 : rdma_connection)
    (l : ClientLoop) :
    (client_body d cfg env conn0).loop = some l →
    ∃ pre remote_info,
      l = client_loop d env (client_body d cfg env conn0).conn (client_body d cfg env conn0).sockfd
        (client_wr d (client_body d cfg env conn0).conn remote_info) cfg.count.toNat 0
        ⟨List.replicate (buf_size d) 0, env.remote_counter, []⟩ env.polls ∧
      (client_body d cfg env conn0).trace = pre ++ l.trace ∧
      (client_body d cfg env conn0).exit = l.exit := by
  unfold client_body
  simp only
  split_ifs with h1 h2 h3
  · simp
  · simp
  · simp
  · intro h
    simp only [Option.some.injEq] at h
    have hd := client_handshake_data d env conn0 (by simpa using h1)
    rw [hd] at h
    simp only [hd]
    exact ⟨_, _, h.symm, by rw [← h], by rw [← h]⟩

/-- Shape of a client run that entered the `for` loop: set-up trace, loop
trace, then (unless the loop is still waiting) the statements at `cleanup`
and the return value 0. -/
theorem run_client_loop (d : Demo) (cfg : Config) (env : Env) (l : ClientLoop)
    (h : (run_client d cfg env).loop = some l) :
    ∃ pre conn sockfd remote_info,
      l = client_loop d env conn sockfd (client_wr d conn remote_info) cfg.count.toNat 0
        ⟨List.replicate (buf_size d) 0, env.remote_counter, []⟩ env.polls ∧
      (run_client d cfg env).trace =
        pre ++ l.trace ++ (if l.exit = Exit.waiting then [] else client_cleanup conn sockfd) ∧
      (run_client d cfg env).ret = if l.exit = Exit.waiting then none else some 0 := by
  by_cases hi : (rdma_connection_init cfg env).ret = 0
  · obtain ⟨h1, h2, h3⟩ := run_client_init_ok d cfg env hi
    rw [h1] at h
    obtain ⟨pre, ri, hl, ht, he⟩ := client_body_loop d cfg env _ l h
    refine ⟨(rdma_connection_init cfg env).trace ++ pre, _, _, ri, hl, ?_, ?_⟩
    · rw [h3, ht, he]; simp
    · rw [h2, he]
  · rw [(run_client_init_failed d cfg env hi).1] at h
    simp at h

/-- C9. The client's wait loop, for every list of `ibv_poll_cq` results: the
expected completion opcodes are FETCH_ADD, RDMA_READ and RDMA_WRITE; a result
of zero entries is passed over and polling goes on with the next result; a
negative result ends the wait as a poll error; a completion with a status
other than success ends it as a completion error; a successful completion of
another opcode is passed over; a successful completion of the expected opcode
ends the wait successfully, leaving the later results unread.  The wait
succeeds exactly when the results start with results passed over followed by a
matching completion.  A poll error or completion error makes the `for` loop
jump to `cleanup` with nothing after the diagnostic, and the run then executes
the statements at `cleanup` and returns. -/
theorem wait_loop_rules (d : Demo) (cq : Option Handle) :
    wc_expect Demo.atomic = ibv_wc_opcode.IBV_WC_FETCH_ADD ∧
    wc_expect Demo.read = ibv_wc_opcode.IBV_WC_RDMA_READ ∧
    wc_expect Demo.write = ibv_wc_opcode.IBV_WC_RDMA_WRITE ∧
    (∀ r rs, r.n = 0 →
      wait_completion (wc_expect d) cq (r :: rs) =
        ⟨(wait_completion (wc_expect d) cq rs).outcome,
          Call.ibv_poll_cq cq r :: (wait_completion (wc_expect d) cq rs).trace,
          (wait_completion (wc_expect d) cq rs).rest⟩) ∧
    (∀ r rs, r.n < 0 →
      wait_completion (wc_expect d) cq (r :: rs) =
        ⟨WaitOutcome.poll_error, [Call.ibv_poll_cq cq r, Call.stderr "ibv_poll_cq 失败"], rs⟩) ∧
    (∀ r rs, 0 < r.n → r.status ≠ IBV_WC_SUCCESS →
      wait_completion (wc_expect d) cq (r :: rs) =
        ⟨WaitOutcome.wc_error,
          [Call.ibv_poll_cq cq r, Call.stderr "[客户端] 完成队列错误: %s"], rs⟩) ∧
    (∀ r rs, 0 < r.n → r.status = IBV_WC_SUCCESS → r.opcode ≠ wc_expect d →
      wait_completion (wc_expect d) cq (r :: rs) =
        ⟨(wait_completion (wc_expect d) cq rs).outcome,
          Call.ibv_poll_cq cq r :: (wait_completion (wc_expect d) cq rs).trace,
          (wait_completion (wc_expect d) cq rs).rest⟩) ∧
    (∀ r rs, 0 < r.n → r.status = IBV_WC_SUCCESS → r.opcode = wc_expect d →
      wait_completion (wc_expect d) cq (r :: rs) =
        ⟨WaitOutcome.completed, [Call.ibv_poll_cq cq r], rs⟩) ∧
    (∀ rs post,
      ((wait_completion (wc_expect d) cq rs).outcome = WaitOutcome.completed ∧
        (wait_completion (wc_expect d) cq rs).rest = post) ↔
      ∃ pre r, rs = pre ++ r :: post ∧ (∀ p ∈ pre, passed_over (wc_expect d) p) ∧
        matching (wc_expect d) r) ∧
    (∀ env conn sockfd wr n i m ps, env.post_send i = true → conn.cq = cq →
      ((wait_completion (wc_expect d) cq ps).outcome = WaitOutcome.poll_error ∨
        (wait_completion (wc_expect d) cq ps).outcome = WaitOutcome.wc_error) →
      (client_loop d env conn sockfd wr (n + 1) i m ps).exit = Exit.failed ∧
      (client_loop d env conn sockfd wr (n + 1) i m ps).i = i ∧
      (client_loop d env conn sockfd wr (n + 1) i m ps).trace =
        (if d = Demo.write then [Call.snprintf_buf (i + 1)] else []) ++
          [Call.ibv_post_send conn.qp wr true] ++ (wait_completion (wc_expect d) cq ps).trace) ∧
    (∀ cfg env l, (run_client d cfg env).loop = some l → l.exit = Exit.failed →
      (run_client d cfg env).ret = some 0 ∧
      ∃ pre conn sockfd,
        (run_client d cfg env).trace = pre ++ l.trace ++ client_cleanup conn sockfd) := by
  refine ⟨rfl, rfl, rfl, ?_, ?_, ?_, ?_, ?_, ?_, ?_, ?_⟩
  · intro r rs h
    exact wait_completion_pass _ cq r rs (Or.inl h)
  · intro r rs h
    simp [wait_completion, h]
  · intro r rs h1 h2
    have h4 : ¬ r.n < 0 := by omega
    have h5 : ¬ r.n = 0 := by omega
    simp [wait_completion, h2, h4, h5]
  · intro r rs h1 h2 h3
    exact wait_completion_pass _ cq r rs (Or.inr ⟨h1, h2, h3⟩)
  · intro r rs h1 h2 h3
    exact wait_completion_match _ cq r rs ⟨h1, h2, h3⟩
  · intro rs post
    exact wait_completion_completed_iff _ cq rs post
  · intro env conn sockfd wr n i m ps hp hcq ho
    subst hcq
    unfold client_loop
    simp only [hp, if_true]
    rcases ho with ho | ho <;> simp [ho]
  · intro cfg env l hl he
    obtain ⟨pre, conn, fd, ri, -, ht, hr⟩ := run_client_loop d cfg env l hl
    simp only [he, reduceCtorEq, if_false] at ht hr
    exact ⟨hr, pre, conn, fd, ht⟩

/-- Projections of a server run whose initialisation succeeded. -/
theorem run_server_init_ok (d : Demo) (cfg : Config) (env : Env)
    (h : (rdma_connection_init cfg env).ret = 0) :
    (run_server d cfg env).loop =
      (server_body d cfg env (rdma_connection_init cfg env).conn).loop ∧
    (run_server d cfg env).ret =
      (if (server_body d cfg env (rdma_connection_init cfg env).conn).exit = Exit.waiting
        then none else some 0) ∧
    (run_server d cfg env).trace =
      (rdma_connection_init cfg env).trace ++
        (server_body d cfg env (rdma_connection_init cfg env).conn).trace ++
        (if (server_body d cfg env (rdma_connection_init cfg env).conn).exit = Exit.waiting
          then []
          else server_cleanup (server_body d cfg env (rdma_connection_init cfg env).conn).conn
            (server_body d cfg env (rdma_connection_init cfg env).conn).listen_sock
            (server_body d cfg env (rdma_connection_init cfg env).conn).conn_sock) := by
  unfold run_server
  simp only [h, ne_eq, not_true_eq_false, if_false]
  cases (server_body d cfg env (rdma_connection_init cfg env).conn).exit <;> simp

/-- A server run whose initialisation failed never enters the loop. -/
theorem run_server_init_failed (d : Demo) (cfg : Config) (env : Env)
    (h : (rdma_connection_init cfg env).ret ≠ 0) :
    (run_server d cfg env).loop = none ∧ (run_server d cfg env).ret = some (-1) ∧
    (run_server d cfg env).trace =
      (rdma_connection_init cfg env).trace ++ [Call.stderr "初始化会话资源失败"] := by
  unfold run_server
  simp [h]

/-- Shape of the server's body once it entered the observation loop. -/
theorem server_body_loop (d : Demo) (cfg : Config) (env : Env) (conn0 : rdma_connection)
    (l : LoopResult) :
    (server_body d cfg env conn0).loop = some l →
    ∃ pre,
      l = server_loop d cfg env (server_body d cfg env conn0).conn_sock ∧
      (server_body d cfg env conn0).trace =
        pre ++ l.trace ++ (if l.exit = LoopExit.waiting then [] else server_finish d env) ∧
      (server_body d cfg env conn0).exit =
        (if l.exit = LoopExit.waiting then Exit.waiting else Exit.finished) := by
  unfold server_body
  simp only
  by_cases h1 : (server_handshake d env conn0).ret ≠ 0
  · simp [h1]
  · by_cases h2 : (server_socket cfg env).ret ≠ 0
    · simp [h1, h2]
    · by_cases h3 : (server_exchange d env (server_handshake d env conn0).conn
          (server_socket cfg env).listen_sock (server_socket cfg env).conn_sock).1 ≠ 0
      · simp [h1, h2, h3]
      · simp only [h1, h2, h3, if_false, Option.some.injEq]
        intro h
        subst h
        exact ⟨(server_handshake d env conn0).trace ++ (server_socket cfg env).trace ++
          (server_exchange d env (server_handshake d env conn0).conn
            (server_socket cfg env).listen_sock (server_socket cfg env).conn_sock).2, rfl,
          by simp only [List.append_assoc], rfl⟩

/-- Shape of a server run that entered the observation loop. -/
theorem run_server_loop (d : Demo) (cfg : Config) (env : Env) (l : LoopResult)
    (h : (run_server d cfg env).loop = some l) :
    ∃ pre conn listen_sock conn_sock,
      l = server_loop d cfg env conn_sock ∧
      (run_server d cfg env).trace =
        pre ++ l.trace ++
          (if l.exit = LoopExit.waiting then []
            else server_finish d env ++ server_cleanup conn listen_sock conn_sock) ∧
      (run_server d cfg env).ret = if l.exit = LoopExit.waiting then none else some 0 := by
  by_cases hi : (rdma_connection_init cfg env).ret = 0
  · obtain ⟨h1, h2, h3⟩ := run_server_init_ok d cfg env hi
    rw [h1] at h
    obtain ⟨pre, hl, ht, he⟩ := server_body_loop d cfg env _ l h
    refine ⟨(rdma_connection_init cfg env).trace ++ pre,
      (server_body d cfg env (rdma_connection_init cfg env).conn).conn,
      (server_body d cfg env (rdma_connection_init cfg env).conn).listen_sock, _, hl, ?_, ?_⟩
    · rw [h3, ht, he]
      by_cases hw : l.exit = LoopExit.waiting <;> simp [hw]
    · rw [h2, he]
      by_cases hw : l.exit = LoopExit.waiting <;> simp [hw]
  · rw [(run_server_init_failed d cfg env hi).1] at h
    simp at h

/-- The acknowledgement loop never lowers the count, and its final count is
the start count plus the number of reads that returned a positive count. -/
theorem server_ack_loop_count (d : Demo) (fd : Int) (count : Int) (rs : List AckRead) (c : Int) :
    (server_ack_loop d fd count c rs).count =
      c + positive_reads (server_ack_loop d fd count c rs).trace := by
  induction rs generalizing c with
  | nil => unfold server_ack_loop; split_ifs <;> simp [positive_reads]
  | cons r rs ih =>
    unfold server_ack_loop
    split_ifs with h1 h2 h3 h4
    · simp only [ih (c + 1)]
      cases d <;> simp [positive_reads, ack_effect, h2, List.filter_cons] <;> omega
    · simp [positive_reads, h3]
    · have : ¬ 0 < r.n := by omega
      simp only [ih c]
      simp [positive_reads, List.filter_cons, this]
    · have : ¬ 0 < r.n := by omega
      simp [positive_reads, List.filter_cons, this]
    · simp [positive_reads]

/-- The acknowledgement loop stops at `count`. -/
theorem server_ack_loop_le (d : Demo) (fd : Int) (count : Int) (rs : List AckRead) (c : Int)
    (h : c ≤ count) : (server_ack_loop d fd count c rs).count ≤ count := by
  induction rs generalizing c with
  | nil => unfold server_ack_loop; split_ifs <;> simp <;> omega
  | cons r rs ih =>
    unfold server_ack_loop
    split_ifs with h1 h2 h3 h4
    · exact ih (c + 1) (by omega)
    · simp; omega
    · exact ih c h
    · simp; omega
    · simp; omega

/-- A loop that ended on a closed side channel counted fewer than `count`
acknowledgements and printed no diagnostic. -/
theorem server_ack_loop_closed (d : Demo) (fd : Int) (count : Int) (rs : List AckRead) (c : Int)
    (h : (server_ack_loop d fd count c rs).exit = LoopExit.peer_closed) :
    (server_ack_loop d fd count c rs).count < count ∧
    ∀ msg, Call.stderr msg ∉ (server_ack_loop d fd count c rs).trace := by
  induction rs generalizing c with
  | nil => unfold server_ack_loop at h; split_ifs at h
  | cons r rs ih =>
    unfold server_ack_loop at h ⊢
    split_ifs at h ⊢ with h1 h2 h3 h4
    · simp only at h ⊢
      obtain ⟨i1, i2⟩ := ih (c + 1) h
      refine ⟨i1, fun msg => ?_⟩
      cases d <;> simp [ack_effect, i2 msg]
    · simp [h1]
    · simp only at h ⊢
      obtain ⟨i1, i2⟩ := ih c h
      exact ⟨i1, fun msg => by simp [i2 msg]⟩

/-- C10 (as stated). With `-n -1` the server's loop is not entered and the count
stays 0, which exceeds the operation count -1. -/
theorem ack_count_exceeds_negative_count :
    (run_server Demo.atomic ⟨ROLE_SERVER, "10.0.0.1", 18515, -1⟩ env_server).ret = some 0 ∧
    ((run_server Demo.atomic ⟨ROLE_SERVER, "10.0.0.1", 18515, -1⟩ env_server).loop.map
      LoopResult.count) = some 0 ∧
    ¬ ((0 : Int) ≤ -1) := by
  decide

/-- `kinds_in` over a concatenation. -/
theorem kinds_in_append (ks : List Kind) (s t : List Call) :
    kinds_in ks (s ++ t) = (kinds_in ks s && kinds_in ks t) := by
  simp [kinds_in, List.all_append]

/-- A projection that ignores the classes `ks` is empty on a trace of those classes. -/
theorem filter_of_kinds_in (ks : List Kind) (p : Call → Bool) (t : List Call)
    (ht : kinds_in ks t = true) (hp : ∀ c, c.kind ∈ ks → p c = false) : t.filter p = [] := by
  rw [List.filter_eq_nil_iff]
  intro c hc
  simp only [kinds_in, List.all_eq_true, decide_eq_true_eq] at ht
  simp [hp c (ht c hc)]

/-- As `filter_of_kinds_in`, for `filterMap`. -/
theorem filterMap_of_kinds_in {α : Type} (ks : List Kind) (f : Call → Option α) (t : List Call)
    (ht : kinds_in ks t = true) (hf : ∀ c, c.kind ∈ ks → f c = none) : t.filterMap f = [] := by
  rw [List.filterMap_eq_nil_iff]
  intro c hc
  simp only [kinds_in, List.all_eq_true, decide_eq_true_eq] at ht
  exact hf c (ht c hc)

/-- Calls of `rdma_connection_init`. -/
theorem kinds_init (cfg : Config) (env : Env) :
    kinds_in setup_kinds (rdma_connection_init cfg env).trace = true := by
  unfold rdma_connection_init
  repeat' split
  all_goals rfl

/-- Calls of `wait_event`. -/
theorem kinds_wait_event (conn : rdma_connection) (e : rdma_cm_event_type)
    (r : Option rdma_cm_event) : kinds_in setup_kinds (wait_event conn e r).trace = true := by
  unfold wait_event
  repeat' split
  all_goals rfl

/-- Calls of `build_qp`. -/
theorem kinds_build_qp (conn : rdma_connection) (env : Env) :
    kinds_in setup_kinds (build_qp conn env).trace = true := by
  unfold build_qp
  repeat' split
  all_goals rfl

/-- Calls of `reg_mem`. -/
theorem kinds_reg_mem (d : Demo) (conn : rdma_connection) (env : Env) :
    kinds_in setup_kinds (reg_mem d conn env).trace = true := by
  unfold reg_mem
  repeat' split
  all_goals rfl

/-- Calls of `modify_qp_timeout`. -/
theorem kinds_modify_qp_timeout (conn : rdma_connection) (time : Int) (env : Env) :
    kinds_in setup_kinds (modify_qp_timeout conn time env).2 = true := by
  unfold modify_qp_timeout modify_qp_timeout_rts
  repeat' split
  all_goals rfl

/-- Calls of the client's handshake. -/
theorem kinds_client_handshake (d : Demo) (env : Env) (conn0 : rdma_connection) :
    kinds_in setup_kinds (client_handshake d env conn0).trace = true := by
  unfold client_handshake
  simp only
  repeat' split
  all_goals
    simp only [kinds_in_append, kinds_wait_event, kinds_build_qp, kinds_reg_mem,
      kinds_modify_qp_timeout, Bool.and_true, Bool.true_and]
  all_goals rfl

/-- Enlarging the set of classes. -/
theorem kinds_in_mono (ks ks' : List Kind) (t : List Call) (h : ∀ k ∈ ks, k ∈ ks')
    (ht : kinds_in ks t = true) : kinds_in ks' t = true := by
  simp only [kinds_in, List.all_eq_true, decide_eq_true_eq] at ht ⊢
  exact fun c hc => h _ (ht c hc)

/-- Calls of the server's handshake. -/
theorem kinds_server_handshake (d : Demo) (env : Env) (conn0 : rdma_connection) :
    kinds_in (Kind.load :: setup_kinds) (server_handshake d env conn0).trace = true := by
  have hw := fun c e r => kinds_in_mono _ (Kind.load :: setup_kinds) _
    (fun k hk => List.mem_cons_of_mem _ hk) (kinds_wait_event c e r)
  have hb := fun c => kinds_in_mono _ (Kind.load :: setup_kinds) _
    (fun k hk => List.mem_cons_of_mem _ hk) (kinds_build_qp c env)
  have hr := fun c => kinds_in_mono _ (Kind.load :: setup_kinds) _
    (fun k hk => List.mem_cons_of_mem _ hk) (kinds_reg_mem d c env)
  have hm := fun c t => kinds_in_mono _ (Kind.load :: setup_kinds) _
    (fun k hk => List.mem_cons_of_mem _ hk) (kinds_modify_qp_timeout c t env)
  unfold server_handshake
  simp only
  repeat' split
  all_goals
    simp only [kinds_in_append, hw, hb, hr, hm, Bool.and_true, Bool.true_and]
  all_goals rfl

/-- Calls of the client's socket set-up. -/
theorem kinds_client_socket (cfg : Config) (env : Env) :
    kinds_in [Kind.sock, Kind.diag] (client_socket cfg env).trace = true := by
  unfold client_socket
  simp only
  repeat' split
  all_goals rfl

/-- Calls of the server's socket set-up. -/
theorem kinds_server_socket (cfg : Config) (env : Env) :
    kinds_in [Kind.sock, Kind.diag] (server_socket cfg env).trace = true := by
  unfold server_socket
  simp only
  repeat' split
  all_goals rfl

/-- Calls of `rdma_connection_cleanup`. -/
theorem kinds_cleanup (conn : rdma_connection) :
    kinds_in [Kind.close, Kind.release] (rdma_connection_cleanup conn) = true := by
  simp only [kinds_in, List.all_eq_true, decide_eq_true_eq]
  intro c hc
  rcases (mem_cleanup conn c).1 hc with ⟨x, -, rfl⟩ | ⟨x, -, rfl⟩ | ⟨x, -, rfl⟩ |
    ⟨x, -, rfl⟩ | ⟨x, -, rfl⟩ | ⟨x, -, rfl⟩ | ⟨x, -, rfl⟩ <;> simp [Call.kind]

/-- Calls at the label `cleanup` of `run_client`. -/
theorem kinds_client_cleanup (conn : rdma_connection) (fd : Int) :
    kinds_in [Kind.close, Kind.release] (client_cleanup conn fd) = true := by
  unfold client_cleanup
  rw [kinds_in_append, kinds_cleanup]
  split <;> rfl

/-- Calls at the label `cleanup` of `run_server`. -/
theorem kinds_server_cleanup (conn : rdma_connection) (s1 s2 : Int) :
    kinds_in [Kind.close, Kind.release] (server_cleanup conn s1 s2) = true := by
  unfold server_cleanup
  rw [kinds_in_append, kinds_in_append, kinds_cleanup]
  split <;> split <;> rfl

/-- Calls that follow the server's observation loop. -/
theorem kinds_server_finish (d : Demo) (env : Env) :
    kinds_in [Kind.load] (server_finish d env) = true := by
  unfold server_finish
  split <;> rfl

/-- A client run that entered the `for` loop: every step before it succeeded,
and the trace is the set-up, the loop, and (unless the loop is still waiting)
the statements at `cleanup`. -/
theorem run_client_entered (d : Demo) (cfg : Config) (env : Env) (l : ClientLoop)
    (h : (run_client d cfg env).loop = some l) :
    l = client_run_loop d cfg env ∧
    (rdma_connection_init cfg env).ret = 0 ∧ (client_run_handshake d cfg env).ret = 0 ∧
    (client_socket cfg env).ret = 0 ∧ (client_run_exchange d cfg env).ret = 0 ∧
    (run_client d cfg env).trace =
      client_setup d cfg env ++ l.trace ++
        (if l.exit = Exit.waiting then []
          else client_cleanup (client_run_handshake d cfg env).conn
            (client_run_exchange d cfg env).sockfd) ∧
    (run_client d cfg env).ret = (if l.exit = Exit.waiting then none else some 0) := by
  by_cases hi : (rdma_connection_init cfg env).ret = 0
  · obtain ⟨h1, h2, h3⟩ := run_client_init_ok d cfg env hi
    rw [h1] at h
    rw [h2, h3]
    unfold client_body at h ⊢
    simp only at h ⊢
    by_cases c1 : (client_handshake d env (rdma_connection_init cfg env).conn).ret ≠ 0
    · simp [c1] at h
    · by_cases c2 : (client_socket cfg env).ret ≠ 0
      · simp [c1, c2] at h
      · by_cases c3 : (client_exchange d env
            (client_handshake d env (rdma_connection_init cfg env).conn).conn
            (client_socket cfg env).sockfd).ret ≠ 0
        · simp [c1, c2, c3] at h
        · simp only [c1, c2, c3, if_false, Option.some.injEq] at h ⊢
          have hd := client_handshake_data d env _ (by simpa using c1)
          rw [hd] at h ⊢
          simp only [ne_eq, not_not] at c1 c2 c3
          subst h
          refine ⟨rfl, hi, c1, c2, c3, ?_, rfl⟩
          simp [client_setup, client_run_handshake, client_run_exchange]
  · rw [(run_client_init_failed d cfg env hi).1] at h
    simp at h

/-- A server run that entered the observation loop: every step before it
succeeded, and the trace is the set-up, the loop, and (unless the loop is
still waiting) what follows the loop and the statements at `cleanup`. -/
theorem run_server_entered (d : Demo) (cfg : Config) (env : Env) (l : LoopResult)
    (h : (run_server d cfg env).loop = some l) :
    l = server_loop d cfg env (server_socket cfg env).conn_sock ∧
    (rdma_connection_init cfg env).ret = 0 ∧ (server_run_handshake d cfg env).ret = 0 ∧
    (server_socket cfg env).ret = 0 ∧ (server_run_exchange d cfg env).1 = 0 ∧
    (run_server d cfg env).trace =
      server_setup d cfg env ++ l.trace ++
        (if l.exit = LoopExit.waiting then []
          else server_finish d env ++ server_cleanup (server_run_handshake d cfg env).conn
            (server_socket cfg env).listen_sock (server_socket cfg env).conn_sock) ∧
    (run_server d cfg env).ret = (if l.exit = LoopExit.waiting then none else some 0) := by
  by_cases hi : (rdma_connection_init cfg env).ret = 0
  · obtain ⟨h1, h2, h3⟩ := run_server_init_ok d cfg env hi
    rw [h1] at h
    rw [h2, h3]
    unfold server_body at h ⊢
    simp only at h ⊢
    by_cases c1 : (server_handshake d env (rdma_connection_init cfg env).conn).ret ≠ 0
    · simp [c1] at h
    · by_cases c2 : (server_socket cfg env).ret ≠ 0
      · simp [c1, c2] at h
      · by_cases c3 : (server_exchange d env
            (server_handshake d env (rdma_connection_init cfg env).conn).conn
            (server_socket cfg env).listen_sock (server_socket cfg env).conn_sock).1 ≠ 0
        · simp [c1, c2, c3] at h
        · simp only [c1, c2, c3, if_false, Option.some.injEq] at h ⊢
          simp only [ne_eq, not_not] at c1 c2 c3
          subst h
          refine ⟨rfl, hi, c1, c2, c3, ?_, ?_⟩
          · by_cases hw : (server_loop d cfg env (server_socket cfg env).conn_sock).exit =
                LoopExit.waiting <;>
              simp [hw, server_setup, server_run_handshake, server_run_exchange]
          · by_cases hw : (server_loop d cfg env (server_socket cfg env).conn_sock).exit =
                LoopExit.waiting <;> simp [hw]
  · rw [(run_server_init_failed d cfg env hi).1] at h
    simp at h

/-- Calls of the client's descriptor exchange. -/
theorem kinds_client_exchange (d : Demo) (env : Env) (conn : rdma_connection) (fd : Int) :
    kinds_in [Kind.rd, Kind.wr, Kind.close, Kind.diag] (client_exchange d env conn fd).trace = true := by
  unfold client_exchange
  simp only
  repeat' split
  all_goals rfl

/-- Calls of the server's descriptor exchange. -/
theorem kinds_server_exchange (d : Demo) (env : Env) (conn : rdma_connection) (s1 s2 : Int) :
    kinds_in [Kind.rd, Kind.wr, Kind.close, Kind.diag] (server_exchange d env conn s1 s2).2 = true := by
  unfold server_exchange
  simp only
  repeat' split
  all_goals rfl

/-- Calls of a client run before its `for` loop. -/
theorem kinds_client_setup (d : Demo) (cfg : Config) (env : Env) :
    kinds_in [Kind.cm, Kind.verbs, Kind.store, Kind.diag, Kind.sock, Kind.rd, Kind.wr,
      Kind.close]
      (client_setup d cfg env) = true := by
  unfold client_setup client_run_exchange client_run_handshake
  simp only [kinds_in_append, Bool.and_eq_true]
  refine ⟨⟨⟨?_, ?_⟩, ?_⟩, ?_⟩
  · exact kinds_in_mono _ _ _ (by decide) (kinds_init cfg env)
  · exact kinds_in_mono _ _ _ (by decide) (kinds_client_handshake d env _)
  · exact kinds_in_mono _ _ _ (by decide) (kinds_client_socket cfg env)
  · exact kinds_in_mono _ _ _ (by decide) (kinds_client_exchange d env _ _)

/-- Calls of a server run before its observation loop. -/
theorem kinds_server_setup (d : Demo) (cfg : Config) (env : Env) :
    kinds_in [Kind.cm, Kind.verbs, Kind.store, Kind.diag, Kind.sock, Kind.rd, Kind.wr,
      Kind.close, Kind.load]
      (server_setup d cfg env) = true := by
  unfold server_setup server_run_exchange server_run_handshake
  simp only [kinds_in_append, Bool.and_eq_true]
  refine ⟨⟨⟨?_, ?_⟩, ?_⟩, ?_⟩
  · exact kinds_in_mono _ _ _ (by decide) (kinds_init cfg env)
  · exact kinds_in_mono _ _ _ (by decide) (kinds_server_handshake d env _)
  · exact kinds_in_mono _ _ _ (by decide) (kinds_server_socket cfg env)
  · exact kinds_in_mono _ _ _ (by decide) (kinds_server_exchange d env _ _ _)

/-- `loads` over a concatenation. -/
theorem loads_append (s t : List Call) : loads (s ++ t) = loads s ++ loads t := by
  simp [loads, List.filterMap_append]

/-- `kinds_in` over a first call. -/
theorem kinds_in_cons (ks : List Kind) (c : Call) (t : List Call) :
    kinds_in ks (c :: t) = (decide (c.kind ∈ ks) && kinds_in ks t) := rfl

/-- Calls of one wait loop. -/
theorem kinds_wait_completion (e : ibv_wc_opcode) (cq : Option Handle) (ps : List PollResult) :
    kinds_in [Kind.poll, Kind.diag] (wait_completion e cq ps).trace = true := by
  induction ps with
  | nil => rfl
  | cons r rs ih =>
    unfold wait_completion
    repeat' split
    all_goals first
      | rfl
      | (rw [kinds_in_cons, ih]; rfl)

/-- A trace without loads of the counter. -/
theorem loads_of_kinds_in (ks : List Kind) (t : List Call) (ht : kinds_in ks t = true)
    (hk : Kind.load ∉ ks) : loads t = [] := by
  unfold loads
  refine filterMap_of_kinds_in ks _ t ht ?_
  intro c hc
  cases c <;> first | rfl | (exact absurd hc hk)

/-- The atomic client's loop, started with `n` iterations to go and the server
counter at `m.remote_counter`: when it runs to its end, the values it loads
are the `n` consecutive counter values and the counter has grown by `n`. -/
theorem atomic_loop_values (env : Env) (conn : rdma_connection) (fd : Int) (wr : ibv_send_wr)
    (hwr : wr.compare_add = 1) (n i : Nat) (m : Mem) (ps : List PollResult)
    (hb : m.remote_counter + n < 2 ^ 64)
    (hf : (client_loop Demo.atomic env conn fd wr n i m ps).exit = Exit.finished) :
    loads (client_loop Demo.atomic env conn fd wr n i m ps).trace =
      List.range' m.remote_counter n ∧
    (client_loop Demo.atomic env conn fd wr n i m ps).mem.remote_counter =
      m.remote_counter + n ∧
    (client_loop Demo.atomic env conn fd wr n i m ps).i = i + n := by
  induction n generalizing i m ps with
  | zero => simp [client_loop, loads]
  | succ n ih =>
    unfold client_loop at hf ⊢
    simp only [reduceCtorEq, if_false] at hf ⊢
    by_cases hp : env.post_send i = true
    · simp only [hp, if_true] at hf ⊢
      cases hw : (wait_completion (wc_expect Demo.atomic) conn.cq ps).outcome
      · simp only [hw] at hf ⊢
        by_cases ha : (after_completion Demo.atomic env fd i (complete Demo.atomic env wr i m)).1 = true
        · simp only [ha, if_true] at hf ⊢
          have hc : (complete Demo.atomic env wr i m).remote_counter = m.remote_counter + 1 := by
            simp only [complete, hwr]
            omega
          have hd : le_value (complete Demo.atomic env wr i m).data = m.remote_counter := by
            simp only [complete, COUNTER_SIZE]
            exact le_value_le_bytes 8 _ (by norm_num; omega)
          obtain ⟨i1, i2, i3⟩ := ih (i + 1) (complete Demo.atomic env wr i m)
            (wait_completion (wc_expect Demo.atomic) conn.cq ps).rest (by rw [hc]; omega) hf
          refine ⟨?_, by rw [i2, hc]; omega, by rw [i3]; omega⟩
          rw [loads_append, loads_append, loads_append, i1, hc,
            loads_of_kinds_in _ _ (kinds_wait_completion _ _ _) (by decide)]
          have h2 : loads (after_completion Demo.atomic env fd i
              (complete Demo.atomic env wr i m)).2 = [m.remote_counter] := by
            unfold after_completion
            simp only
            split <;> simp [loads, hd]
          rw [h2]
          simp [loads, List.range'_succ]
        · simp [ha] at hf
      · simp [hw] at hf
      · simp [hw] at hf
      · simp [hw] at hf
    · simp [hp] at hf

/-- C8. In the atomic demo, for every operation count `N >= 1` (an `int`),
with the server counter at 0 before the first operation and the client's loop
running to its end (every post and every completion succeeded; the counter is
changed by this client's fetch-and-add only): the values the client loads from
its buffer after the completions are 0, 1, ..., N-1 in that order, the server
counter ends at N, N iterations were completed and the run returns. -/
theorem atomic_fetch_sequence (cfg : Config) (env : Env) (l : ClientLoop)
    (hN : 1 ≤ cfg.count) (hmax : cfg.count ≤ 2147483647) (h0 : env.remote_counter = 0)
    (hl : (run_client Demo.atomic cfg env).loop = some l) (hf : l.exit = Exit.finished) :
    loads (run_client Demo.atomic cfg env).trace = List.range cfg.count.toNat ∧
    l.mem.remote_counter = cfg.count.toNat ∧ l.i = cfg.count.toNat ∧
    (run_client Demo.atomic cfg env).ret = some 0 := by
  obtain ⟨h1, -, -, -, -, ht, hr⟩ := run_client_entered Demo.atomic cfg env l hl
  simp only [hf, reduceCtorEq, if_false] at ht hr
  have hb : (0 : Nat) + cfg.count.toNat < 2 ^ 64 := by omega
  have hv := atomic_loop_values env (client_run_handshake Demo.atomic cfg env).conn
    (client_run_exchange Demo.atomic cfg env).sockfd
    (client_wr Demo.atomic (client_run_handshake Demo.atomic cfg env).conn
      (client_run_exchange Demo.atomic cfg env).remote_info)
    (by simp [client_wr, ATOMIC_ADD_VALUE]) cfg.count.toNat 0
    ⟨List.replicate (buf_size Demo.atomic) 0, env.remote_counter, []⟩ env.polls
    (by simpa [h0] using hb) (by rw [h1] at hf; exact hf)
  simp only [h0] at hv
  rw [client_run_loop, h0] at h1
  rw [← h1] at hv
  obtain ⟨v1, v2, v3⟩ := hv
  refine ⟨?_, by simpa using v2, by simpa using v3, hr⟩
  rw [ht, loads_append, loads_append, v1,
    loads_of_kinds_in _ _ (kinds_client_setup _ _ _) (by decide),
    loads_of_kinds_in _ _ (kinds_client_cleanup _ _) (by decide)]
  simp [List.range_eq_range']

/-- C8 at `-n 3`: the hypotheses hold for the sample client run, which loads
0, 1, 2 and leaves the counter at 3. -/
theorem atomic_fetch_sequence_three :
    (1 ≤ cfg_client.count ∧ cfg_client.count ≤ 2147483647 ∧ env_client.remote_counter = 0 ∧
      (client_run_loop Demo.atomic cfg_client env_client).exit = Exit.finished) ∧
    loads (run_client Demo.atomic cfg_client env_client).trace = List.range cfg_client.count.toNat ∧
    (client_run_loop Demo.atomic cfg_client env_client).mem.remote_counter =
      cfg_client.count.toNat ∧
    (client_run_loop Demo.atomic cfg_client env_client).i = cfg_client.count.toNat ∧
    (run_client Demo.atomic cfg_client env_client).ret = some 0 :=
  ⟨⟨by decide, by decide, rfl, rfl⟩,
    atomic_fetch_sequence cfg_client env_client
      (client_run_loop Demo.atomic cfg_client env_client) (by decide) (by decide) rfl rfl rfl⟩

/-- The trace of a client run, part by part. -/
theorem run_client_trace (d : Demo) (cfg : Config) (env : Env) :
    (run_client d cfg env).trace =
      (rdma_connection_init cfg env).trace ++
      (if (rdma_connection_init cfg env).ret ≠ 0 then [Call.stderr "初始化会话资源失败"]
      else (client_run_handshake d cfg env).trace ++
        (if (client_run_handshake d cfg env).ret ≠ 0 then
          client_cleanup (client_run_handshake d cfg env).conn (-1)
        else (client_socket cfg env).trace ++
          (if (client_socket cfg env).ret ≠ 0 then
            client_cleanup (client_run_handshake d cfg env).conn (client_socket cfg env).sockfd
          else (client_run_exchange d cfg env).trace ++
            (if (client_run_exchange d cfg env).ret ≠ 0 then
              client_cleanup (client_run_handshake d cfg env).conn
                (client_run_exchange d cfg env).sockfd
            else (client_run_loop d cfg env).trace ++
              (if (client_run_loop d cfg env).exit = Exit.waiting then []
              else client_cleanup (client_run_handshake d cfg env).conn
                (client_run_exchange d cfg env).sockfd))))) := by
  by_cases hi : (rdma_connection_init cfg env).ret = 0
  · rw [(run_client_init_ok d cfg env hi).2.2]
    simp only [hi, ne_eq, not_true_eq_false, if_false, List.append_assoc, List.append_cancel_left_eq]
    unfold client_body client_run_loop client_run_exchange client_run_handshake
    simp only
    by_cases c1 : (client_handshake d env (rdma_connection_init cfg env).conn).ret = 0
    · by_cases c2 : (client_socket cfg env).ret = 0
      · by_cases c3 : (client_exchange d env
            (client_handshake d env (rdma_connection_init cfg env).conn).conn
            (client_socket cfg env).sockfd).ret = 0
        · have hd := client_handshake_data d env _ c1
          simp [c1, c2, c3, hd]
        · simp [c1, c2, c3]
      · simp [c1, c2]
    · simp [c1]
  · rw [(run_client_init_failed d cfg env hi).2.2]
    simp [hi]

/-- The trace of a server run, part by part. -/
theorem run_server_trace (d : Demo) (cfg : Config) (env : Env) :
    (run_server d cfg env).trace =
      (rdma_connection_init cfg env).trace ++
      (if (rdma_connection_init cfg env).ret ≠ 0 then [Call.stderr "初始化会话资源失败"]
      else (server_run_handshake d cfg env).trace ++
        (if (server_run_handshake d cfg env).ret ≠ 0 then
          server_cleanup (server_run_handshake d cfg env).conn (-1) (-1)
        else (server_socket cfg env).trace ++
          (if (server_socket cfg env).ret ≠ 0 then
            server_cleanup (server_run_handshake d cfg env).conn
              (server_socket cfg env).listen_sock (server_socket cfg env).conn_sock
          else (server_run_exchange d cfg env).2 ++
            (if (server_run_exchange d cfg env).1 ≠ 0 then
              server_cleanup (server_run_handshake d cfg env).conn
                (server_socket cfg env).listen_sock (server_socket cfg env).conn_sock
            else (server_loop d cfg env (server_socket cfg env).conn_sock).trace ++
              (if (server_loop d cfg env (server_socket cfg env).conn_sock).exit =
                  LoopExit.waiting then []
              else server_finish d env ++ server_cleanup (server_run_handshake d cfg env).conn
                (server_socket cfg env).listen_sock (server_socket cfg env).conn_sock))))) := by
  by_cases hi : (rdma_connection_init cfg env).ret = 0
  · rw [(run_server_init_ok d cfg env hi).2.2]
    simp only [hi, ne_eq, not_true_eq_false, if_false, List.append_assoc, List.append_cancel_left_eq]
    unfold server_body server_run_exchange server_run_handshake
    simp only
    by_cases c1 : (server_handshake d env (rdma_connection_init cfg env).conn).ret = 0
    · by_cases c2 : (server_socket cfg env).ret = 0
      · by_cases c3 : (server_exchange d env
            (server_handshake d env (rdma_connection_init cfg env).conn).conn
            (server_socket cfg env).listen_sock (server_socket cfg env).conn_sock).1 = 0
        · by_cases c4 : (server_loop d cfg env (server_socket cfg env).conn_sock).exit =
              LoopExit.waiting
          · simp [c1, c2, c3, c4]
          · simp [c1, c2, c3, c4]
        · simp [c1, c2, c3]
      · simp [c1, c2]
    · simp [c1]
  · rw [(run_server_init_failed d cfg env hi).2.2]
    simp [hi]

/-- Calls of the server's acknowledgement loop. -/
theorem kinds_server_ack_loop (d : Demo) (fd : Int) (count : Int) (rs : List AckRead) (c : Int) :
    kinds_in [Kind.rd, Kind.load, Kind.store, Kind.diag]
      (server_ack_loop d fd count c rs).trace = true := by
  induction rs generalizing c with
  | nil => unfold server_ack_loop; split <;> rfl
  | cons r rs ih =>
    unfold server_ack_loop
    repeat' split
    all_goals first
      | rfl
      | (simp only [kinds_in_append, ih, Bool.and_true]; cases d <;> rfl)

/-- The write server's polling loop makes no call. -/
theorem server_poll_loop_trace (count : Int) (ps : List (Bytes × Bytes)) (c : Int) (last : Bytes) :
    (server_poll_loop count c last ps).trace = [] := by
  induction ps generalizing c last with
  | nil => unfold server_poll_loop; split <;> rfl
  | cons p ps ih =>
    unfold server_poll_loop
    repeat' split
    all_goals first
      | rfl
      | exact ih _ _

/-- Calls of the server's observation loop. -/
theorem kinds_server_loop (d : Demo) (cfg : Config) (env : Env) (fd : Int) :
    kinds_in [Kind.rd, Kind.load, Kind.store, Kind.diag] (server_loop d cfg env fd).trace = true := by
  cases d
  · exact kinds_server_ack_loop _ _ _ _ _
  · exact kinds_server_ack_loop _ _ _ _ _
  · simp only [server_loop, server_poll_loop_trace]; rfl

/-- Calls of what follows a completion. -/
theorem kinds_after_completion (d : Demo) (env : Env) (fd : Int) (i : Nat) (m : Mem) :
    kinds_in [Kind.load, Kind.wr, Kind.diag] (after_completion d env fd i m).2 = true := by
  unfold after_completion
  repeat' split
  all_goals rfl

/-- Calls of the client's `for` loop. -/
theorem kinds_client_loop (d : Demo) (env : Env) (conn : rdma_connection) (fd : Int)
    (wr : ibv_send_wr) (n i : Nat) (m : Mem) (ps : List PollResult) :
    kinds_in [Kind.store, Kind.post, Kind.poll, Kind.load, Kind.wr, Kind.diag]
      (client_loop d env conn fd wr n i m ps).trace = true := by
  induction n generalizing i m ps with
  | zero => rfl
  | succ n ih =>
    have hw := kinds_in_mono _ [Kind.store, Kind.post, Kind.poll, Kind.load, Kind.wr, Kind.diag] _
      (by decide) (kinds_wait_completion (wc_expect d) conn.cq ps)
    unfold client_loop
    simp only
    repeat' split
    all_goals simp only [kinds_in_append, hw, ih, Bool.and_true, Bool.true_and]
    all_goals first
      | rfl
      | exact kinds_in_mono _ _ _ (by decide) (kinds_after_completion _ _ _ _ _)

/-- A call of a class that a trace does not contain is not in the trace. -/
theorem not_mem_of_kinds_in (ks : List Kind) (t : List Call) (c : Call)
    (ht : kinds_in ks t = true) (hc : c.kind ∉ ks) : c ∉ t := by
  simp only [kinds_in, List.all_eq_true, decide_eq_true_eq] at ht
  exact fun h => hc (ht c h)

/-- A successful `reg_mem` leaves the environment's region and buffer in the session. -/
theorem reg_mem_ok (d : Demo) (conn : rdma_connection) (env : Env) :
    (reg_mem d conn env).ret = 0 →
    ∃ m a, env.reg_mr = some m ∧ env.memalign = some a ∧
      (reg_mem d conn env).conn.mr = some m ∧ (reg_mem d conn env).conn.buf = some a := by
  unfold reg_mem
  repeat' split
  all_goals simp_all

/-- A successful client handshake leaves the registered region and buffer in the session. -/
theorem client_handshake_ok (d : Demo) (env : Env) (conn0 : rdma_connection) :
    (client_handshake d env conn0).ret = 0 →
    ∃ m a, env.reg_mr = some m ∧ env.memalign = some a ∧
      (client_handshake d env conn0).conn.mr = some m ∧
      (client_handshake d env conn0).conn.buf = some a := by
  unfold client_handshake
  simp only
  repeat' split
  all_goals first
    | (intro h; simp at h; done)
    | (intro _; apply reg_mem_ok; simpa using ‹¬ (reg_mem d (build_qp conn0 env).conn env).ret ≠ 0›)

/-- A successful server handshake leaves the registered region and buffer in the session. -/
theorem server_handshake_ok (d : Demo) (env : Env) (conn0 : rdma_connection) :
    (server_handshake d env conn0).ret = 0 →
    ∃ m a, env.reg_mr = some m ∧ env.memalign = some a ∧
      (server_handshake d env conn0).conn.mr = some m ∧
      (server_handshake d env conn0).conn.buf = some a := by
  unfold server_handshake
  simp only
  repeat' split
  all_goals first
    | (intro h; simp at h; done)
    | (intro _; apply reg_mem_ok; simp_all)

/-- A descriptor survives the trip through its object representation. -/
theorem mr_info_roundtrip (info : mr_info) (pad : Bytes) (h1 : info.rkey < 2 ^ 32)
    (h2 : info.vaddr < 2 ^ 64) : mr_info_of_bytes (mr_info_bytes info pad) = info := by
  have ho : offsetof_vaddr = 8 := by decide
  have ht : (mr_info_bytes info pad).take 4 = le_bytes 4 info.rkey := by
    simp [mr_info_bytes, ho, le_bytes_length]
  have hd : (mr_info_bytes info pad).drop 8 = le_bytes 8 info.vaddr := by
    unfold mr_info_bytes
    rw [ho]
    exact List.drop_left' (by simp [le_bytes_length])
  unfold mr_info_of_bytes
  rw [ho, ht, hd, List.take_of_length_le (by simp [le_bytes_length]),
    le_value_le_bytes 4 _ (by norm_num; omega), le_value_le_bytes 8 _ (by norm_num; omega)]

/-- A property of calls that holds on the classes `ks` holds on a trace of those classes. -/
theorem all_of_kinds_in (ks : List Kind) (p : Call → Bool) (t : List Call)
    (ht : kinds_in ks t = true) (hp : ∀ c, c.kind ∈ ks → p c = true) : t.all p = true := by
  simp only [kinds_in, List.all_eq_true, decide_eq_true_eq] at ht ⊢
  exact fun c hc => hp c (ht c hc)

/-- Every work request the `for` loop posts is the one it was given, on the session's queue pair. -/
theorem client_loop_posts (d : Demo) (env : Env) (conn : rdma_connection) (fd : Int)
    (wr : ibv_send_wr) (n i : Nat) (m : Mem) (ps : List PollResult) :
    (client_loop d env conn fd wr n i m ps).trace.all (post_is conn.qp wr) = true := by
  induction n generalizing i m ps with
  | zero => rfl
  | succ n ih =>
    have hw : (wait_completion (wc_expect d) conn.cq ps).trace.all (post_is conn.qp wr) = true :=
      all_of_kinds_in _ _ _ (kinds_wait_completion _ _ _)
        (fun c hc => by cases c <;> first | rfl | simp [Call.kind] at hc)
    have ha : ∀ j m', (after_completion d env fd j m').2.all (post_is conn.qp wr) = true :=
      fun j m' => all_of_kinds_in _ _ _ (kinds_after_completion d env fd j m')
        (fun c hc => by cases c <;> first | rfl | simp [Call.kind] at hc)
    unfold client_loop
    simp only
    repeat' split
    all_goals simp [List.all_append, hw, ha, ih, post_is]

/-- A work request posted in a client run was posted by its `for` loop, after
the handshake succeeded. -/
theorem post_mem_run_client (d : Demo) (cfg : Config) (env : Env) (qp : Option Handle)
    (wr : ibv_send_wr) (ok : Bool)
    (h : Call.ibv_post_send qp wr ok ∈ (run_client d cfg env).trace) :
    (client_run_handshake d cfg env).ret = 0 ∧ (client_run_exchange d cfg env).ret = 0 ∧
    Call.ibv_post_send qp wr ok ∈ (client_run_loop d cfg env).trace := by
  have n1 := not_mem_of_kinds_in _ _ (Call.ibv_post_send qp wr ok) (kinds_init cfg env)
    (by simp [Call.kind, setup_kinds])
  have n2 := not_mem_of_kinds_in _ _ (Call.ibv_post_send qp wr ok)
    (kinds_client_handshake d env (rdma_connection_init cfg env).conn)
    (by simp [Call.kind, setup_kinds])
  have n3 := not_mem_of_kinds_in _ _ (Call.ibv_post_send qp wr ok) (kinds_client_socket cfg env)
    (by simp [Call.kind])
  have n4 := not_mem_of_kinds_in _ _ (Call.ibv_post_send qp wr ok)
    (kinds_client_exchange d env (client_run_handshake d cfg env).conn
      (client_socket cfg env).sockfd) (by simp [Call.kind])
  have n5 : ∀ conn fd, Call.ibv_post_send qp wr ok ∉ client_cleanup conn fd := fun conn fd =>
    not_mem_of_kinds_in _ _ _ (kinds_client_cleanup conn fd) (by simp [Call.kind])
  rw [run_client_trace] at h
  by_cases c0 : (rdma_connection_init cfg env).ret = 0
  · by_cases c1 : (client_run_handshake d cfg env).ret = 0
    · by_cases c2 : (client_socket cfg env).ret = 0
      · by_cases c3 : (client_run_exchange d cfg env).ret = 0
        · refine ⟨c1, c3, ?_⟩
          simp only [c0, c1, c2, c3, ne_eq, not_true_eq_false, if_false, List.mem_append] at h
          rcases h with h | h | h | h | h | h
          · exact absurd h n1
          · exact absurd h n2
          · exact absurd h n3
          · exact absurd h n4
          · exact h
          · split at h
            · simp at h
            · exact absurd h (n5 _ _)
        · simp only [c0, c1, c2, c3, ne_eq, not_true_eq_false, not_false_eq_true, if_false,
            if_true, List.mem_append] at h
          rcases h with h | h | h | h | h
          · exact absurd h n1
          · exact absurd h n2
          · exact absurd h n3
          · exact absurd h n4
          · exact absurd h (n5 _ _)
      · simp only [c0, c1, c2, ne_eq, not_true_eq_false, not_false_eq_true, if_false,
          if_true, List.mem_append] at h
        rcases h with h | h | h | h
        · exact absurd h n1
        · exact absurd h n2
        · exact absurd h n3
        · exact absurd h (n5 _ _)
    · simp only [c0, c1, ne_eq, not_true_eq_false, not_false_eq_true, if_false,
        if_true, List.mem_append] at h
      rcases h with h | h | h
      · exact absurd h n1
      · exact absurd h n2
      · exact absurd h (n5 _ _)
  · simp only [c0, ne_eq, not_false_eq_true, if_true, List.mem_append, List.mem_singleton] at h
    rcases h with h | h
    · exact absurd h n1
    · cases h

/-- A `write` in a server run is the write of `local_info`, after the handshake succeeded. -/
theorem write_mem_run_server (d : Demo) (cfg : Config) (env : Env) (fd : Int) (data : Bytes)
    (r : Int) (h : Call.write fd data r ∈ (run_server d cfg env).trace) :
    (server_run_handshake d cfg env).ret = 0 ∧
    data = mr_info_bytes (local_info (server_run_handshake d cfg env).conn) env.stack_pad := by
  have n1 := not_mem_of_kinds_in _ _ (Call.write fd data r) (kinds_init cfg env)
    (by simp [Call.kind, setup_kinds])
  have n2 := not_mem_of_kinds_in _ _ (Call.write fd data r)
    (kinds_server_handshake d env (rdma_connection_init cfg env).conn)
    (by simp [Call.kind, setup_kinds])
  have n3 := not_mem_of_kinds_in _ _ (Call.write fd data r) (kinds_server_socket cfg env)
    (by simp [Call.kind])
  have n4 : ∀ fd', Call.write fd data r ∉ (server_loop d cfg env fd').trace := fun fd' =>
    not_mem_of_kinds_in _ _ _ (kinds_server_loop d cfg env fd') (by simp [Call.kind])
  have n5 : ∀ conn s1 s2, Call.write fd data r ∉ server_cleanup conn s1 s2 := fun conn s1 s2 =>
    not_mem_of_kinds_in _ _ _ (kinds_server_cleanup conn s1 s2) (by simp [Call.kind])
  have n6 : Call.write fd data r ∉ server_finish d env := by
    unfold server_finish
    split <;> simp
  have hx : Call.write fd data r ∈ (server_run_exchange d cfg env).2 →
      data = mr_info_bytes (local_info (server_run_handshake d cfg env).conn) env.stack_pad := by
    intro hx
    unfold server_run_exchange server_exchange at hx
    simp only at hx
    split_ifs at hx <;> simp at hx <;> exact hx.2.1
  rw [run_server_trace] at h
  by_cases c0 : (rdma_connection_init cfg env).ret = 0
  · by_cases c1 : (server_run_handshake d cfg env).ret = 0
    · refine ⟨c1, ?_⟩
      by_cases c2 : (server_socket cfg env).ret = 0
      · simp only [c0, c1, c2, ne_eq, not_true_eq_false, if_false, List.mem_append] at h
        rcases h with h | h | h | h | h
        · exact absurd h n1
        · exact absurd h n2
        · exact absurd h n3
        · exact hx h
        · split at h
          · exact absurd h (n5 _ _ _)
          · simp only [List.mem_append] at h
            rcases h with h | h
            · exact absurd h (n4 _)
            · split at h
              · simp at h
              · simp only [List.mem_append] at h
                rcases h with h | h
                · exact absurd h n6
                · exact absurd h (n5 _ _ _)
      · simp only [c0, c1, c2, ne_eq, not_true_eq_false, not_false_eq_true, if_false,
          if_true, List.mem_append] at h
        rcases h with h | h | h | h
        · exact absurd h n1
        · exact absurd h n2
        · exact absurd h n3
        · exact absurd h (n5 _ _ _)
    · simp only [c0, c1, ne_eq, not_true_eq_false, not_false_eq_true, if_false,
        if_true, List.mem_append] at h
      rcases h with h | h | h
      · exact absurd h n1
      · exact absurd h n2
      · exact absurd h (n5 _ _ _)
  · simp only [c0, ne_eq, not_false_eq_true, if_true, List.mem_append, List.mem_singleton] at h
    rcases h with h | h
    · exact absurd h n1
    · cases h

/-- C5. In each demo, when the bytes the client's descriptor `read` delivers
are the bytes the server wrote (the server's region `smr` and buffer address
`sbuf` being a 32-bit key and a 64-bit address), every work request the client
posts carries the server's `rkey` and the server's buffer address as remote
key and remote address, and its single scatter/gather element is the client's
own buffer address, the buffer size and the client's own `lkey`. -/
theorem descriptor_round_trip (d : Demo) (cfg_s cfg_c : Config) (env_s env_c : Env)
    (smr : ibv_mr) (sbuf : Nat) (fd : Int) (data : Bytes) (r : Int)
    (qp : Option Handle) (wr : ibv_send_wr) (ok : Bool)
    (hreg : env_s.reg_mr = some smr) (hbuf : env_s.memalign = some sbuf)
    (hk : smr.rkey < 2 ^ 32) (ha : sbuf < 2 ^ 64)
    (hw : Call.write fd data r ∈ (run_server d cfg_s env_s).trace)
    (hch : env_c.read_info_data = data)
    (hp : Call.ibv_post_send qp wr ok ∈ (run_client d cfg_c env_c).trace) :
    wr.rkey = smr.rkey ∧ wr.remote_addr = sbuf ∧
    ∃ cmr cbuf, env_c.reg_mr = some cmr ∧ env_c.memalign = some cbuf ∧
      wr.sg_list = [⟨cbuf, buf_size d, cmr.lkey⟩] ∧ wr.num_sge = 1 := by
  obtain ⟨s1, s2⟩ := write_mem_run_server d cfg_s env_s fd data r hw
  obtain ⟨m, a, sm, sa, sm', sa'⟩ := server_handshake_ok d env_s _ s1
  rw [hreg] at sm
  rw [hbuf] at sa
  cases sm
  cases sa
  have hl : local_info (server_run_handshake d cfg_s env_s).conn = ⟨smr.rkey, sbuf⟩ := by
    unfold local_info server_run_handshake
    rw [sm', sa']
    rfl
  rw [hl] at s2
  obtain ⟨c1, c2, c3⟩ := post_mem_run_client d cfg_c env_c qp wr ok hp
  obtain ⟨cmr, cbuf, cm, ca, cm', ca'⟩ := client_handshake_ok d env_c _ c1
  have hall := client_loop_posts d env_c (client_run_handshake d cfg_c env_c).conn
    (client_run_exchange d cfg_c env_c).sockfd
    (client_wr d (client_run_handshake d cfg_c env_c).conn
      (client_run_exchange d cfg_c env_c).remote_info)
    cfg_c.count.toNat 0 ⟨List.replicate (buf_size d) 0, env_c.remote_counter, []⟩ env_c.polls
  have hq := List.all_eq_true.1 hall _ c3
  simp only [post_is, decide_eq_true_eq] at hq
  have hri : (client_run_exchange d cfg_c env_c).remote_info = ⟨smr.rkey, sbuf⟩ := by
    have : (client_run_exchange d cfg_c env_c).remote_info =
        mr_info_of_bytes env_c.read_info_data := by
      unfold client_run_exchange client_exchange
      simp only
      split_ifs <;> rfl
    rw [this, hch, s2]
    exact mr_info_roundtrip ⟨smr.rkey, sbuf⟩ env_s.stack_pad hk ha
  rw [hq.2, hri]
  refine ⟨rfl, rfl, cmr, cbuf, cm, ca, ?_, rfl⟩
  unfold client_wr client_run_handshake
  simp only
  rw [cm', ca']
  rfl

/-- C5 on the sample runs: the server wrote its descriptor (key 2002, address
8192), the client read those bytes, and the first work request it posted
targets key 2002 at address 8192 from its own buffer 12288 with its own
`lkey` 3003. -/
theorem descriptor_round_trip_sample :
    (ibv_mr.rkey ⟨70, 1001, 2002⟩ < 2 ^ 32 ∧ (8192 : Nat) < 2 ^ 64 ∧
      Call.write 4 (mr_info_bytes ⟨2002, 8192⟩ [0, 0, 0, 0]) 16 ∈
        (run_server Demo.atomic cfg_server env_server).trace ∧
      Call.ibv_post_send (some 61)
        ⟨[⟨12288, 8, 3003⟩], 1, ibv_wr_opcode.IBV_WR_ATOMIC_FETCH_AND_ADD, IBV_SEND_SIGNALED,
          8192, 2002, 1⟩ true ∈ (run_client Demo.atomic cfg_client env_client).trace) ∧
    (2002 = ibv_mr.rkey ⟨70, 1001, 2002⟩ ∧ 8192 = 8192 ∧
      ∃ cmr cbuf, env_client.reg_mr = some cmr ∧ env_client.memalign = some cbuf ∧
        [(⟨12288, 8, 3003⟩ : ibv_sge)] = [⟨cbuf, buf_size Demo.atomic, cmr.lkey⟩] ∧ 1 = 1) :=
  ⟨⟨by decide, by decide, by decide, by decide⟩,
    descriptor_round_trip Demo.atomic cfg_server cfg_client env_server env_client
      ⟨70, 1001, 2002⟩ 8192 4 (mr_info_bytes ⟨2002, 8192⟩ [0, 0, 0, 0]) 16 (some 61)
      ⟨[⟨12288, 8, 3003⟩], 1, ibv_wr_opcode.IBV_WR_ATOMIC_FETCH_AND_ADD, IBV_SEND_SIGNALED,
        8192, 2002, 1⟩ true rfl rfl (by decide) (by decide) (by decide) rfl (by decide)⟩

/-- `side_events` over a concatenation. -/
theorem side_events_append (s t : List Call) :
    side_events (s ++ t) = side_events s ++ side_events t := by
  simp [side_events, List.filter_append]

/-- The empty trace has no side-channel events. -/
theorem side_events_nil : side_events [] = [] := rfl

/-- A trace of classes without side-channel events has none. -/
theorem side_events_of_kinds_in (ks : List Kind) (t : List Call) (ht : kinds_in ks t = true)
    (h1 : Kind.sock ∉ ks) (h2 : Kind.rd ∉ ks) (h3 : Kind.wr ∉ ks) (h4 : Kind.post ∉ ks) :
    side_events t = [] := by
  unfold side_events
  refine filter_of_kinds_in ks _ t ht ?_
  intro c hc
  cases c <;> first | rfl | exact absurd hc h1 | exact absurd hc h2 | exact absurd hc h3 |
    exact absurd hc h4

/-- Side-channel events of the client's socket set-up. -/
theorem side_events_client_socket (cfg : Config) (env : Env) :
    ((client_socket cfg env).ret = 0 ∧
      side_events (client_socket cfg env).trace =
        [Call.connect (client_socket cfg env).sockfd (htons (cfg.port + 1)) env.sock_connect] ∧
      ¬ env.sock_connect < 0) ∨
    ((client_socket cfg env).ret ≠ 0 ∧
      (side_events (client_socket cfg env).trace = [] ∨
       (side_events (client_socket cfg env).trace =
          [Call.connect (client_socket cfg env).sockfd (htons (cfg.port + 1)) env.sock_connect] ∧
        env.sock_connect < 0))) := by
  unfold client_socket
  simp only
  split_ifs with h1 h2
  · right; exact ⟨by simp, Or.inl rfl⟩
  · right; exact ⟨by simp, Or.inr ⟨rfl, h2⟩⟩
  · left; exact ⟨rfl, rfl, h2⟩

/-- Side-channel events of the server's socket set-up. -/
theorem side_events_server_socket (cfg : Config) (env : Env) :
    ((server_socket cfg env).ret = 0 ∧
      side_events (server_socket cfg env).trace =
        [Call.accept (server_socket cfg env).listen_sock (server_socket cfg env).conn_sock] ∧
      ¬ (server_socket cfg env).conn_sock < 0) ∨
    ((server_socket cfg env).ret ≠ 0 ∧
      (side_events (server_socket cfg env).trace = [] ∨
       (side_events (server_socket cfg env).trace =
          [Call.accept (server_socket cfg env).listen_sock (server_socket cfg env).conn_sock] ∧
        (server_socket cfg env).conn_sock < 0))) := by
  unfold server_socket
  simp only
  split_ifs with h1 h2 h3
  · right; exact ⟨by simp, Or.inl rfl⟩
  · right; exact ⟨by simp, Or.inl rfl⟩
  · right; exact ⟨by simp, Or.inr ⟨rfl, h3⟩⟩
  · left; exact ⟨rfl, rfl, h3⟩

/-- Side-channel events of the client's descriptor exchange. -/
theorem side_events_client_exchange (d : Demo) (env : Env) (conn : rdma_connection) (fd : Int) :
    ((client_exchange d env conn fd).ret ≠ 0 ∧ env.read_info ≠ sizeof_mr_info ∧
      side_events (client_exchange d env conn fd).trace =
        [Call.read fd sizeof_mr_info env.read_info]) ∨
    ((client_exchange d env conn fd).ret ≠ 0 ∧ env.read_info = sizeof_mr_info ∧
      env.write_info ≠ sizeof_mr_info ∧
      side_events (client_exchange d env conn fd).trace =
        [Call.read fd sizeof_mr_info env.read_info,
         Call.write fd (mr_info_bytes (local_info conn) env.stack_pad) env.write_info]) ∨
    ((client_exchange d env conn fd).ret = 0 ∧ env.read_info = sizeof_mr_info ∧
      env.write_info = sizeof_mr_info ∧
      side_events (client_exchange d env conn fd).trace =
        [Call.read fd sizeof_mr_info env.read_info,
         Call.write fd (mr_info_bytes (local_info conn) env.stack_pad) env.write_info]) := by
  unfold client_exchange
  simp only
  split_ifs with h1 h2 h3
  · left; exact ⟨by simp, h1, rfl⟩
  · right; left; exact ⟨by simp, not_not.1 h1, h2, rfl⟩
  · right; right; exact ⟨rfl, not_not.1 h1, not_not.1 h2, rfl⟩
  · right; right; exact ⟨rfl, not_not.1 h1, not_not.1 h2, rfl⟩

/-- Side-channel events of the server's descriptor exchange. -/
theorem side_events_server_exchange (d : Demo) (env : Env) (conn : rdma_connection)
    (s1 s2 : Int) :
    ((server_exchange d env conn s1 s2).1 ≠ 0 ∧ env.write_info ≠ sizeof_mr_info ∧
      side_events (server_exchange d env conn s1 s2).2 =
        [Call.write s2 (mr_info_bytes (local_info conn) env.stack_pad) env.write_info]) ∨
    ((server_exchange d env conn s1 s2).1 ≠ 0 ∧ env.write_info = sizeof_mr_info ∧
      env.read_info ≠ sizeof_mr_info ∧
      side_events (server_exchange d env conn s1 s2).2 =
        [Call.write s2 (mr_info_bytes (local_info conn) env.stack_pad) env.write_info,
         Call.read s2 sizeof_mr_info env.read_info]) ∨
    ((server_exchange d env conn s1 s2).1 = 0 ∧ env.write_info = sizeof_mr_info ∧
      env.read_info = sizeof_mr_info ∧
      side_events (server_exchange d env conn s1 s2).2 =
        [Call.write s2 (mr_info_bytes (local_info conn) env.stack_pad) env.write_info,
         Call.read s2 sizeof_mr_info env.read_info]) := by
  unfold server_exchange
  simp only
  split_ifs with h1 h2 h3
  · left; exact ⟨by simp, h1, rfl⟩
  · right; left; exact ⟨by simp, not_not.1 h1, h2, rfl⟩
  · right; right; exact ⟨rfl, not_not.1 h1, not_not.1 h2, rfl⟩
  · right; right; exact ⟨rfl, not_not.1 h1, not_not.1 h2, rfl⟩

/-- A run that did not get through the descriptor exchange never enters the loop. -/
theorem run_client_loop_none (d : Demo) (cfg : Config) (env : Env)
    (h : (client_run_exchange d cfg env).ret ≠ 0) : (run_client d cfg env).loop = none := by
  cases hl : (run_client d cfg env).loop with
  | none => rfl
  | some l => exact absurd (run_client_entered d cfg env l hl).2.2.2.2.1 h

/-- A run that did not get through the descriptor exchange never enters the loop. -/
theorem run_server_loop_none (d : Demo) (cfg : Config) (env : Env)
    (h : (server_run_exchange d cfg env).1 ≠ 0) : (run_server d cfg env).loop = none := by
  cases hl : (run_server d cfg env).loop with
  | none => rfl
  | some l => exact absurd (run_server_entered d cfg env l hl).2.2.2.2.1 h

/-- The side-channel events of a client run. -/
theorem side_events_run_client (d : Demo) (cfg : Config) (env : Env) :
    side_events (run_client d cfg env).trace = [] ∨
    (side_events (run_client d cfg env).trace =
        [Call.connect (client_socket cfg env).sockfd (htons (cfg.port + 1)) env.sock_connect] ∧
      env.sock_connect < 0) ∨
    (side_events (run_client d cfg env).trace =
        [Call.connect (client_socket cfg env).sockfd (htons (cfg.port + 1)) env.sock_connect,
         Call.read (client_socket cfg env).sockfd sizeof_mr_info env.read_info] ∧
      env.read_info ≠ sizeof_mr_info ∧ (run_client d cfg env).loop = none) ∨
    (side_events (run_client d cfg env).trace =
        [Call.connect (client_socket cfg env).sockfd (htons (cfg.port + 1)) env.sock_connect,
         Call.read (client_socket cfg env).sockfd sizeof_mr_info sizeof_mr_info,
         Call.write (client_socket cfg env).sockfd
           (mr_info_bytes (local_info (client_run_handshake d cfg env).conn) env.stack_pad)
           env.write_info] ∧
      env.write_info ≠ sizeof_mr_info ∧ (run_client d cfg env).loop = none) ∨
    side_events (run_client d cfg env).trace =
      Call.connect (client_socket cfg env).sockfd (htons (cfg.port + 1)) env.sock_connect ::
      Call.read (client_socket cfg env).sockfd sizeof_mr_info sizeof_mr_info ::
      Call.write (client_socket cfg env).sockfd
        (mr_info_bytes (local_info (client_run_handshake d cfg env).conn) env.stack_pad)
        sizeof_mr_info ::
      side_events (client_run_loop d cfg env).trace := by
  have e1 : side_events (rdma_connection_init cfg env).trace = [] :=
    side_events_of_kinds_in _ _ (kinds_init cfg env) (by decide) (by decide) (by decide)
      (by decide)
  have e2 : side_events (client_run_handshake d cfg env).trace = [] :=
    side_events_of_kinds_in _ _ (kinds_client_handshake d env _) (by decide) (by decide)
      (by decide) (by decide)
  have e5 : ∀ conn fd, side_events (client_cleanup conn fd) = [] := fun conn fd =>
    side_events_of_kinds_in _ _ (kinds_client_cleanup conn fd) (by decide) (by decide)
      (by decide) (by decide)
  rw [run_client_trace]
  by_cases c0 : (rdma_connection_init cfg env).ret = 0
  · by_cases c1 : (client_run_handshake d cfg env).ret = 0
    · rcases side_events_client_socket cfg env with ⟨s0, s1, s2⟩ | ⟨s0, s1 | ⟨s1, s2⟩⟩
      · rcases side_events_client_exchange d env (client_run_handshake d cfg env).conn
          (client_socket cfg env).sockfd with ⟨x0, x1, x2⟩ | ⟨x0, x1, x2, x3⟩ | ⟨x0, x1, x2, x3⟩
        · right; right; left
          have x0' : (client_run_exchange d cfg env).ret ≠ 0 := x0
          have x2' : side_events (client_run_exchange d cfg env).trace = _ := x2
          refine ⟨?_, x1, run_client_loop_none d cfg env x0'⟩
          simp [c0, c1, s0, x0', side_events_append, e1, e2, e5, s1, x2']
        · right; right; right; left
          have x0' : (client_run_exchange d cfg env).ret ≠ 0 := x0
          have x3' : side_events (client_run_exchange d cfg env).trace = _ := x3
          refine ⟨?_, x2, run_client_loop_none d cfg env x0'⟩
          simp [c0, c1, s0, x0', side_events_append, e1, e2, e5, s1, x3', x1]
        · right; right; right; right
          have x0' : (client_run_exchange d cfg env).ret = 0 := x0
          have x3' : side_events (client_run_exchange d cfg env).trace = _ := x3
          simp only [c0, c1, s0, x0', ne_eq, not_true_eq_false, if_false, side_events_append,
            e1, e2, s1, x3', x1, x2, List.nil_append, List.cons_append, List.singleton_append]
          split <;> simp [e5, side_events_nil]
      · left
        simp [c0, c1, s0, side_events_append, e1, e2, e5, s1]
      · right; left
        refine ⟨?_, s2⟩
        simp [c0, c1, s0, side_events_append, e1, e2, e5, s1]
    · left
      simp [c0, c1, side_events_append, e1, e2, e5]
  · left
    simp only [c0, ne_eq, not_false_eq_true, if_true, side_events_append, e1, List.nil_append]
    rfl

/-- The side-channel events of a server run. -/
theorem side_events_run_server (d : Demo) (cfg : Config) (env : Env) :
    side_events (run_server d cfg env).trace = [] ∨
    (side_events (run_server d cfg env).trace =
        [Call.accept (server_socket cfg env).listen_sock (server_socket cfg env).conn_sock] ∧
      (server_socket cfg env).conn_sock < 0) ∨
    (side_events (run_server d cfg env).trace =
        [Call.accept (server_socket cfg env).listen_sock (server_socket cfg env).conn_sock,
         Call.write (server_socket cfg env).conn_sock
           (mr_info_bytes (local_info (server_run_handshake d cfg env).conn) env.stack_pad)
           env.write_info] ∧
      env.write_info ≠ sizeof_mr_info ∧ (run_server d cfg env).loop = none) ∨
    (side_events (run_server d cfg env).trace =
        [Call.accept (server_socket cfg env).listen_sock (server_socket cfg env).conn_sock,
         Call.write (server_socket cfg env).conn_sock
           (mr_info_bytes (local_info (server_run_handshake d cfg env).conn) env.stack_pad)
           sizeof_mr_info,
         Call.read (server_socket cfg env).conn_sock sizeof_mr_info env.read_info] ∧
      env.read_info ≠ sizeof_mr_info ∧ (run_server d cfg env).loop = none) ∨
    side_events (run_server d cfg env).trace =
      Call.accept (server_socket cfg env).listen_sock (server_socket cfg env).conn_sock ::
      Call.write (server_socket cfg env).conn_sock
        (mr_info_bytes (local_info (server_run_handshake d cfg env).conn) env.stack_pad)
        sizeof_mr_info ::
      Call.read (server_socket cfg env).conn_sock sizeof_mr_info sizeof_mr_info ::
      side_events (server_loop d cfg env (server_socket cfg env).conn_sock).trace := by
  have e1 : side_events (rdma_connection_init cfg env).trace = [] :=
    side_events_of_kinds_in _ _ (kinds_init cfg env) (by decide) (by decide) (by decide)
      (by decide)
  have e2 : side_events (server_run_handshake d cfg env).trace = [] :=
    side_events_of_kinds_in _ _ (kinds_server_handshake d env _) (by decide) (by decide)
      (by decide) (by decide)
  have e5 : ∀ conn s1 s2, side_events (server_cleanup conn s1 s2) = [] := fun conn s1 s2 =>
    side_events_of_kinds_in _ _ (kinds_server_cleanup conn s1 s2) (by decide) (by decide)
      (by decide) (by decide)
  have e6 : side_events (server_finish d env) = [] :=
    side_events_of_kinds_in _ _ (kinds_server_finish d env) (by decide) (by decide)
      (by decide) (by decide)
  rw [run_server_trace]
  by_cases c0 : (rdma_connection_init cfg env).ret = 0
  · by_cases c1 : (server_run_handshake d cfg env).ret = 0
    · rcases side_events_server_socket cfg env with ⟨s0, s1, s2⟩ | ⟨s0, s1 | ⟨s1, s2⟩⟩
      · rcases side_events_server_exchange d env (server_run_handshake d cfg env).conn
          (server_socket cfg env).listen_sock (server_socket cfg env).conn_sock with
          ⟨x0, x1, x2⟩ | ⟨x0, x1, x2, x3⟩ | ⟨x0, x1, x2, x3⟩
        · right; right; left
          have x0' : (server_run_exchange d cfg env).1 ≠ 0 := x0
          have x2' : side_events (server_run_exchange d cfg env).2 = _ := x2
          refine ⟨?_, x1, run_server_loop_none d cfg env x0'⟩
          simp [c0, c1, s0, x0', side_events_append, e1, e2, e5, s1, x2']
        · right; right; right; left
          have x0' : (server_run_exchange d cfg env).1 ≠ 0 := x0
          have x3' : side_events (server_run_exchange d cfg env).2 = _ := x3
          refine ⟨?_, x2, run_server_loop_none d cfg env x0'⟩
          simp [c0, c1, s0, x0', side_events_append, e1, e2, e5, s1, x3', x1]
        · right; right; right; right
          have x0' : (server_run_exchange d cfg env).1 = 0 := x0
          have x3' : side_events (server_run_exchange d cfg env).2 = _ := x3
          simp only [c0, c1, s0, x0', ne_eq, not_true_eq_false, if_false, side_events_append,
            e1, e2, s1, x3', x1, x2, List.nil_append, List.cons_append, List.singleton_append]
          split <;> simp [e5, e6, side_events_nil, side_events_append]
      · left
        simp [c0, c1, s0, side_events_append, e1, e2, e5, s1]
      · right; left
        refine ⟨?_, s2⟩
        simp [c0, c1, s0, side_events_append, e1, e2, e5, s1]
    · left
      simp [c0, c1, side_events_append, e1, e2, e5]
  · left
    simp only [c0, ne_eq, not_false_eq_true, if_true, side_events_append, e1, List.nil_append]
    rfl

/-- C6. In each demo the side-channel events of a server run (socket `accept`,
every `read` and `write`) are: nothing; or a failed `accept`; or `accept`, then
the `write` of the server's descriptor, after which a result other than the
descriptor size ends the events; or `accept`, that `write`, then the `read` of
a descriptor, after which a result other than the descriptor size ends the
events; or `accept`, `write`, `read`, both complete, followed by the events of
the observation loop.  The side-channel events of a client run (socket
`connect`, every `read` and `write`, every posted work request) are: nothing;
or a failed `connect`; or `connect`, then the `read` of a descriptor, short;
or `connect`, `read`, then the `write` of the client's descriptor, short; or
`connect`, `read`, `write`, both complete, followed by the events of the `for`
loop.  A short transfer leaves the loop unentered, so every work request is
posted after both client steps succeeded. -/
theorem exchange_order (d : Demo) (cfg_s cfg_c : Config) (env_s env_c : Env) :
    (side_events (run_server d cfg_s env_s).trace = [] ∨
     (side_events (run_server d cfg_s env_s).trace =
         [Call.accept (server_socket cfg_s env_s).listen_sock
           (server_socket cfg_s env_s).conn_sock] ∧
       (server_socket cfg_s env_s).conn_sock < 0) ∨
     (side_events (run_server d cfg_s env_s).trace =
         [Call.accept (server_socket cfg_s env_s).listen_sock
           (server_socket cfg_s env_s).conn_sock,
          Call.write (server_socket cfg_s env_s).conn_sock
            (mr_info_bytes (local_info (server_run_handshake d cfg_s env_s).conn)
              env_s.stack_pad)
            env_s.write_info] ∧
       env_s.write_info ≠ sizeof_mr_info ∧ (run_server d cfg_s env_s).loop = none) ∨
     (side_events (run_server d cfg_s env_s).trace =
         [Call.accept (server_socket cfg_s env_s).listen_sock
           (server_socket cfg_s env_s).conn_sock,
          Call.write (server_socket cfg_s env_s).conn_sock
            (mr_info_bytes (local_info (server_run_handshake d cfg_s env_s).conn)
              env_s.stack_pad)
            sizeof_mr_info,
          Call.read (server_socket cfg_s env_s).conn_sock sizeof_mr_info env_s.read_info] ∧
       env_s.read_info ≠ sizeof_mr_info ∧ (run_server d cfg_s env_s).loop = none) ∨
     side_events (run_server d cfg_s env_s).trace =
       Call.accept (server_socket cfg_s env_s).listen_sock
         (server_socket cfg_s env_s).conn_sock ::
       Call.write (server_socket cfg_s env_s).conn_sock
         (mr_info_bytes (local_info (server_run_handshake d cfg_s env_s).conn) env_s.stack_pad)
         sizeof_mr_info ::
       Call.read (server_socket cfg_s env_s).conn_sock sizeof_mr_info sizeof_mr_info ::
       side_events (server_loop d cfg_s env_s (server_socket cfg_s env_s).conn_sock).trace) ∧
    (side_events (run_client d cfg_c env_c).trace = [] ∨
     (side_events (run_client d cfg_c env_c).trace =
         [Call.connect (client_socket cfg_c env_c).sockfd (htons (cfg_c.port + 1))
           env_c.sock_connect] ∧
       env_c.sock_connect < 0) ∨
     (side_events (run_client d cfg_c env_c).trace =
         [Call.connect (client_socket cfg_c env_c).sockfd (htons (cfg_c.port + 1))
           env_c.sock_connect,
          Call.read (client_socket cfg_c env_c).sockfd sizeof_mr_info env_c.read_info] ∧
       env_c.read_info ≠ sizeof_mr_info ∧ (run_client d cfg_c env_c).loop = none) ∨
     (side_events (run_client d cfg_c env_c).trace =
         [Call.connect (client_socket cfg_c env_c).sockfd (htons (cfg_c.port + 1))
           env_c.sock_connect,
          Call.read (client_socket cfg_c env_c).sockfd sizeof_mr_info sizeof_mr_info,
          Call.write (client_socket cfg_c env_c).sockfd
            (mr_info_bytes (local_info (client_run_handshake d cfg_c env_c).conn)
              env_c.stack_pad)
            env_c.write_info] ∧
       env_c.write_info ≠ sizeof_mr_info ∧ (run_client d cfg_c env_c).loop = none) ∨
     side_events (run_client d cfg_c env_c).trace =
       Call.connect (client_socket cfg_c env_c).sockfd (htons (cfg_c.port + 1))
         env_c.sock_connect ::
       Call.read (client_socket cfg_c env_c).sockfd sizeof_mr_info sizeof_mr_info ::
       Call.write (client_socket cfg_c env_c).sockfd
         (mr_info_bytes (local_info (client_run_handshake d cfg_c env_c).conn) env_c.stack_pad)
         sizeof_mr_info ::
       side_events (client_run_loop d cfg_c env_c).trace) :=
  ⟨side_events_run_server d cfg_s env_s, side_events_run_client d cfg_c env_c⟩

/-- C1. A server run of each demo in which `rdma_connection_init` succeeds and
the first `rdma_get_cm_event` fails: `wait_event` fails, the diagnostics are
printed, teardown runs, and `run_server` returns 0.  A client run in which
`rdma_connect` fails returns 0 as well.  In general, once
`rdma_connection_init` has succeeded, `run_server` and `run_client` return 0
whenever they return, whatever failed. -/
theorem run_server_returns_zero_after_failure (d : Demo) :
    (rdma_connection_init cfg_server { env_server with cm_event := fun _ => none }).ret = 0 ∧
    (run_server d cfg_server { env_server with cm_event := fun _ => none }).ret = some 0 ∧
    (run_server d cfg_server { env_server with cm_event := fun _ => none }).trace =
      [Call.rdma_create_event_channel (some 10), Call.rdma_create_id (some 10) (some 20),
       Call.rdma_bind_addr (some 20) 18515 true, Call.rdma_listen (some 20) 1 true,
       Call.rdma_get_cm_event (some 10) none, Call.stderr "rdma_get_cm_event 失败 %d",
       Call.stderr "等待连接请求失败",
       Call.rdma_destroy_id 20, Call.rdma_destroy_event_channel 10] ∧
    (rdma_connection_init cfg_client { env_client with connect := false }).ret = 0 ∧
    (run_client d cfg_client { env_client with connect := false }).ret = some 0 ∧
    Call.stderr "rdma_connect 失败" ∈
      (run_client d cfg_client { env_client with connect := false }).trace ∧
    (∀ cfg env, (rdma_connection_init cfg env).ret = 0 →
      (run_server d cfg env).ret = some 0 ∨ (run_server d cfg env).ret = none) ∧
    (∀ cfg env, (rdma_connection_init cfg env).ret = 0 →
      (run_client d cfg env).ret = some 0 ∨ (run_client d cfg env).ret = none) := by
  refine ⟨by cases d <;> decide, by cases d <;> decide, by cases d <;> decide,
    by cases d <;> decide, by cases d <;> decide, by cases d <;> decide, ?_, ?_⟩
  · intro cfg env h
    rw [(run_server_init_ok d cfg env h).2.1]
    split <;> simp
  · intro cfg env h
    rw [(run_client_init_ok d cfg env h).2.1]
    split <;> simp

/-- C2. A server run in which `rdma_create_event_channel` succeeds and
`rdma_create_id` fails: `run_server` returns -1 straight after the diagnostics;
the event channel it created is never destroyed.  The same holds for
`run_client`.  In general, when `rdma_connection_init` fails after creating an
event channel, the run returns -1 and its trace holds the creation of the
channel and no release call at all. -/
theorem run_server_init_failure_skips_cleanup (d : Demo) :
    (run_server d cfg_server { env_server with create_id := none }).ret = some (-1) ∧
    (run_server d cfg_server { env_server with create_id := none }).trace =
      [Call.rdma_create_event_channel (some 10), Call.rdma_create_id (some 10) none,
       Call.stderr "rdma_create_id 失败 %d", Call.stderr "初始化会话资源失败"] ∧
    Call.rdma_destroy_event_channel 10 ∉
      (run_server d cfg_server { env_server with create_id := none }).trace ∧
    (run_client d cfg_client { env_client with create_id := none }).ret = some (-1) ∧
    Call.rdma_destroy_event_channel 11 ∉
      (run_client d cfg_client { env_client with create_id := none }).trace ∧
    (∀ cfg env ec, env.create_event_channel = some ec → (rdma_connection_init cfg env).ret ≠ 0 →
      (run_server d cfg env).ret = some (-1) ∧
      Call.rdma_create_event_channel (some ec) ∈ (run_server d cfg env).trace ∧
      releases (run_server d cfg env).trace = [] ∧
      (run_client d cfg env).ret = some (-1) ∧
      Call.rdma_create_event_channel (some ec) ∈ (run_client d cfg env).trace ∧
      releases (run_client d cfg env).trace = []) := by
  refine ⟨by cases d <;> decide, by cases d <;> decide, by cases d <;> decide,
    by cases d <;> decide, by cases d <;> decide, ?_⟩
  intro cfg env ec hec hi
  obtain ⟨-, s2, s3⟩ := run_server_init_failed d cfg env hi
  obtain ⟨-, c2, c3⟩ := run_client_init_failed d cfg env hi
  have hr : releases ((rdma_connection_init cfg env).trace ++
      [Call.stderr "初始化会话资源失败"]) = [] := by
    unfold releases
    rw [List.filter_append, filter_of_kinds_in _ _ _ (kinds_init cfg env)
      (fun c hc => by cases c <;> first | rfl | simp [Call.kind, setup_kinds] at hc)]
    rfl
  have hm : Call.rdma_create_event_channel (some ec) ∈ (rdma_connection_init cfg env).trace := by
    unfold rdma_connection_init
    simp only [hec]
    repeat' split
    all_goals simp
  rw [s3, c3]
  exact ⟨s2, List.mem_append_left _ hm, hr, c2, List.mem_append_left _ hm, hr⟩

/-- C4. An undisturbed server run of the atomic demo: the listening identifier
20 and the queue pair 60 are acquired, the run returns 0, and the release calls
of the whole run are the seven of `rdma_connection_cleanup`: the identifier
destroyed is the per-connection one (21), the listening identifier is never
destroyed and no call releases the queue pair.  An undisturbed client run
acquires the queue pair 61 and releases everything but it. -/
theorem run_server_leaves_qp_and_listen_id :
    (run_server Demo.atomic cfg_server env_server).ret = some 0 ∧
    Call.rdma_create_id (some 10) (some 20) ∈ (run_server Demo.atomic cfg_server env_server).trace ∧
    Call.rdma_create_qp (some 21) (some 30)
      ⟨some 50, some 50, ibv_qp_type.IBV_QPT_RC, 10, 10, 1, 1⟩ (some 60) ∈
      (run_server Demo.atomic cfg_server env_server).trace ∧
    releases (run_server Demo.atomic cfg_server env_server).trace =
      [Call.ibv_dereg_mr ⟨70, 1001, 2002⟩, Call.ibv_destroy_cq 50,
       Call.ibv_destroy_comp_channel 40, Call.ibv_dealloc_pd 30, Call.rdma_destroy_id 21,
       Call.rdma_destroy_event_channel 10, Call.free 8192] ∧
    Call.rdma_destroy_id 20 ∉ (run_server Demo.atomic cfg_server env_server).trace ∧
    (run_client Demo.atomic cfg_client env_client).ret = some 0 ∧
    Call.rdma_create_qp (some 20) (some 31)
      ⟨some 51, some 51, ibv_qp_type.IBV_QPT_RC, 10, 10, 1, 1⟩ (some 61) ∈
      (run_client Demo.atomic cfg_client env_client).trace ∧
    releases (run_client Demo.atomic cfg_client env_client).trace =
      [Call.ibv_dereg_mr ⟨71, 3003, 4004⟩, Call.ibv_destroy_cq 51,
       Call.ibv_destroy_comp_channel 41, Call.ibv_dealloc_pd 31, Call.rdma_destroy_id 20,
       Call.rdma_destroy_event_channel 11, Call.free 12288] := by
  decide

/-- Reads that return a positive count or are interrupted, followed by a read
that returns 0 while the count is still below `count`: the loop ends there,
with as many acknowledgements counted as reads returned a positive count. -/
theorem server_ack_loop_until_closed (d : Demo) (fd : Int) (count : Int) (pre : List AckRead)
    (r0 : AckRead) (rest : List AckRead) (c : Int)
    (hpre : ∀ r ∈ pre, 0 < r.n ∨ (r.n < 0 ∧ r.errno = EINTR))
    (hc : c + positives pre < count) (h0 : r0.n = 0) :
    (server_ack_loop d fd count c (pre ++ r0 :: rest)).exit = LoopExit.peer_closed ∧
    (server_ack_loop d fd count c (pre ++ r0 :: rest)).count = c + positives pre := by
  induction pre generalizing c with
  | nil =>
    have h1 : c < count := by simpa [positives] using hc
    simp [server_ack_loop, h1, h0, positives]
  | cons r pre ih =>
    have hr := hpre r (by simp)
    have hpre' : ∀ x ∈ pre, 0 < x.n ∨ (x.n < 0 ∧ x.errno = EINTR) :=
      fun x hx => hpre x (by simp [hx])
    rcases hr with hp | ⟨hn, he⟩
    · have h2 : positives (r :: pre) = positives pre + 1 := by
        simp [positives, List.filter_cons, hp]
      have h1 : c < count := by omega
      have := ih (c + 1) hpre' (by rw [h2] at hc; push_cast at hc; omega)
      simp only [List.cons_append, server_ack_loop, h1, hp, if_true]
      rw [h2]
      push_cast
      exact ⟨this.1, this.2.trans (by ring)⟩
    · have hnp : ¬ 0 < r.n := by omega
      have hnz : ¬ r.n = 0 := by omega
      have h2 : positives (r :: pre) = positives pre := by
        simp [positives, List.filter_cons, hnp]
      have h1 : c < count := by rw [h2] at hc; omega
      have := ih c hpre' (by rw [h2] at hc; exact hc)
      simp only [List.cons_append, server_ack_loop, h1, hnp, hnz, he, if_true, if_false]
      rw [h2]
      exact this

/-- When the socket set-up succeeds both descriptors are valid. -/
theorem server_socket_ok (cfg : Config) (env : Env) (h : (server_socket cfg env).ret = 0) :
    0 ≤ (server_socket cfg env).listen_sock ∧ 0 ≤ (server_socket cfg env).conn_sock := by
  unfold server_socket at h ⊢
  simp only at h ⊢
  by_cases h1 : env.socket < 0
  · simp [h1] at h
  · by_cases h2 : env.bind < 0
    · simp [h1, h2] at h
    · by_cases h3 : env.sock_accept < 0
      · simp [h1, h2, h3] at h
      · simp only [h1, h2, h3, if_false]
        omega

/-- A successful `rdma_connection_init` leaves the event channel and the
identifier in the session, and nothing else. -/
theorem init_session (cfg : Config) (env : Env) (h : (rdma_connection_init cfg env).ret = 0) :
    ∃ ec id, (rdma_connection_init cfg env).conn =
      ⟨some ec, some id, none, none, none, none, none, none⟩ := by
  unfold rdma_connection_init at h ⊢
  revert h
  repeat' split
  all_goals simp

/-- A successful `build_qp` sets the four handles and leaves the rest. -/
theorem build_qp_session (conn : rdma_connection) (env : Env) (h : (build_qp conn env).ret = 0) :
    ∃ pd ch cq qp, (build_qp conn env).conn =
      { conn with pd := some pd, comp_ch := some ch, cq := some cq, qp := some qp } := by
  unfold build_qp at h ⊢
  revert h
  repeat' split
  all_goals simp

/-- A successful `reg_mem` sets buffer and region and leaves the rest. -/
theorem reg_mem_session (d : Demo) (conn : rdma_connection) (env : Env)
    (h : (reg_mem d conn env).ret = 0) :
    ∃ m a, (reg_mem d conn env).conn = { conn with buf := some a, mr := some m } := by
  unfold reg_mem at h ⊢
  revert h
  repeat' split
  all_goals simp

/-- A successful server handshake: the session is the one `reg_mem` left after
`build_qp` on the session whose identifier is the connect request's. -/
theorem server_handshake_session (d : Demo) (env : Env) (conn0 : rdma_connection)
    (h : (server_handshake d env conn0).ret = 0) :
    ∃ evt : rdma_cm_event,
      (build_qp { conn0 with cm_id := some evt.id } env).ret = 0 ∧
      (reg_mem d (build_qp { conn0 with cm_id := some evt.id } env).conn env).ret = 0 ∧
      (server_handshake d env conn0).conn =
        (reg_mem d (build_qp { conn0 with cm_id := some evt.id } env).conn env).conn := by
  unfold server_handshake at h ⊢
  simp only at h ⊢
  cases hw : (wait_event conn0 rdma_cm_event_type.CONNECT_REQUEST (env.cm_event 0)).evt with
  | none => simp [hw] at h
  | some evt =>
    simp only [hw] at h ⊢
    refine ⟨evt, ?_⟩
    by_cases hb : (build_qp { conn0 with cm_id := some evt.id } env).ret = 0
    · by_cases hr : (reg_mem d (build_qp { conn0 with cm_id := some evt.id } env).conn env).ret = 0
      · refine ⟨hb, hr, ?_⟩
        simp only [hb, hr, ne_eq, not_true_eq_false, if_false]
        repeat' split
        all_goals rfl
      · simp [hb, hr] at h
    · simp [hb] at h

/-- The statements at `cleanup` of a server run that entered its observation
loop: both sockets are closed and all seven release calls are made, on the
handles the run acquired. -/
theorem server_cleanup_full (d : Demo) (cfg : Config) (env : Env)
    (hi : (rdma_connection_init cfg env).ret = 0)
    (hh : (server_run_handshake d cfg env).ret = 0) (hs : (server_socket cfg env).ret = 0) :
    ∃ ec id pd ch cq m a,
      server_cleanup (server_run_handshake d cfg env).conn (server_socket cfg env).listen_sock
          (server_socket cfg env).conn_sock =
        [Call.close (server_socket cfg env).conn_sock,
         Call.close (server_socket cfg env).listen_sock,
         Call.ibv_dereg_mr m, Call.ibv_destroy_cq cq, Call.ibv_destroy_comp_channel ch,
         Call.ibv_dealloc_pd pd, Call.rdma_destroy_id id, Call.rdma_destroy_event_channel ec,
         Call.free a] := by
  obtain ⟨ec, id0, e0⟩ := init_session cfg env hi
  obtain ⟨evt, hb, hr, e1⟩ := server_handshake_session d env _ hh
  obtain ⟨pd, ch, cq, qp, e2⟩ := build_qp_session _ env hb
  obtain ⟨m, a, e3⟩ := reg_mem_session d _ env hr
  obtain ⟨p1, p2⟩ := server_socket_ok cfg env hs
  refine ⟨ec, evt.id, pd, ch, cq, m, a, ?_⟩
  have e : (server_run_handshake d cfg env).conn =
      ⟨some ec, some evt.id, some pd, some ch, some cq, some qp, some m, some a⟩ := by
    unfold server_run_handshake
    rw [e1, e3, e2, e0]
  rw [e]
  simp [server_cleanup, rdma_connection_cleanup, p1, p2]

/-- C10 (amended). The observation loop of the atomic and read servers, for
every list of results of `read`: below `count` a read with a positive result
adds one to the count and the loop goes on; a negative result with
`errno == EINTR` is retried without counting; a result of 0 ends the loop
with the count reached so far and without a diagnostic; at `count` the loop
ends without reading.  The final count is the number of reads that returned a
positive count; it never exceeds `count` when `count` is not negative, and
stays 0 when it is.  Reads that are counted or retried, followed by a read
returning 0 before `count` acknowledgements were counted, end the loop with
that partial count.  When the loop ended on a result of 0 the count is below
`count`, no diagnostic was printed by the loop, and the run goes on to the
statements at `cleanup` with the session and the sockets it set up: both
sockets are closed, the seven release calls of `rdma_connection_cleanup` are
made on the handles the run acquired, and `run_server` returns 0.  The sample
server run, whose client sends two of three acknowledgements and closes, does
so with the count 2, and its trace ends with that teardown. -/
theorem ack_loop_rules (d : Demo) (fd : Int) (count : Int) :
    (∀ c r rs, c < count → 0 < r.n →
      server_ack_loop d fd count c (r :: rs) =
        ⟨(server_ack_loop d fd count (c + 1) rs).exit,
          (server_ack_loop d fd count (c + 1) rs).count,
          (server_ack_loop d fd count (c + 1) rs).last_buf,
          [Call.read fd 8 r.n] ++ ack_effect d (c + 1) r ++
            (server_ack_loop d fd count (c + 1) rs).trace⟩) ∧
    (∀ c r rs, c < count → r.n < 0 → r.errno = EINTR →
      server_ack_loop d fd count c (r :: rs) =
        ⟨(server_ack_loop d fd count c rs).exit, (server_ack_loop d fd count c rs).count,
          (server_ack_loop d fd count c rs).last_buf,
          [Call.read fd 8 r.n] ++ (server_ack_loop d fd count c rs).trace⟩) ∧
    (∀ c r rs, c < count → r.n = 0 →
      server_ack_loop d fd count c (r :: rs) =
        ⟨LoopExit.peer_closed, c, [], [Call.read fd 8 r.n]⟩) ∧
    (∀ c rs, ¬ c < count → server_ack_loop d fd count c rs = ⟨LoopExit.reached, c, [], []⟩) ∧
    (∀ rs, (server_ack_loop d fd count 0 rs).count =
      positive_reads (server_ack_loop d fd count 0 rs).trace) ∧
    (∀ rs, 0 ≤ count → (server_ack_loop d fd count 0 rs).count ≤ count) ∧
    (∀ rs, count < 0 → (server_ack_loop d fd count 0 rs).count = 0) ∧
    (∀ pre r0 rest, (∀ r ∈ pre, 0 < r.n ∨ (r.n < 0 ∧ r.errno = EINTR)) →
      (positives pre : Int) < count → r0.n = 0 →
      (server_ack_loop d fd count 0 (pre ++ r0 :: rest)).exit = LoopExit.peer_closed ∧
      (server_ack_loop d fd count 0 (pre ++ r0 :: rest)).count = positives pre) ∧
    (∀ rs, (server_ack_loop d fd count 0 rs).exit = LoopExit.peer_closed →
      (server_ack_loop d fd count 0 rs).count < count ∧
      ∀ msg, Call.stderr msg ∉ (server_ack_loop d fd count 0 rs).trace) ∧
    (∀ cfg env l, d ≠ Demo.write → (run_server d cfg env).loop = some l →
      l.exit = LoopExit.peer_closed →
      (run_server d cfg env).ret = some 0 ∧ l.count < cfg.count ∧
      (∀ msg, Call.stderr msg ∉ l.trace) ∧
      l = server_ack_loop d (server_socket cfg env).conn_sock cfg.count 0 env.ack_reads ∧
      (run_server d cfg env).trace =
        server_setup d cfg env ++ l.trace ++ server_finish d env ++
          server_cleanup (server_run_handshake d cfg env).conn
            (server_socket cfg env).listen_sock (server_socket cfg env).conn_sock ∧
      ∃ ec id pd ch cq m a,
        server_cleanup (server_run_handshake d cfg env).conn
            (server_socket cfg env).listen_sock (server_socket cfg env).conn_sock =
          [Call.close (server_socket cfg env).conn_sock,
           Call.close (server_socket cfg env).listen_sock,
           Call.ibv_dereg_mr m, Call.ibv_destroy_cq cq, Call.ibv_destroy_comp_channel ch,
           Call.ibv_dealloc_pd pd, Call.rdma_destroy_id id,
           Call.rdma_destroy_event_channel ec, Call.free a]) ∧
    ((run_server Demo.atomic cfg_server env_server).ret = some 0 ∧
      (run_server Demo.atomic cfg_server env_server).loop.map LoopResult.exit =
        some LoopExit.peer_closed ∧
      (run_server Demo.atomic cfg_server env_server).loop.map LoopResult.count = some 2 ∧
      (run_server Demo.read cfg_server env_server).ret = some 0 ∧
      (run_server Demo.read cfg_server env_server).loop.map LoopResult.count = some 2 ∧
      (run_server Demo.atomic cfg_server env_server).trace.drop 30 =
        [Call.close 4, Call.close 3, Call.ibv_dereg_mr ⟨70, 1001, 2002⟩, Call.ibv_destroy_cq 50,
         Call.ibv_destroy_comp_channel 40, Call.ibv_dealloc_pd 30, Call.rdma_destroy_id 21,
         Call.rdma_destroy_event_channel 10, Call.free 8192]) := by
  refine ⟨?_, ?_, ?_, ?_, ?_, ?_, ?_, ?_, ?_, ?_, by decide⟩
  · intro c r rs h1 h2
    simp [server_ack_loop, h1, h2]
  · intro c r rs h1 h2 h3
    have h4 : ¬ 0 < r.n := by omega
    have h5 : ¬ r.n = 0 := by omega
    simp [server_ack_loop, h1, h3, h4, h5]
  · intro c r rs h1 h2
    simp [server_ack_loop, h1, h2]
  · intro c rs h
    cases rs <;> simp [server_ack_loop, h]
  · intro rs
    simpa using server_ack_loop_count d fd count rs 0
  · intro rs h
    exact server_ack_loop_le d fd count rs 0 h
  · intro rs h
    have h1 : ¬ (0 : Int) < count := by omega
    cases rs <;> simp [server_ack_loop, h1]
  · intro pre r0 rest hpre hc h0
    simpa using server_ack_loop_until_closed d fd count pre r0 rest 0 hpre (by simpa using hc) h0
  · intro rs h
    exact server_ack_loop_closed d fd count rs 0 h
  · intro cfg env l hd hl he
    obtain ⟨h1, hi, hh, hs, _, h2, h3⟩ := run_server_entered d cfg env l hl
    have h4 : l = server_ack_loop d (server_socket cfg env).conn_sock cfg.count 0
        env.ack_reads := by
      rw [h1]; cases d <;> simp [server_loop] at hd ⊢
    simp only [he, reduceCtorEq, if_false] at h2 h3
    have h5 := server_ack_loop_closed d (server_socket cfg env).conn_sock cfg.count
      env.ack_reads 0 (by rw [← h4]; exact he)
    rw [← h4] at h5
    exact ⟨h3, h5.1, h5.2, h4, by rw [h2]; simp only [List.append_assoc],
      server_cleanup_full d cfg env hi hh hs⟩

/-- C14. `wait_event` returns failure exactly when `rdma_get_cm_event` fails or
the retrieved event's kind differs from the expected one.  When it returns 0
the event handed to the caller is the retrieved one, it has the expected kind,
and the only call made was its retrieval: it has not been acknowledged.  On a
mismatch the event is acknowledged by `wait_event` itself, after the
diagnostic. -/
theorem wait_event_rules (conn : rdma_connection) (expect : rdma_cm_event_type)
    (res : Option rdma_cm_event) :
    ((wait_event conn expect res).ret ≠ 0 ↔
      (res = none ∨ ∃ ev, res = some ev ∧ ev.event ≠ expect)) ∧
    ((wait_event conn expect res).ret = 0 ∨ (wait_event conn expect res).ret = -1) ∧
    (∀ ev, (wait_event conn expect res).evt = some ev →
      (wait_event conn expect res).ret = 0 ∧ res = some ev ∧ ev.event = expect ∧
      (wait_event conn expect res).trace = [Call.rdma_get_cm_event conn.ec (some ev)] ∧
      ∀ e, Call.rdma_ack_cm_event e ∉ (wait_event conn expect res).trace) ∧
    ((wait_event conn expect res).ret = 0 → ∃ ev, (wait_event conn expect res).evt = some ev) ∧
    (res = none →
      (wait_event conn expect res).trace =
        [Call.rdma_get_cm_event conn.ec none, Call.stderr "rdma_get_cm_event 失败 %d"]) ∧
    (∀ ev, res = some ev → ev.event ≠ expect →
      (wait_event conn expect res).trace =
        [Call.rdma_get_cm_event conn.ec (some ev), Call.stderr "期望事件 %d, 实际事件 %d",
          Call.rdma_ack_cm_event ev]) := by
  cases res with
  | none => simp [wait_event, EventResult.ret]
  | some ev =>
    by_cases h : ev.event = expect
    · simp [wait_event, EventResult.ret, h]
    · simp [wait_event, EventResult.ret, h]

/-- C16. `reg_mem` asks `posix_memalign` for a 4096-byte-aligned buffer of 8
bytes (atomic demo) or 64 bytes (read and write demo); when that succeeds the
buffer is zero-filled and is registered, with exactly that address and length,
against the session's protection domain with the rights local-write +
remote-atomic (atomic demo) or local-write + remote-read + remote-write (read
and write demo) and no other bit.  It returns failure exactly when the
allocation or the registration fails, and registers nothing when the
allocation failed. -/
theorem reg_mem_rules (d : Demo) (conn : rdma_connection) (env : Env) :
    buf_size Demo.atomic = 8 ∧ buf_size Demo.read = 64 ∧ buf_size Demo.write = 64 ∧
    mr_access Demo.atomic = IBV_ACCESS_LOCAL_WRITE + IBV_ACCESS_REMOTE_ATOMIC ∧
    mr_access Demo.read =
      IBV_ACCESS_LOCAL_WRITE + IBV_ACCESS_REMOTE_READ + IBV_ACCESS_REMOTE_WRITE ∧
    mr_access Demo.write =
      IBV_ACCESS_LOCAL_WRITE + IBV_ACCESS_REMOTE_READ + IBV_ACCESS_REMOTE_WRITE ∧
    (∀ i, (mr_access Demo.atomic).testBit i = true ↔ (i = 0 ∨ i = 3)) ∧
    (∀ i, (mr_access Demo.read).testBit i = true ↔ (i = 0 ∨ i = 1 ∨ i = 2)) ∧
    (∀ i, (mr_access Demo.write).testBit i = true ↔ (i = 0 ∨ i = 1 ∨ i = 2)) ∧
    ((reg_mem d conn env).ret ≠ 0 ↔ (env.memalign = none ∨ env.reg_mr = none)) ∧
    ((reg_mem d conn env).ret = 0 ∨ (reg_mem d conn env).ret = -1) ∧
    (env.memalign = none →
      (reg_mem d conn env).trace =
        [Call.posix_memalign 4096 (buf_size d) none, Call.stderr "posix_memalign 失败"] ∧
      (reg_mem d conn env).conn = conn) ∧
    (∀ a, env.memalign = some a → env.reg_mr = none →
      (reg_mem d conn env).trace =
        [Call.posix_memalign 4096 (buf_size d) (some a),
         Call.ibv_reg_mr conn.pd (some a) (buf_size d) (mr_access d) none,
         Call.stderr "ibv_reg_mr 失败"] ∧
      (reg_mem d conn env).data = List.replicate (buf_size d) 0 ∧
      (reg_mem d conn env).conn = { conn with buf := some a }) ∧
    (∀ a m, env.memalign = some a → env.reg_mr = some m →
      (reg_mem d conn env).trace =
        [Call.posix_memalign 4096 (buf_size d) (some a),
         Call.ibv_reg_mr conn.pd (some a) (buf_size d) (mr_access d) (some m)] ∧
      (reg_mem d conn env).data = List.replicate (buf_size d) 0 ∧
      (reg_mem d conn env).conn = { conn with buf := some a, mr := some m }) := by
  have hbit : ∀ (n : Nat) (s : List Nat), n < 16 → (∀ i, i < 4 → (n.testBit i = true ↔ i ∈ s)) →
      (∀ i ∈ s, i < 4) → ∀ i, n.testBit i = true ↔ i ∈ s := by
    intro n s hn h hs i
    by_cases hi : i < 4
    · exact h i hi
    · constructor
      · intro ht
        have : n < 2 ^ i := lt_of_lt_of_le hn
          (by
            have : 2 ^ 4 ≤ 2 ^ i := Nat.pow_le_pow_right (by norm_num) (by omega)
            simpa using this)
        rw [Nat.testBit_eq_false_of_lt this] at ht
        exact absurd ht (by simp)
      · intro hm
        exact absurd (hs i hm) hi
  refine ⟨rfl, rfl, rfl, by decide, by decide, by decide, ?_, ?_, ?_, ?_, ?_, ?_, ?_, ?_⟩
  · intro i
    have := hbit (mr_access Demo.atomic) [0, 3] (by decide) (by decide) (by decide) i
    simpa using this
  · intro i
    have := hbit (mr_access Demo.read) [0, 1, 2] (by decide) (by decide) (by decide) i
    simpa using this
  · intro i
    have := hbit (mr_access Demo.write) [0, 1, 2] (by decide) (by decide) (by decide) i
    simpa using this
  · unfold reg_mem
    cases env.memalign <;> cases env.reg_mr <;> simp
  · unfold reg_mem
    cases env.memalign <;> cases env.reg_mr <;> simp
  · intro h
    simp [reg_mem, h]
  · intro a h1 h2
    simp [reg_mem, h1, h2]
  · intro a m h1 h2
    simp [reg_mem, h1, h2]

/-- C17. `build_qp` succeeds exactly when its four steps succeed; it then has
made, in this order, `ibv_alloc_pd`, `ibv_create_comp_channel`, `ibv_create_cq`
with depth 10 on that channel, and `rdma_create_qp` on the session's
identifier and that protection domain with a reliable-connected queue pair
whose send and receive completion queues are that completion queue,
`max_send_wr = max_recv_wr = 10` and `max_send_sge = max_recv_sge = 1`; the
session's `pd`, `comp_ch`, `cq` and `qp` are set to the four results.  When a
step fails `build_qp` returns -1 after that step's diagnostic and makes none
of the later calls. -/
theorem build_qp_rules (conn : rdma_connection) (env : Env) :
    ((build_qp conn env).ret = 0 ↔
      (∃ pd ch cq qp, env.alloc_pd = some pd ∧ env.create_comp_channel = some ch ∧
        env.create_cq = some cq ∧ env.create_qp = some qp)) ∧
    ((build_qp conn env).ret = 0 ∨ (build_qp conn env).ret = -1) ∧
    (∀ pd ch cq qp, env.alloc_pd = some pd → env.create_comp_channel = some ch →
      env.create_cq = some cq → env.create_qp = some qp →
      (build_qp conn env).trace =
        [Call.ibv_alloc_pd (some pd), Call.ibv_create_comp_channel (some ch),
         Call.ibv_create_cq 10 (some ch) (some cq),
         Call.rdma_create_qp conn.cm_id (some pd)
           ⟨some cq, some cq, ibv_qp_type.IBV_QPT_RC, 10, 10, 1, 1⟩ (some qp)] ∧
      (build_qp conn env).conn =
        { conn with pd := some pd, comp_ch := some ch, cq := some cq, qp := some qp }) ∧
    (env.alloc_pd = none →
      (build_qp conn env).trace = [Call.ibv_alloc_pd none, Call.stderr "ibv_alloc_pd 失败"]) ∧
    (∀ pd, env.alloc_pd = some pd → env.create_comp_channel = none →
      (build_qp conn env).trace =
        [Call.ibv_alloc_pd (some pd), Call.ibv_create_comp_channel none,
         Call.stderr "ibv_create_comp_channel 失败"]) ∧
    (∀ pd ch, env.alloc_pd = some pd → env.create_comp_channel = some ch →
      env.create_cq = none →
      (build_qp conn env).trace =
        [Call.ibv_alloc_pd (some pd), Call.ibv_create_comp_channel (some ch),
         Call.ibv_create_cq 10 (some ch) none, Call.stderr "ibv_create_cq 失败"]) ∧
    (∀ pd ch cq, env.alloc_pd = some pd → env.create_comp_channel = some ch →
      env.create_cq = some cq → env.create_qp = none →
      (build_qp conn env).trace =
        [Call.ibv_alloc_pd (some pd), Call.ibv_create_comp_channel (some ch),
         Call.ibv_create_cq 10 (some ch) (some cq),
         Call.rdma_create_qp conn.cm_id (some pd)
           ⟨some cq, some cq, ibv_qp_type.IBV_QPT_RC, 10, 10, 1, 1⟩ none,
         Call.stderr "rdma_create_qp 失败"] ∧
      (build_qp conn env).conn.qp = conn.qp) := by
  refine ⟨?_, ?_, ?_, ?_, ?_, ?_, ?_⟩
  · unfold build_qp
    cases env.alloc_pd <;> cases env.create_comp_channel <;> cases env.create_cq <;>
      cases env.create_qp <;> simp
  · unfold build_qp
    cases env.alloc_pd <;> cases env.create_comp_channel <;> cases env.create_cq <;>
      cases env.create_qp <;> simp
  · intro pd ch cq qp h1 h2 h3 h4
    simp [build_qp, h1, h2, h3, h4, qp_init_attr]
  · intro h1
    simp [build_qp, h1]
  · intro pd h1 h2
    simp [build_qp, h1, h2]
  · intro pd ch h1 h2 h3
    simp [build_qp, h1, h2, h3]
  · intro pd ch cq h1 h2 h3 h4
    simp [build_qp, h1, h2, h3, h4, qp_init_attr]

/-- A property of calls that holds on the initialisation, on the handshake and
on every call of the later classes holds on the whole server run. -/
theorem all_run_server (p : Call → Bool) (d : Demo) (cfg : Config) (env : Env)
    (h0 : p (Call.stderr "初始化会话资源失败") = true)
    (h1 : (rdma_connection_init cfg env).trace.all p = true)
    (h2 : (server_run_handshake d cfg env).trace.all p = true)
    (h3 : ∀ c, c.kind ∈ [Kind.sock, Kind.rd, Kind.wr, Kind.close, Kind.load, Kind.store,
      Kind.diag, Kind.release] → p c = true) :
    (run_server d cfg env).trace.all p = true := by
  have k3 := all_of_kinds_in _ p _
    (kinds_in_mono _ _ _ (by decide) (kinds_server_socket cfg env)) h3
  have k4 := all_of_kinds_in _ p _
    (kinds_in_mono _ _ _ (by decide) (kinds_server_exchange d env
      (server_run_handshake d cfg env).conn (server_socket cfg env).listen_sock
      (server_socket cfg env).conn_sock)) h3
  have k5 := all_of_kinds_in _ p _
    (kinds_in_mono _ _ _ (by decide) (kinds_server_loop d cfg env
      (server_socket cfg env).conn_sock)) h3
  have k6 : ∀ conn s1 s2, (server_cleanup conn s1 s2).all p = true := fun conn s1 s2 =>
    all_of_kinds_in _ p _ (kinds_in_mono _ _ _ (by decide) (kinds_server_cleanup conn s1 s2)) h3
  have k4' : (server_run_exchange d cfg env).2.all p = true := k4
  have k7 := all_of_kinds_in _ p _
    (kinds_in_mono _ _ _ (by decide) (kinds_server_finish d env)) h3
  rw [run_server_trace]
  simp only [List.all_append, h1, Bool.true_and]
  repeat' split
  all_goals simp only [List.all_append, List.all_cons, List.all_nil, h0, h2, k3, k4', k5, k6,
    k7, Bool.and_self]

/-- A property of calls that holds on the initialisation, on the handshake and
on every call of the later classes holds on the whole client run. -/
theorem all_run_client (p : Call → Bool) (d : Demo) (cfg : Config) (env : Env)
    (h0 : p (Call.stderr "初始化会话资源失败") = true)
    (h1 : (rdma_connection_init cfg env).trace.all p = true)
    (h2 : (client_run_handshake d cfg env).trace.all p = true)
    (h3 : ∀ c, c.kind ∈ [Kind.sock, Kind.rd, Kind.wr, Kind.close, Kind.load, Kind.store,
      Kind.diag, Kind.release, Kind.post, Kind.poll] → p c = true) :
    (run_client d cfg env).trace.all p = true := by
  have k3 := all_of_kinds_in _ p _
    (kinds_in_mono _ _ _ (by decide) (kinds_client_socket cfg env)) h3
  have k4 := all_of_kinds_in _ p _
    (kinds_in_mono _ _ _ (by decide) (kinds_client_exchange d env
      (client_run_handshake d cfg env).conn (client_socket cfg env).sockfd)) h3
  have k4' : (client_run_exchange d cfg env).trace.all p = true := k4
  have k5 : (client_run_loop d cfg env).trace.all p = true :=
    all_of_kinds_in _ p _ (kinds_in_mono _ _ _ (by decide) (kinds_client_loop _ _ _ _ _ _ _ _ _)) h3
  have k6 : ∀ conn fd, (client_cleanup conn fd).all p = true := fun conn fd =>
    all_of_kinds_in _ p _ (kinds_in_mono _ _ _ (by decide) (kinds_client_cleanup conn fd)) h3
  rw [run_client_trace]
  simp only [List.all_append, h1, Bool.true_and]
  repeat' split
  all_goals simp only [List.all_append, List.all_cons, List.all_nil, h0, h2, k3, k4', k5, k6,
    Bool.and_self]

/-- `rdma_connection_init` makes no `rdma_accept` / `rdma_connect`. -/
theorem param_init (p : rdma_conn_param) (cfg : Config) (env : Env) :
    (rdma_connection_init cfg env).trace.all (param_is p) = true := by
  unfold rdma_connection_init
  repeat' split
  all_goals rfl

/-- `wait_event` makes no `rdma_accept` / `rdma_connect`. -/
theorem param_wait_event (p : rdma_conn_param) (conn : rdma_connection)
    (e : rdma_cm_event_type) (r : Option rdma_cm_event) :
    (wait_event conn e r).trace.all (param_is p) = true := by
  unfold wait_event
  repeat' split
  all_goals rfl

/-- A trace of verbs calls and diagnostics makes no `rdma_accept` / `rdma_connect`. -/
theorem param_of_no_cm (p : rdma_conn_param) (ks : List Kind) (t : List Call)
    (ht : kinds_in ks t = true) (hk : Kind.cm ∉ ks) : t.all (param_is p) = true :=
  all_of_kinds_in ks _ t ht (fun c hc => by cases c <;> first | rfl | exact absurd hc hk)

/-- Calls of `build_qp`, without the connection manager's. -/
theorem kinds_build_qp_verbs (conn : rdma_connection) (env : Env) :
    kinds_in [Kind.verbs, Kind.diag] (build_qp conn env).trace = true := by
  unfold build_qp
  repeat' split
  all_goals rfl

/-- Calls of `reg_mem`, without the connection manager's. -/
theorem kinds_reg_mem_verbs (d : Demo) (conn : rdma_connection) (env : Env) :
    kinds_in [Kind.verbs, Kind.diag] (reg_mem d conn env).trace = true := by
  unfold reg_mem
  repeat' split
  all_goals rfl

/-- Calls of `modify_qp_timeout`, without the connection manager's. -/
theorem kinds_modify_qp_timeout_verbs (conn : rdma_connection) (time : Int) (env : Env) :
    kinds_in [Kind.verbs, Kind.diag] (modify_qp_timeout conn time env).2 = true := by
  unfold modify_qp_timeout modify_qp_timeout_rts
  repeat' split
  all_goals rfl

/-- Every `rdma_accept` of the server's handshake passes `conn_param d`. -/
theorem param_server_handshake (d : Demo) (env : Env) (conn0 : rdma_connection) :
    (server_handshake d env conn0).trace.all (param_is (conn_param d)) = true := by
  have hb := fun c => param_of_no_cm (conn_param d) _ _ (kinds_build_qp_verbs c env) (by decide)
  have hr := fun c => param_of_no_cm (conn_param d) _ _ (kinds_reg_mem_verbs d c env) (by decide)
  have hm := fun c => param_of_no_cm (conn_param d) _ _
    (kinds_modify_qp_timeout_verbs c 12 env) (by decide)
  unfold server_handshake
  simp only
  repeat' split
  all_goals simp [List.all_append, param_wait_event, hb, hr, hm, param_is]

/-- Every `rdma_connect` of the client's handshake passes `conn_param d`. -/
theorem param_client_handshake (d : Demo) (env : Env) (conn0 : rdma_connection) :
    (client_handshake d env conn0).trace.all (param_is (conn_param d)) = true := by
  have hb := fun c => param_of_no_cm (conn_param d) _ _ (kinds_build_qp_verbs c env) (by decide)
  have hr := fun c => param_of_no_cm (conn_param d) _ _ (kinds_reg_mem_verbs d c env) (by decide)
  have hm := fun c => param_of_no_cm (conn_param d) _ _
    (kinds_modify_qp_timeout_verbs c 12 env) (by decide)
  unfold client_handshake
  simp only
  repeat' split
  all_goals simp [List.all_append, param_wait_event, hb, hr, hm, param_is]

/-- C13 (as stated). In the write demo the server passes `retry_count = 0` and
`rnr_retry_count = 0` to `rdma_accept`, and the client passes the same to
`rdma_connect`. -/
theorem write_demo_retry_count_zero :
    Call.rdma_accept (some 21) ⟨1, 1, 0, 0⟩ true ∈
      (run_server Demo.write cfg_server env_server).trace ∧
    Call.rdma_connect (some 20) ⟨1, 1, 0, 0⟩ true ∈
      (run_client Demo.write cfg_client env_client).trace ∧
    (⟨1, 1, 0, 0⟩ : rdma_conn_param) ≠ ⟨1, 1, 7, 7⟩ := by
  decide

/-- C13 (amended). In each demo every `rdma_accept` of a server run and every
`rdma_connect` of a client run passes that demo's `conn_param`: initiator
depth 1, responder resources 1 and, in the atomic and read demos, retry count
7 and RNR retry count 7; in the write demo both retry counts are 0, the value
`memset` left. -/
theorem conn_param_rules (d : Demo) (cfg : Config) (env : Env) :
    conn_param Demo.atomic = ⟨1, 1, 7, 7⟩ ∧ conn_param Demo.read = ⟨1, 1, 7, 7⟩ ∧
    conn_param Demo.write = ⟨1, 1, 0, 0⟩ ∧
    (∀ id p ok, Call.rdma_accept id p ok ∈ (run_server d cfg env).trace → p = conn_param d) ∧
    (∀ id p ok, Call.rdma_connect id p ok ∈ (run_client d cfg env).trace → p = conn_param d) ∧
    (Call.rdma_accept (some 21) (conn_param d) true ∈ (run_server d cfg_server env_server).trace ∧
      Call.rdma_connect (some 20) (conn_param d) true ∈
        (run_client d cfg_client env_client).trace) := by
  have hk : ∀ c : Call, c.kind ∈ [Kind.sock, Kind.rd, Kind.wr, Kind.close, Kind.load, Kind.store,
      Kind.diag, Kind.release, Kind.post, Kind.poll] → param_is (conn_param d) c = true := by
    intro c hc
    cases c <;> first | rfl | simp [Call.kind] at hc
  refine ⟨rfl, rfl, rfl, ?_, ?_, by cases d <;> decide⟩
  · intro id p ok h
    have ha := all_run_server (param_is (conn_param d)) d cfg env rfl (param_init _ cfg env)
      (param_server_handshake d env _) (fun c hc => hk c (by revert hc; simp; tauto))
    have := List.all_eq_true.1 ha _ h
    simpa [param_is] using this
  · intro id p ok h
    have ha := all_run_client (param_is (conn_param d)) d cfg env rfl (param_init _ cfg env)
      (param_client_handshake d env _) hk
    have := List.all_eq_true.1 ha _ h
    simpa [param_is] using this

/-- `cm_events` over a concatenation. -/
theorem cm_events_append (s t : List Call) : cm_events (s ++ t) = cm_events s ++ cm_events t := by
  simp [cm_events, List.filter_append]

/-- `cm_events` over a first call. -/
theorem cm_events_cons (c : Call) (t : List Call) :
    cm_events (c :: t) = if is_cm_event c = true then c :: cm_events t else cm_events t := by
  simp [cm_events, List.filter_cons]

/-- `retrieved` over a concatenation. -/
theorem retrieved_append (s t : List Call) : retrieved (s ++ t) = retrieved s ++ retrieved t := by
  simp [retrieved, List.filterMap_append]

/-- `acked` over a concatenation. -/
theorem acked_append (s t : List Call) : acked (s ++ t) = acked s ++ acked t := by
  simp [acked, List.filterMap_append]

/-- A trace without connection-manager calls has no event traffic. -/
theorem cm_events_of_no_cm (ks : List Kind) (t : List Call) (ht : kinds_in ks t = true)
    (hk : Kind.cm ∉ ks) : cm_events t = [] ∧ retrieved t = [] ∧ acked t = [] := by
  refine ⟨?_, ?_, ?_⟩
  · exact filter_of_kinds_in ks _ t ht
      (fun c hc => by cases c <;> first | rfl | exact absurd hc hk)
  · exact filterMap_of_kinds_in ks _ t ht
      (fun c hc => by cases c <;> first | rfl | exact absurd hc hk)
  · exact filterMap_of_kinds_in ks _ t ht
      (fun c hc => by cases c <;> first | rfl | exact absurd hc hk)

/-- `rdma_connection_init` retrieves and acknowledges no event. -/
theorem cm_events_init (cfg : Config) (env : Env) :
    cm_events (rdma_connection_init cfg env).trace = [] ∧
    retrieved (rdma_connection_init cfg env).trace = [] ∧
    acked (rdma_connection_init cfg env).trace = [] := by
  unfold rdma_connection_init
  repeat' split
  all_goals exact ⟨rfl, rfl, rfl⟩

/-- The empty trace has no event traffic. -/
theorem cm_events_nil : cm_events [] = [] := rfl

/-- The empty trace retrieved nothing. -/
theorem retrieved_nil : retrieved [] = [] := rfl

/-- The empty trace acknowledged nothing. -/
theorem acked_nil : acked [] = [] := rfl

/-- `retrieved` over a first call. -/
theorem retrieved_cons (c : Call) (t : List Call) :
    retrieved (c :: t) =
      match retrieved_by c with
      | some e => e :: retrieved t
      | none => retrieved t := by
  simp only [retrieved, List.filterMap_cons]
  split <;> simp_all

/-- `acked` over a first call. -/
theorem acked_cons (c : Call) (t : List Call) :
    acked (c :: t) =
      match acked_by c with
      | some e => e :: acked t
      | none => acked t := by
  simp only [acked, List.filterMap_cons]
  split <;> simp_all

/-- The event traffic of the server's handshake. -/
theorem cm_events_server_handshake (d : Demo) (env : Env) (conn0 : rdma_connection) :
    acked_once (cm_events (server_handshake d env conn0).trace) = true ∧
    acked (server_handshake d env conn0).trace = retrieved (server_handshake d env conn0).trace := by
  have hb1 := fun c => (cm_events_of_no_cm _ _ (kinds_build_qp_verbs c env) (by decide)).1
  have hb2 := fun c => (cm_events_of_no_cm _ _ (kinds_build_qp_verbs c env) (by decide)).2.1
  have hb3 := fun c => (cm_events_of_no_cm _ _ (kinds_build_qp_verbs c env) (by decide)).2.2
  have hr1 := fun c => (cm_events_of_no_cm _ _ (kinds_reg_mem_verbs d c env) (by decide)).1
  have hr2 := fun c => (cm_events_of_no_cm _ _ (kinds_reg_mem_verbs d c env) (by decide)).2.1
  have hr3 := fun c => (cm_events_of_no_cm _ _ (kinds_reg_mem_verbs d c env) (by decide)).2.2
  have hm1 := fun c =>
    (cm_events_of_no_cm _ _ (kinds_modify_qp_timeout_verbs c 12 env) (by decide)).1
  have hm2 := fun c =>
    (cm_events_of_no_cm _ _ (kinds_modify_qp_timeout_verbs c 12 env) (by decide)).2.1
  have hm3 := fun c =>
    (cm_events_of_no_cm _ _ (kinds_modify_qp_timeout_verbs c 12 env) (by decide)).2.2
  cases h0 : env.cm_event 0 with
  | none =>
    simp [server_handshake, wait_event, h0, cm_events_cons, is_cm_event, acked_once, acked_cons,
      retrieved_cons, acked_by, retrieved_by, acked, retrieved]
  | some e0 =>
    by_cases k0 : e0.event = rdma_cm_event_type.CONNECT_REQUEST
    · cases h1 : env.cm_event 1 with
      | none =>
        unfold server_handshake
        simp only [wait_event, h0, h1, k0, ne_eq, not_true_eq_false, not_false_eq_true, if_true,
          if_false]
        repeat' split
        all_goals
          simp only [cm_events_append, cm_events_cons, is_cm_event, acked_append,
            retrieved_append, acked_cons, retrieved_cons, acked_by, retrieved_by, hb1, hb2, hb3,
            hr1, hr2, hr3, hm1, hm2, hm3, cm_events_nil, retrieved_nil, acked_nil]
          simp [acked_once]
      | some e1 =>
        by_cases k1 : e1.event = rdma_cm_event_type.ESTABLISHED
        · unfold server_handshake
          simp only [wait_event, h0, h1, k0, k1, ne_eq, not_true_eq_false, not_false_eq_true,
            if_true, if_false]
          repeat' split
          all_goals
          simp only [cm_events_append, cm_events_cons, is_cm_event, acked_append,
            retrieved_append, acked_cons, retrieved_cons, acked_by, retrieved_by, hb1, hb2, hb3,
            hr1, hr2, hr3, hm1, hm2, hm3, cm_events_nil, retrieved_nil, acked_nil]
          simp [acked_once]
        · unfold server_handshake
          simp only [wait_event, h0, h1, k0, k1, ne_eq, not_true_eq_false, not_false_eq_true,
            if_true, if_false]
          repeat' split
          all_goals
          simp only [cm_events_append, cm_events_cons, is_cm_event, acked_append,
            retrieved_append, acked_cons, retrieved_cons, acked_by, retrieved_by, hb1, hb2, hb3,
            hr1, hr2, hr3, hm1, hm2, hm3, cm_events_nil, retrieved_nil, acked_nil]
          simp [acked_once]
    · simp [server_handshake, wait_event, h0, k0, cm_events_cons, is_cm_event, acked_once,
        acked_cons, retrieved_cons, acked_by, retrieved_by, acked, retrieved]

/-- The event traffic of the client's handshake. -/
theorem cm_events_client_handshake (d : Demo) (env : Env) (conn0 : rdma_connection) :
    acked_once (cm_events (client_handshake d env conn0).trace) = true ∧
    acked (client_handshake d env conn0).trace = retrieved (client_handshake d env conn0).trace := by
  have hb1 := fun c => (cm_events_of_no_cm _ _ (kinds_build_qp_verbs c env) (by decide)).1
  have hb2 := fun c => (cm_events_of_no_cm _ _ (kinds_build_qp_verbs c env) (by decide)).2.1
  have hb3 := fun c => (cm_events_of_no_cm _ _ (kinds_build_qp_verbs c env) (by decide)).2.2
  have hr1 := fun c => (cm_events_of_no_cm _ _ (kinds_reg_mem_verbs d c env) (by decide)).1
  have hr2 := fun c => (cm_events_of_no_cm _ _ (kinds_reg_mem_verbs d c env) (by decide)).2.1
  have hr3 := fun c => (cm_events_of_no_cm _ _ (kinds_reg_mem_verbs d c env) (by decide)).2.2
  have hm1 := fun c =>
    (cm_events_of_no_cm _ _ (kinds_modify_qp_timeout_verbs c 12 env) (by decide)).1
  have hm2 := fun c =>
    (cm_events_of_no_cm _ _ (kinds_modify_qp_timeout_verbs c 12 env) (by decide)).2.1
  have hm3 := fun c =>
    (cm_events_of_no_cm _ _ (kinds_modify_qp_timeout_verbs c 12 env) (by decide)).2.2
  cases h0 : env.cm_event 0 with
  | none =>
    unfold client_handshake
    simp only [wait_event, h0, ne_eq, not_true_eq_false, not_false_eq_true, if_true,
      if_false]
    all_goals
      simp only [cm_events_append, cm_events_cons, is_cm_event, acked_append,
        retrieved_append, acked_cons, retrieved_cons, acked_by, retrieved_by, hb1, hb2, hb3,
        hr1, hr2, hr3, hm1, hm2, hm3, cm_events_nil, retrieved_nil, acked_nil]
      simp [acked_once]
  | some e0 =>
    by_cases k0 : e0.event = rdma_cm_event_type.ADDR_RESOLVED
    · cases h1 : env.cm_event 1 with
      | none =>
        unfold client_handshake
        simp only [wait_event, h0, k0, h1, ne_eq, not_true_eq_false, not_false_eq_true, if_true,
          if_false]
        repeat' split
        all_goals
          simp only [cm_events_append, cm_events_cons, is_cm_event, acked_append,
            retrieved_append, acked_cons, retrieved_cons, acked_by, retrieved_by, hb1, hb2, hb3,
            hr1, hr2, hr3, hm1, hm2, hm3, cm_events_nil, retrieved_nil, acked_nil]
          simp [acked_once]
      | some e1 =>
        by_cases k1 : e1.event = rdma_cm_event_type.ROUTE_RESOLVED
        · cases h2 : env.cm_event 2 with
          | none =>
            unfold client_handshake
            simp only [wait_event, h0, k0, h1, k1, h2, ne_eq, not_true_eq_false, not_false_eq_true, if_true,
              if_false]
            repeat' split
            all_goals
              simp only [cm_events_append, cm_events_cons, is_cm_event, acked_append,
                retrieved_append, acked_cons, retrieved_cons, acked_by, retrieved_by, hb1, hb2, hb3,
                hr1, hr2, hr3, hm1, hm2, hm3, cm_events_nil, retrieved_nil, acked_nil]
              simp [acked_once]
          | some e2 =>
            by_cases k2 : e2.event = rdma_cm_event_type.ESTABLISHED
            · unfold client_handshake
              simp only [wait_event, h0, k0, h1, k1, h2, k2, ne_eq, not_true_eq_false, not_false_eq_true, if_true,
                if_false]
              repeat' split
              all_goals
                simp only [cm_events_append, cm_events_cons, is_cm_event, acked_append,
                  retrieved_append, acked_cons, retrieved_cons, acked_by, retrieved_by, hb1, hb2, hb3,
                  hr1, hr2, hr3, hm1, hm2, hm3, cm_events_nil, retrieved_nil, acked_nil]
                simp [acked_once]
            · unfold client_handshake
              simp only [wait_event, h0, k0, h1, k1, h2, k2, ne_eq, not_true_eq_false, not_false_eq_true, if_true,
                if_false]
              repeat' split
              all_goals
                simp only [cm_events_append, cm_events_cons, is_cm_event, acked_append,
                  retrieved_append, acked_cons, retrieved_cons, acked_by, retrieved_by, hb1, hb2, hb3,
                  hr1, hr2, hr3, hm1, hm2, hm3, cm_events_nil, retrieved_nil, acked_nil]
                simp [acked_once]
        · unfold client_handshake
          simp only [wait_event, h0, k0, h1, k1, ne_eq, not_true_eq_false, not_false_eq_true, if_true,
            if_false]
          repeat' split
          all_goals
            simp only [cm_events_append, cm_events_cons, is_cm_event, acked_append,
              retrieved_append, acked_cons, retrieved_cons, acked_by, retrieved_by, hb1, hb2, hb3,
              hr1, hr2, hr3, hm1, hm2, hm3, cm_events_nil, retrieved_nil, acked_nil]
            simp [acked_once]
    · unfold client_handshake
      simp only [wait_event, h0, k0, ne_eq, not_true_eq_false, not_false_eq_true, if_true,
        if_false]
      all_goals
        simp only [cm_events_append, cm_events_cons, is_cm_event, acked_append,
          retrieved_append, acked_cons, retrieved_cons, acked_by, retrieved_by, hb1, hb2, hb3,
          hr1, hr2, hr3, hm1, hm2, hm3, cm_events_nil, retrieved_nil, acked_nil]
        simp [acked_once]

/-- The event traffic of a server run is that of its handshake. -/
theorem cm_events_run_server (d : Demo) (cfg : Config) (env : Env) :
    acked_once (cm_events (run_server d cfg env).trace) = true ∧
    acked (run_server d cfg env).trace = retrieved (run_server d cfg env).trace := by
  have hi := cm_events_init cfg env
  have hs : acked_once (cm_events (server_run_handshake d cfg env).trace) = true ∧
      acked (server_run_handshake d cfg env).trace =
        retrieved (server_run_handshake d cfg env).trace :=
    cm_events_server_handshake d env _
  have k3 := cm_events_of_no_cm _ _ (kinds_server_socket cfg env) (by decide)
  have k4 : cm_events (server_run_exchange d cfg env).2 = [] ∧
      retrieved (server_run_exchange d cfg env).2 = [] ∧
      acked (server_run_exchange d cfg env).2 = [] :=
    cm_events_of_no_cm _ _ (kinds_server_exchange d env
      (server_run_handshake d cfg env).conn (server_socket cfg env).listen_sock
      (server_socket cfg env).conn_sock) (by decide)
  have k5 := cm_events_of_no_cm _ _ (kinds_server_loop d cfg env
      (server_socket cfg env).conn_sock) (by decide)
  have k6 := fun conn s1 s2 =>
    cm_events_of_no_cm _ _ (kinds_server_cleanup conn s1 s2) (by decide)
  have k7 := cm_events_of_no_cm _ _ (kinds_server_finish d env) (by decide)
  have k61 := fun conn s1 s2 => (k6 conn s1 s2).1
  have k62 := fun conn s1 s2 => (k6 conn s1 s2).2.1
  have k63 := fun conn s1 s2 => (k6 conn s1 s2).2.2
  rw [run_server_trace]
  simp only [cm_events_append, acked_append, retrieved_append, hi.1, hi.2.1, hi.2.2,
    List.nil_append]
  repeat' split
  all_goals
    first
    | exact ⟨rfl, rfl⟩
    | (simp only [cm_events_append, acked_append, retrieved_append, k3.1, k3.2.1, k3.2.2, k4.1,
        k4.2.1, k4.2.2, k5.1, k5.2.1, k5.2.2, k61, k62, k63, k7.1, k7.2.1, k7.2.2,
        List.append_nil, cm_events_nil, retrieved_nil, acked_nil]
       exact hs)

/-- The event traffic of a client run is that of its handshake. -/
theorem cm_events_run_client (d : Demo) (cfg : Config) (env : Env) :
    acked_once (cm_events (run_client d cfg env).trace) = true ∧
    acked (run_client d cfg env).trace = retrieved (run_client d cfg env).trace := by
  have hi := cm_events_init cfg env
  have hs : acked_once (cm_events (client_run_handshake d cfg env).trace) = true ∧
      acked (client_run_handshake d cfg env).trace =
        retrieved (client_run_handshake d cfg env).trace :=
    cm_events_client_handshake d env _
  have k3 := cm_events_of_no_cm _ _ (kinds_client_socket cfg env) (by decide)
  have k4 : cm_events (client_run_exchange d cfg env).trace = [] ∧
      retrieved (client_run_exchange d cfg env).trace = [] ∧
      acked (client_run_exchange d cfg env).trace = [] :=
    cm_events_of_no_cm _ _ (kinds_client_exchange d env
      (client_run_handshake d cfg env).conn (client_socket cfg env).sockfd) (by decide)
  have k5 : cm_events (client_run_loop d cfg env).trace = [] ∧
      retrieved (client_run_loop d cfg env).trace = [] ∧
      acked (client_run_loop d cfg env).trace = [] :=
    cm_events_of_no_cm _ _ (kinds_client_loop _ _ _ _ _ _ _ _ _) (by decide)
  have k6 := fun conn fd =>
    cm_events_of_no_cm _ _ (kinds_client_cleanup conn fd) (by decide)
  have k61 := fun conn fd => (k6 conn fd).1
  have k62 := fun conn fd => (k6 conn fd).2.1
  have k63 := fun conn fd => (k6 conn fd).2.2
  rw [run_client_trace]
  simp only [cm_events_append, acked_append, retrieved_append, hi.1, hi.2.1, hi.2.2,
    List.nil_append]
  repeat' split
  all_goals
    first
    | exact ⟨rfl, rfl⟩
    | (simp only [cm_events_append, acked_append, retrieved_append, k3.1, k3.2.1, k3.2.2, k4.1,
        k4.2.1, k4.2.2, k5.1, k5.2.1, k5.2.2, k61, k62, k63, List.append_nil, cm_events_nil,
        retrieved_nil, acked_nil]
       exact hs)

/-- The server's event traffic opens with the connect request, the load of its
identifier and its acknowledgement, in this order. -/
theorem server_handshake_loads_id (d : Demo) (env : Env) (conn0 : rdma_connection)
    (e : rdma_cm_event) (h0 : env.cm_event 0 = some e)
    (k0 : e.event = rdma_cm_event_type.CONNECT_REQUEST) :
    (cm_events (server_handshake d env conn0).trace).take 3 =
      [Call.rdma_get_cm_event conn0.ec (some e), Call.load_event_id e,
        Call.rdma_ack_cm_event e] := by
  unfold server_handshake
  simp only [wait_event, h0, k0, ne_eq, not_true_eq_false, not_false_eq_true, if_true, if_false,
    List.append_assoc]
  repeat' split
  all_goals
    simp only [cm_events_append, cm_events_cons, is_cm_event, cm_events_nil, if_true]
    rfl

/-- C15. Along every run of `run_server` and of `run_client`, in all three
demos and for every scripted environment, each event that `rdma_get_cm_event`
retrieved is acknowledged by `rdma_ack_cm_event` exactly once, before any
further event is retrieved: the events acknowledged are, in order, the events
retrieved. `wait_event` itself acknowledges an event of the wrong kind and
leaves one of the right kind to its caller. On the server the identifier of
the connect-request event is loaded between retrieving that event and
acknowledging it. -/
theorem cm_event_acked_once (d : Demo) (cfg : Config) (env : Env) :
    (acked_once (cm_events (run_server d cfg env).trace) = true ∧
      acked (run_server d cfg env).trace = retrieved (run_server d cfg env).trace) ∧
    (acked_once (cm_events (run_client d cfg env).trace) = true ∧
      acked (run_client d cfg env).trace = retrieved (run_client d cfg env).trace) ∧
    (∀ conn expect e, e.event ≠ expect →
      retrieved (wait_event conn expect (some e)).trace = [e] ∧
      acked (wait_event conn expect (some e)).trace = [e] ∧
      (wait_event conn expect (some e)).evt = none) ∧
    (∀ conn e,
      retrieved (wait_event conn e.event (some e)).trace = [e] ∧
      acked (wait_event conn e.event (some e)).trace = [] ∧
      (wait_event conn e.event (some e)).evt = some e) ∧
    (∀ conn expect,
      retrieved (wait_event conn expect none).trace = [] ∧
      acked (wait_event conn expect none).trace = []) ∧
    (∀ conn0 e, env.cm_event 0 = some e → e.event = rdma_cm_event_type.CONNECT_REQUEST →
      (cm_events (server_handshake d env conn0).trace).take 3 =
        [Call.rdma_get_cm_event conn0.ec (some e), Call.load_event_id e,
          Call.rdma_ack_cm_event e]) ∧
    (retrieved (run_server d cfg_server env_server).trace).length = 2 ∧
    (retrieved (run_client d cfg_client env_client).trace).length = 3 := by
  refine ⟨cm_events_run_server d cfg env, cm_events_run_client d cfg env, ?_, ?_, ?_,
    fun conn0 e h0 k0 => server_handshake_loads_id d env conn0 e h0 k0, ?_, ?_⟩
  · intro conn expect e h
    simp [wait_event, h, retrieved, acked, retrieved_by, acked_by]
  · intro conn e
    simp [wait_event, retrieved, acked, retrieved_by, acked_by]
  · intro conn expect
    simp [wait_event, retrieved, acked, retrieved_by, acked_by]
  · cases d <;> decide
  · cases d <;> decide

/-- The loop over a concatenation, when the first part has no unknown option. -/
theorem getopt_loop_append (cfg : Config) (pre post : List Opt) (h : Opt.unknown ∉ pre) :
    getopt_loop cfg (pre ++ post) = getopt_loop (getopt_loop cfg pre).1 post := by
  induction pre generalizing cfg with
  | nil => rfl
  | cons o pre ih =>
    have h1 : Opt.unknown ∉ pre := fun hm => h (List.mem_cons_of_mem _ hm)
    cases o with
    | unknown => exact absurd (List.mem_cons_self _ _) h
    | s => exact ih _ h1
    | c => exact ih _ h1
    | a x => exact ih _ h1
    | p x => exact ih _ h1
    | n x => exact ih _ h1

/-- Without an unknown option the loop runs to the end of the command line,
and its result is what the last option of each kind gave. -/
theorem getopt_loop_given (cfg : Config) (opts : List Opt) (h : Opt.unknown ∉ opts) :
    (getopt_loop cfg opts).2 = true ∧
    (getopt_loop cfg opts).1.role = (given_role opts).getD cfg.role ∧
    (getopt_loop cfg opts).1.ip = ((given_address opts).map (fun x => strncpy x 63)).getD cfg.ip ∧
    (getopt_loop cfg opts).1.port = ((given_port opts).map atoi).getD cfg.port ∧
    (getopt_loop cfg opts).1.count = ((given_count opts).map atoi).getD cfg.count := by
  induction opts generalizing cfg with
  | nil => exact ⟨rfl, rfl, rfl, rfl, rfl⟩
  | cons o opts ih =>
    have h1 : Opt.unknown ∉ opts := fun hm => h (List.mem_cons_of_mem _ hm)
    cases o with
    | unknown => exact absurd (List.mem_cons_self _ _) h
    | s =>
      obtain ⟨a1, a2, a3, a4, a5⟩ := ih { cfg with role := ROLE_SERVER } h1
      refine ⟨a1, ?_, a3, a4, a5⟩
      simp only [getopt_loop, given_role, a2]
      cases given_role opts <;> rfl
    | c =>
      obtain ⟨a1, a2, a3, a4, a5⟩ := ih { cfg with role := ROLE_CLIENT } h1
      refine ⟨a1, ?_, a3, a4, a5⟩
      simp only [getopt_loop, given_role, a2]
      cases given_role opts <;> rfl
    | a x =>
      obtain ⟨a1, a2, a3, a4, a5⟩ := ih { cfg with ip := strncpy x 63 } h1
      refine ⟨a1, a2, ?_, a4, a5⟩
      simp only [getopt_loop, given_address, a3]
      cases given_address opts <;> rfl
    | p x =>
      obtain ⟨a1, a2, a3, a4, a5⟩ := ih { cfg with port := atoi x } h1
      refine ⟨a1, a2, a3, ?_, a5⟩
      simp only [getopt_loop, given_port, a4]
      cases given_port opts <;> rfl
    | n x =>
      obtain ⟨a1, a2, a3, a4, a5⟩ := ih { cfg with count := atoi x } h1
      refine ⟨a1, a2, a3, a4, ?_⟩
      simp only [getopt_loop, given_count, a5]
      cases given_count opts <;> rfl

/-- A role is given exactly when `-s` or `-c` occurs. -/
theorem given_role_none (opts : List Opt) :
    given_role opts = none ↔ Opt.s ∉ opts ∧ Opt.c ∉ opts := by
  induction opts with
  | nil => simp [given_role]
  | cons o opts ih =>
    cases o <;> simp [given_role, ih]

/-- With `-s` and no `-c` the role given is the server's. -/
theorem given_role_server (opts : List Opt) (h1 : Opt.s ∈ opts) (h2 : Opt.c ∉ opts) :
    given_role opts = some ROLE_SERVER := by
  induction opts with
  | nil => simp at h1
  | cons o opts ih =>
    have h3 : Opt.c ∉ opts := fun hm => h2 (List.mem_cons_of_mem _ hm)
    cases o with
    | c => exact absurd (List.mem_cons_self _ _) h2
    | s =>
      by_cases hs : Opt.s ∈ opts
      · simp [given_role, ih hs h3]
      · have := (given_role_none opts).2 ⟨hs, h3⟩
        simp [given_role, this]
    | a x => exact ih (by simpa using h1) h3
    | p x => exact ih (by simpa using h1) h3
    | n x => exact ih (by simpa using h1) h3
    | unknown => exact ih (by simpa using h1) h3

/-- With `-c` and no `-s` the role given is the client's. -/
theorem given_role_client (opts : List Opt) (h1 : Opt.c ∈ opts) (h2 : Opt.s ∉ opts) :
    given_role opts = some ROLE_CLIENT := by
  induction opts with
  | nil => simp at h1
  | cons o opts ih =>
    have h3 : Opt.s ∉ opts := fun hm => h2 (List.mem_cons_of_mem _ hm)
    cases o with
    | s => exact absurd (List.mem_cons_self _ _) h2
    | c =>
      by_cases hs : Opt.c ∈ opts
      · simp [given_role, ih hs h3]
      · have := (given_role_none opts).2 ⟨h3, hs⟩
        simp [given_role, this]
    | a x => exact ih (by simpa using h1) h3
    | p x => exact ih (by simpa using h1) h3
    | n x => exact ih (by simpa using h1) h3
    | unknown => exact ih (by simpa using h1) h3

/-- The copy of an address is empty exactly when the address is. -/
theorem strncpy_head (x : String) : (strncpy x 63).toList.head? = none ↔ x = "" := by
  obtain ⟨l⟩ := x
  cases l with
  | nil => simp [strncpy]
  | cons ch l => simp [strncpy, String.ext_iff]

/-- The value a role option leaves is never `ROLE_UNDEF`. -/
theorem given_role_values (opts : List Opt) (r : Int) (h : given_role opts = some r) :
    r = ROLE_SERVER ∨ r = ROLE_CLIENT := by
  induction opts with
  | nil => simp [given_role] at h
  | cons o opts ih =>
    cases o with
    | s =>
      cases hg : given_role opts with
      | none => simp [given_role, hg] at h; exact Or.inl h.symm
      | some r1 => simp [given_role, hg] at h; exact ih (by rw [hg, h])
    | c =>
      cases hg : given_role opts with
      | none => simp [given_role, hg] at h; exact Or.inr h.symm
      | some r1 => simp [given_role, hg] at h; exact ih (by rw [hg, h])
    | a x => exact ih h
    | p x => exact ih h
    | n x => exact ih h
    | unknown => exact ih h

/-- What `parse_args` returns and leaves in `cfg` for a command line of
recognised options. -/
theorem parse_args_given (opts : List Opt) (h : Opt.unknown ∉ opts) :
    ((parse_args opts).ret = 0 ↔
      (Opt.s ∈ opts ∨ Opt.c ∈ opts) ∧ ∃ x, given_address opts = some x ∧ x ≠ "") ∧
    ((parse_args opts).ret = 0 ∨ (parse_args opts).ret = -1) ∧
    (parse_args opts).cfg.role = (given_role opts).getD ROLE_UNDEF ∧
    (parse_args opts).cfg.port = ((given_port opts).map atoi).getD DEFAULT_PORT ∧
    (parse_args opts).cfg.count = ((given_count opts).map atoi).getD DEFAULT_COUNT := by
  obtain ⟨a1, a2, a3, a4, a5⟩ := getopt_loop_given ⟨0, "", DEFAULT_PORT, DEFAULT_COUNT⟩ opts h
  have hcfg : (parse_args opts).cfg = (getopt_loop ⟨0, "", DEFAULT_PORT, DEFAULT_COUNT⟩ opts).1 := by
    unfold parse_args
    simp only
    repeat' split
    all_goals rfl
  have hret : (parse_args opts).ret = 0 ↔
      ¬ ((getopt_loop ⟨0, "", DEFAULT_PORT, DEFAULT_COUNT⟩ opts).1.role = ROLE_UNDEF ∨
        (getopt_loop ⟨0, "", DEFAULT_PORT, DEFAULT_COUNT⟩ opts).1.ip.toList.head? = none) := by
    unfold parse_args
    simp only [a1]
    split
    · rename_i hc; simp at hc
    · split
      · rename_i hc; exact ⟨fun h0 => absurd (show (-1 : Int) = 0 from h0) (by decide), fun h0 => absurd hc h0⟩
      · rename_i hc; exact ⟨fun _ => hc, fun _ => rfl⟩
  have hret2 : (parse_args opts).ret = 0 ∨ (parse_args opts).ret = -1 := by
    unfold parse_args
    simp only
    repeat' split
    all_goals simp
  refine ⟨?_, hret2, by rw [hcfg, a2]; rfl, by rw [hcfg, a4], by rw [hcfg, a5]⟩
  rw [hret, a2, a3]
  constructor
  · intro hn
    push_neg at hn
    obtain ⟨n1, n2⟩ := hn
    constructor
    · by_contra hc
      push_neg at hc
      rw [(given_role_none opts).2 hc] at n1
      exact n1 rfl
    · cases hg : given_address opts with
      | none => rw [hg] at n2; exact absurd rfl n2
      | some x =>
        rw [hg] at n2
        exact ⟨x, rfl, fun hx => n2 ((strncpy_head x).2 hx)⟩
  · rintro ⟨hr, x, hx, hne⟩
    rintro (n1 | n2)
    · cases hg : given_role opts with
      | none => exact absurd ((given_role_none opts).1 hg) (by tauto)
      | some r =>
        rw [hg] at n1
        rcases given_role_values opts r hg with hv | hv
        · rw [hv] at n1; exact absurd n1 (by decide)
        · rw [hv] at n1; exact absurd n1 (by decide)
    · rw [hx] at n2
      exact hne ((strncpy_head x).1 n2)

/-- A property of calls that holds on the initialisation, on the handshake, on
the socket set-up and on every call of the later classes holds on the whole
server run. -/
theorem all_run_server_parts (p : Call → Bool) (d : Demo) (cfg : Config) (env : Env)
    (h0 : p (Call.stderr "初始化会话资源失败") = true)
    (h1 : (rdma_connection_init cfg env).trace.all p = true)
    (h2 : (server_run_handshake d cfg env).trace.all p = true)
    (k3 : (server_socket cfg env).trace.all p = true)
    (h3 : ∀ c, c.kind ∈ [Kind.rd, Kind.wr, Kind.close, Kind.load, Kind.store,
      Kind.diag, Kind.release] → p c = true) :
    (run_server d cfg env).trace.all p = true := by
  have k4 := all_of_kinds_in _ p _
    (kinds_in_mono _ _ _ (by decide) (kinds_server_exchange d env
      (server_run_handshake d cfg env).conn (server_socket cfg env).listen_sock
      (server_socket cfg env).conn_sock)) h3
  have k5 := all_of_kinds_in _ p _
    (kinds_in_mono _ _ _ (by decide) (kinds_server_loop d cfg env
      (server_socket cfg env).conn_sock)) h3
  have k6 : ∀ conn s1 s2, (server_cleanup conn s1 s2).all p = true := fun conn s1 s2 =>
    all_of_kinds_in _ p _ (kinds_in_mono _ _ _ (by decide) (kinds_server_cleanup conn s1 s2)) h3
  have k4' : (server_run_exchange d cfg env).2.all p = true := k4
  have k7 := all_of_kinds_in _ p _
    (kinds_in_mono _ _ _ (by decide) (kinds_server_finish d env)) h3
  rw [run_server_trace]
  simp only [List.all_append, h1, Bool.true_and]
  repeat' split
  all_goals simp only [List.all_append, List.all_cons, List.all_nil, h0, h2, k3, k4', k5, k6,
    k7, Bool.and_self]

/-- A property of calls that holds on the initialisation, on the handshake, on
the socket set-up and on every call of the later classes holds on the whole
client run. -/
theorem all_run_client_parts (p : Call → Bool) (d : Demo) (cfg : Config) (env : Env)
    (h0 : p (Call.stderr "初始化会话资源失败") = true)
    (h1 : (rdma_connection_init cfg env).trace.all p = true)
    (h2 : (client_run_handshake d cfg env).trace.all p = true)
    (k3 : (client_socket cfg env).trace.all p = true)
    (h3 : ∀ c, c.kind ∈ [Kind.rd, Kind.wr, Kind.close, Kind.load, Kind.store,
      Kind.diag, Kind.release, Kind.post, Kind.poll] → p c = true) :
    (run_client d cfg env).trace.all p = true := by
  have k4 := all_of_kinds_in _ p _
    (kinds_in_mono _ _ _ (by decide) (kinds_client_exchange d env
      (client_run_handshake d cfg env).conn (client_socket cfg env).sockfd)) h3
  have k4' : (client_run_exchange d cfg env).trace.all p = true := k4
  have k5 : (client_run_loop d cfg env).trace.all p = true :=
    all_of_kinds_in _ p _ (kinds_in_mono _ _ _ (by decide) (kinds_client_loop _ _ _ _ _ _ _ _ _)) h3
  have k6 : ∀ conn fd, (client_cleanup conn fd).all p = true := fun conn fd =>
    all_of_kinds_in _ p _ (kinds_in_mono _ _ _ (by decide) (kinds_client_cleanup conn fd)) h3
  rw [run_client_trace]
  simp only [List.all_append, h1, Bool.true_and]
  repeat' split
  all_goals simp only [List.all_append, List.all_cons, List.all_nil, h0, h2, k3, k4', k5, k6,
    Bool.and_self]

/-- Calls outside the connection manager and the sockets carry no port. -/
theorem port_of_kinds (rp sp : Nat) (c : Call) (h : c.kind ≠ Kind.cm) (h1 : c.kind ≠ Kind.sock) :
    port_is rp sp c = true := by
  cases c <;> first | rfl | exact absurd rfl h | exact absurd rfl h1

/-- `rdma_connection_init` binds or resolves `htons(cfg->port)`. -/
theorem port_init (sp : Nat) (cfg : Config) (env : Env) :
    (rdma_connection_init cfg env).trace.all (port_is (htons cfg.port) sp) = true := by
  unfold rdma_connection_init
  repeat' split
  all_goals simp [port_is]

/-- `wait_event` carries no port. -/
theorem port_wait_event (rp sp : Nat) (conn : rdma_connection)
    (e : rdma_cm_event_type) (r : Option rdma_cm_event) :
    (wait_event conn e r).trace.all (port_is rp sp) = true := by
  unfold wait_event
  repeat' split
  all_goals rfl

/-- A trace of verbs calls and diagnostics carries no port. -/
theorem port_of_verbs (rp sp : Nat) (t : List Call)
    (ht : kinds_in [Kind.verbs, Kind.diag] t = true) : t.all (port_is rp sp) = true :=
  all_of_kinds_in _ _ t ht (fun c hc => port_of_kinds rp sp c
    (fun h => by rw [h] at hc; exact absurd hc (by decide))
    (fun h => by rw [h] at hc; exact absurd hc (by decide)))

/-- The server's handshake carries no port. -/
theorem port_server_handshake (rp sp : Nat) (d : Demo) (env : Env) (conn0 : rdma_connection) :
    (server_handshake d env conn0).trace.all (port_is rp sp) = true := by
  have hb := fun c => port_of_verbs rp sp _ (kinds_build_qp_verbs c env)
  have hr := fun c => port_of_verbs rp sp _ (kinds_reg_mem_verbs d c env)
  have hm := fun c => port_of_verbs rp sp _ (kinds_modify_qp_timeout_verbs c 12 env)
  unfold server_handshake
  simp only
  repeat' split
  all_goals simp [List.all_append, port_wait_event, hb, hr, hm, port_is]

/-- The client's handshake carries no port. -/
theorem port_client_handshake (rp sp : Nat) (d : Demo) (env : Env) (conn0 : rdma_connection) :
    (client_handshake d env conn0).trace.all (port_is rp sp) = true := by
  have hb := fun c => port_of_verbs rp sp _ (kinds_build_qp_verbs c env)
  have hr := fun c => port_of_verbs rp sp _ (kinds_reg_mem_verbs d c env)
  have hm := fun c => port_of_verbs rp sp _ (kinds_modify_qp_timeout_verbs c 12 env)
  unfold client_handshake
  simp only
  repeat' split
  all_goals simp [List.all_append, port_wait_event, hb, hr, hm, port_is]

/-- Every port of a server run: `htons(cfg->port)` for the RDMA connection,
`htons(cfg->port + 1)` for the side channel. -/
theorem port_run_server (d : Demo) (cfg : Config) (env : Env) :
    (run_server d cfg env).trace.all (port_is (htons cfg.port) (htons (cfg.port + 1))) = true := by
  refine all_run_server_parts _ d cfg env rfl (port_init _ cfg env)
    (port_server_handshake _ _ d env _) ?_ ?_
  · unfold server_socket
    simp only
    repeat' split
    all_goals simp [port_is]
  · intro c hc
    refine port_of_kinds _ _ c ?_ ?_ <;>
    · intro h; rw [h] at hc; exact absurd hc (by decide)

/-- Every port of a client run: `htons(cfg->port)` for the RDMA connection,
`htons(cfg->port + 1)` for the side channel. -/
theorem port_run_client (d : Demo) (cfg : Config) (env : Env) :
    (run_client d cfg env).trace.all (port_is (htons cfg.port) (htons (cfg.port + 1))) = true := by
  refine all_run_client_parts _ d cfg env rfl (port_init _ cfg env)
    (port_client_handshake _ _ d env _) ?_ ?_
  · unfold client_socket
    simp only
    repeat' split
    all_goals simp [port_is]
  · intro c hc
    refine port_of_kinds _ _ c ?_ ?_ <;>
    · intro h; rw [h] at hc; exact absurd hc (by decide)

/-- Every port of a run of `main`. -/
theorem port_main (d : Demo) (opts : List Opt) (env : Env) :
    (main d opts env).trace.all (port_is (htons (parse_args opts).cfg.port)
      (htons ((parse_args opts).cfg.port + 1))) = true := by
  unfold main
  simp only
  repeat' split
  · rfl
  · exact port_run_server d _ env
  · exact port_run_client d _ env
  · rfl

/-- `htons` of a port below 65535 and of its successor. -/
theorem htons_port (p : Int) (h0 : 0 ≤ p) (h1 : p ≤ 65534) :
    htons p = p.toNat ∧ htons (p + 1) = p.toNat + 1 := by
  unfold htons
  constructor
  · rw [Int.emod_eq_of_lt h0 (by omega)]
  · rw [Int.emod_eq_of_lt (by omega) (by omega)]
    omega

/-- An unknown option makes `parse_args` return -1. -/
theorem getopt_loop_unknown (cfg : Config) (opts : List Opt) (h : Opt.unknown ∈ opts) :
    (getopt_loop cfg opts).2 = false := by
  induction opts generalizing cfg with
  | nil => simp at h
  | cons o opts ih =>
    cases o with
    | unknown => rfl
    | s => exact ih _ (by simpa using h)
    | c => exact ih _ (by simpa using h)
    | a x => exact ih _ (by simpa using h)
    | p x => exact ih _ (by simpa using h)
    | n x => exact ih _ (by simpa using h)

/-- When `parse_args` returns 0 the role is the server's or the client's. -/
theorem parse_args_ok_role (opts : List Opt) (h : (parse_args opts).ret = 0) :
    (parse_args opts).cfg.role = ROLE_SERVER ∨ (parse_args opts).cfg.role = ROLE_CLIENT := by
  by_cases hu : Opt.unknown ∈ opts
  · have := getopt_loop_unknown ⟨0, "", DEFAULT_PORT, DEFAULT_COUNT⟩ opts hu
    unfold parse_args at h
    simp [this] at h
  · obtain ⟨a1, _, a3, _, _⟩ := parse_args_given opts hu
    have hr := (a1.1 h).1
    rw [a3]
    cases hg : given_role opts with
    | none => exact absurd ((given_role_none opts).1 hg) (by tauto)
    | some r => exact given_role_values opts r hg

/-- C18 (as stated). `parse_args` accepts `-p 65535`; the RDMA connection then
uses port 65535 and the side channel port `htons(65536)`, which is 0: the two
ports do not differ by one. -/
theorem port_65535_side_channel_zero :
    (parse_args [Opt.s, Opt.a "10.0.0.1", Opt.p "65535"]).ret = 0 ∧
    (parse_args [Opt.s, Opt.a "10.0.0.1", Opt.p "65535"]).cfg.port = 65535 ∧
    htons 65535 = 65535 ∧ htons (65535 + 1) = 0 ∧
    Call.rdma_bind_addr (some 20) 65535 true ∈
      (main Demo.atomic [Opt.s, Opt.a "10.0.0.1", Opt.p "65535"] env_server).trace ∧
    Call.bind env_server.socket 0 env_server.bind ∈
      (main Demo.atomic [Opt.s, Opt.a "10.0.0.1", Opt.p "65535"] env_server).trace ∧
    Call.connect env_client.socket 0 env_client.sock_connect ∈
      (main Demo.atomic [Opt.c, Opt.a "10.0.0.1", Opt.p "65535"] env_client).trace := by
  decide

/-- C18 (amended). For every command line that `parse_args` accepts with a
port `p` from 0 to 65534: `htons(p)` is `p`, `htons(p + 1)` is `p + 1`, the
two differ by one, and in the run that `main` starts every `rdma_bind_addr`
and `rdma_resolve_addr` carries port `p` and every `bind` and `connect` of the
side channel carries port `p + 1`. -/
theorem side_channel_port (d : Demo) (opts : List Opt) (env : Env)
    (hr : (parse_args opts).ret = 0) (h0 : 0 ≤ (parse_args opts).cfg.port)
    (h1 : (parse_args opts).cfg.port ≤ 65534) :
    htons (parse_args opts).cfg.port = (parse_args opts).cfg.port.toNat ∧
    htons ((parse_args opts).cfg.port + 1) = (parse_args opts).cfg.port.toNat + 1 ∧
    htons ((parse_args opts).cfg.port + 1) = htons (parse_args opts).cfg.port + 1 ∧
    (main d opts env).trace.all (port_is (parse_args opts).cfg.port.toNat
      ((parse_args opts).cfg.port.toNat + 1)) = true ∧
    (((parse_args opts).cfg.role = ROLE_SERVER ∧
        (main d opts env).trace = (run_server d (parse_args opts).cfg env).trace) ∨
      ((parse_args opts).cfg.role = ROLE_CLIENT ∧
        (main d opts env).trace = (run_client d (parse_args opts).cfg env).trace)) := by
  obtain ⟨e1, e2⟩ := htons_port _ h0 h1
  have hm := port_main d opts env
  rw [e1, e2] at hm
  refine ⟨e1, e2, by rw [e1, e2], hm, ?_⟩
  rcases parse_args_ok_role opts hr with hs | hc
  · left
    refine ⟨hs, ?_⟩
    unfold main
    simp [hr, hs]
  · right
    refine ⟨hc, ?_⟩
    have hne : ROLE_CLIENT ≠ ROLE_SERVER := by decide
    unfold main
    simp [hr, hc, hne]

/-- C18 (amended), on the sample command lines with port 18515: the server
binds the RDMA identifier to 18515 and the side channel to 18516, and the
client resolves 18515 and connects the side channel to 18516. -/
theorem side_channel_port_witness :
    ((parse_args opts_server).ret = 0 ∧ 0 ≤ (parse_args opts_server).cfg.port ∧
      (parse_args opts_server).cfg.port ≤ 65534) ∧
    (htons (parse_args opts_server).cfg.port = (parse_args opts_server).cfg.port.toNat ∧
    htons ((parse_args opts_server).cfg.port + 1) = (parse_args opts_server).cfg.port.toNat + 1 ∧
    htons ((parse_args opts_server).cfg.port + 1) = htons (parse_args opts_server).cfg.port + 1 ∧
    (main Demo.atomic opts_server env_server).trace.all
      (port_is (parse_args opts_server).cfg.port.toNat
        ((parse_args opts_server).cfg.port.toNat + 1)) = true ∧
    (((parse_args opts_server).cfg.role = ROLE_SERVER ∧
        (main Demo.atomic opts_server env_server).trace =
          (run_server Demo.atomic (parse_args opts_server).cfg env_server).trace) ∨
      ((parse_args opts_server).cfg.role = ROLE_CLIENT ∧
        (main Demo.atomic opts_server env_server).trace =
          (run_client Demo.atomic (parse_args opts_server).cfg env_server).trace))) ∧
    (Call.rdma_bind_addr (some 20) 18515 true ∈
        (main Demo.atomic opts_server env_server).trace ∧
      Call.bind env_server.socket 18516 env_server.bind ∈
        (main Demo.atomic opts_server env_server).trace ∧
      Call.rdma_resolve_addr (some 20) 18515 2000 true ∈
        (main Demo.atomic opts_client env_client).trace ∧
      Call.connect env_client.socket 18516 env_client.sock_connect ∈
        (main Demo.atomic opts_client env_client).trace) :=
  ⟨by decide,
    side_channel_port Demo.atomic opts_server env_server (by decide) (by decide) (by decide),
    by decide⟩

/-- C19 (as stated). A command line with both `-s` and `-c` and an address is
accepted: `parse_args` returns 0 and the role is that of the later of the two
options. -/
theorem parse_args_accepts_both_roles :
    (Opt.s ∈ [Opt.s, Opt.c, Opt.a "10.0.0.1"] ∧ Opt.c ∈ [Opt.s, Opt.c, Opt.a "10.0.0.1"]) ∧
    (parse_args [Opt.s, Opt.c, Opt.a "10.0.0.1"]).ret = 0 ∧
    (parse_args [Opt.s, Opt.c, Opt.a "10.0.0.1"]).cfg.role = ROLE_CLIENT ∧
    (parse_args [Opt.c, Opt.s, Opt.a "10.0.0.1"]).ret = 0 ∧
    (parse_args [Opt.c, Opt.s, Opt.a "10.0.0.1"]).cfg.role = ROLE_SERVER := by
  decide

/-- C19 (amended). `parse_args` returns -1 whenever the command line has
neither `-s` nor `-c`.  For a command line of recognised options the role is
the one selected by the last `-s` or `-c`: the server's with `-s` only, the
client's with `-c` only; with both present there is no usage error on that
account, and `parse_args` returns 0 exactly when a non-empty address is given. -/
theorem parse_args_role (opts : List Opt) :
    (Opt.s ∉ opts → Opt.c ∉ opts → (parse_args opts).ret = -1) ∧
    (Opt.unknown ∉ opts → Opt.s ∈ opts → Opt.c ∉ opts →
      (parse_args opts).cfg.role = ROLE_SERVER) ∧
    (Opt.unknown ∉ opts → Opt.c ∈ opts → Opt.s ∉ opts →
      (parse_args opts).cfg.role = ROLE_CLIENT) ∧
    (Opt.unknown ∉ opts → (parse_args opts).cfg.role = (given_role opts).getD ROLE_UNDEF) ∧
    (Opt.unknown ∉ opts → Opt.s ∈ opts → Opt.c ∈ opts →
      ((parse_args opts).ret = 0 ↔ ∃ x, given_address opts = some x ∧ x ≠ "")) ∧
    ((parse_args [Opt.a "10.0.0.1"]).ret = -1 ∧
      (parse_args opts_server).cfg.role = ROLE_SERVER ∧
      (parse_args opts_client).cfg.role = ROLE_CLIENT) := by
  refine ⟨?_, ?_, ?_, ?_, ?_, by decide⟩
  · intro hs hc
    by_cases hu : Opt.unknown ∈ opts
    · have := getopt_loop_unknown ⟨0, "", DEFAULT_PORT, DEFAULT_COUNT⟩ opts hu
      unfold parse_args
      simp [this]
    · obtain ⟨a1, a2, _, _, _⟩ := parse_args_given opts hu
      rcases a2 with a2 | a2
      · exact absurd (a1.1 a2).1 (by tauto)
      · exact a2
  · intro hu hs hc
    rw [(parse_args_given opts hu).2.2.1, given_role_server opts hs hc]
    rfl
  · intro hu hc hs
    rw [(parse_args_given opts hu).2.2.1, given_role_client opts hc hs]
    rfl
  · intro hu
    exact (parse_args_given opts hu).2.2.1
  · intro hu hs hc
    rw [(parse_args_given opts hu).1]
    constructor
    · exact fun h => h.2
    · exact fun h => ⟨Or.inl hs, h⟩

/-- A delivery in chunks that all carry data and are not more than the count
still missing: every `read` is counted once. -/
theorem server_ack_loop_delivery (d : Demo) (fd : Int) (count : Int) (chunks : List Nat)
    (c : Int) (hpos : ∀ x ∈ chunks, 0 < x) (hk : c + chunks.length ≤ count) :
    (server_ack_loop d fd count c (delivery chunks)).count = c + chunks.length ∧
    (server_ack_loop d fd count c (delivery chunks)).exit =
      (if c + chunks.length = count then LoopExit.reached else LoopExit.waiting) := by
  induction chunks generalizing c with
  | nil =>
    simp only [delivery, List.map_nil, List.length_nil, Nat.cast_zero, add_zero] at hk ⊢
    unfold server_ack_loop
    by_cases h : c < count
    · have hne : c ≠ count := by omega
      simp [h, hne]
    · have he : c = count := by omega
      simp [he]
  | cons x chunks ih =>
    have hx : 0 < x := hpos x (by simp)
    have hpos1 : ∀ y ∈ chunks, 0 < y := fun y hy => hpos y (by simp [hy])
    simp only [List.length_cons, Nat.cast_add, Nat.cast_one] at hk ⊢
    have h1 : c < count := by omega
    have hx1 : (0 : Int) < (x : Int) := by exact_mod_cast hx
    obtain ⟨i1, i2⟩ := ih (c + 1) hpos1 (by omega)
    have e : delivery (x :: chunks) = ⟨(x : Int), 0, 0⟩ :: delivery chunks := rfl
    rw [e]
    unfold server_ack_loop
    simp only [h1, hx1, gt_iff_lt, if_true]
    refine ⟨by rw [i1]; omega, ?_⟩
    rw [i2]
    have : (c + 1 + (chunks.length : Int) = count) ↔ (c + ((chunks.length : Int) + 1) = count) := by
      constructor <;> intro h <;> omega
    simp only [this]

/-- C11 (as stated). Two "ACK" tokens delivered by one `read` of 6 bytes are
counted once, and one token delivered in chunks of 1 and 2 bytes is counted
twice; a server run whose client sends two tokens, delivered at once, and
closes ends with the count 1. -/
theorem ack_count_is_not_token_count :
    ([6].sum = 3 * 2 ∧ (∀ x ∈ [6], 0 < x ∧ x ≤ 8) ∧ (2 : Int) ≤ 2) ∧
    (server_ack_loop Demo.atomic 5 2 0 (delivery [6])).count = 1 ∧
    (server_ack_loop Demo.read 5 2 0 (delivery [6])).count = 1 ∧
    ([1, 2].sum = 3 * 1 ∧ (∀ x ∈ [1, 2], 0 < x ∧ x ≤ 8) ∧ (1 : Int) ≤ 3) ∧
    (server_ack_loop Demo.atomic 5 3 0 (delivery [1, 2])).count = 2 ∧
    ((run_server Demo.atomic ⟨ROLE_SERVER, "10.0.0.1", 18515, 2⟩
        { env_server with ack_reads := delivery [6] ++ [⟨0, 0, 0⟩] }).loop.map
      LoopResult.count) = some 1 := by
  decide

/-- C11 (amended). In the atomic and read demos the server counts one
completed operation per `read` that returns data, whatever the number of bytes
returned: when the byte stream delivers its bytes in `k` chunks, each of at
least one byte, and `k` is at most the operation count, the count after
consuming them is `k`, and the loop has left exactly when `k` is the operation
count.  The count is the number `N` of tokens when every `read` returns
exactly one 3-byte token. -/
theorem ack_count_is_read_count (d : Demo) (fd : Int) (count : Int) (chunks : List Nat)
    (hpos : ∀ x ∈ chunks, 0 < x) (hk : (chunks.length : Int) ≤ count) :
    (server_ack_loop d fd count 0 (delivery chunks)).count = chunks.length ∧
    (server_ack_loop d fd count 0 (delivery chunks)).exit =
      (if (chunks.length : Int) = count then LoopExit.reached else LoopExit.waiting) ∧
    (∀ N : Nat, (N : Int) ≤ count →
      (server_ack_loop d fd count 0 (delivery (List.replicate N 3))).count = N) := by
  obtain ⟨i1, i2⟩ := server_ack_loop_delivery d fd count chunks 0 hpos (by omega)
  refine ⟨by rw [i1]; omega, ?_, ?_⟩
  · rw [i2]
    simp only [zero_add]
  · intro N hN
    have h := (server_ack_loop_delivery d fd count (List.replicate N 3) 0
      (fun x hx => by rw [List.eq_of_mem_replicate hx]; decide)
      (by simp only [List.length_replicate]; omega)).1
    rw [h]
    simp

/-- C11 (amended) on a sample: three tokens delivered one per `read` to a
server with operation count 3. -/
theorem ack_count_is_read_count_witness :
    ((∀ x ∈ [3, 3, 3], 0 < x) ∧ (([3, 3, 3] : List Nat).length : Int) ≤ 3) ∧
    ((server_ack_loop Demo.atomic 5 3 0 (delivery [3, 3, 3])).count =
        ([3, 3, 3] : List Nat).length ∧
      (server_ack_loop Demo.atomic 5 3 0 (delivery [3, 3, 3])).exit =
        (if (([3, 3, 3] : List Nat).length : Int) = 3 then LoopExit.reached
          else LoopExit.waiting) ∧
      (∀ N : Nat, (N : Int) ≤ 3 →
        (server_ack_loop Demo.atomic 5 3 0 (delivery (List.replicate N 3))).count = N)) :=
  ⟨by decide, ack_count_is_read_count Demo.atomic 5 3 [3, 3, 3] (by decide) (by decide)⟩

/-- The character of a decimal digit. -/
theorem digitChar_toNat : ∀ k, k < 10 → (Nat.digitChar k).toNat = 48 + k := by
  decide

/-- The accumulator of `Nat.toDigitsCore` stays behind the digits. -/
theorem toDigitsCore_acc (f : Nat) : ∀ (n : Nat) (ds : List Char),
    Nat.toDigitsCore 10 f n ds = Nat.toDigitsCore 10 f n [] ++ ds := by
  induction f with
  | zero => intro n ds; rfl
  | succ f ih =>
    intro n ds
    unfold Nat.toDigitsCore
    simp only
    split
    · rfl
    · rw [ih (n / 10) (Nat.digitChar (n % 10) :: ds), ih (n / 10) [Nat.digitChar (n % 10)]]
      simp

/-- The digits printed for `n` stand for `n`. -/
theorem dec_value_toDigitsCore (f : Nat) : ∀ n, n < f →
    dec_value ((Nat.toDigitsCore 10 f n []).map Char.toNat) = n := by
  induction f with
  | zero => intro n h; omega
  | succ f ih =>
    intro n h
    unfold Nat.toDigitsCore
    simp only
    split
    · rename_i h0
      have hn : n < 10 := by omega
      have : n % 10 = n := Nat.mod_eq_of_lt hn
      simp [dec_value, this, digitChar_toNat n hn]
    · rename_i h0
      have hlt : n / 10 < f := by omega
      rw [toDigitsCore_acc]
      have hd := digitChar_toNat (n % 10) (Nat.mod_lt _ (by decide))
      have ih1 := ih (n / 10) hlt
      unfold dec_value at ih1 ⊢
      rw [List.map_append, List.foldl_append, ih1]
      simp only [List.map_cons, List.map_nil, List.foldl_cons, List.foldl_nil, hd]
      omega

/-- No digit printed is the NUL byte. -/
theorem toDigitsCore_ne_zero (f : Nat) : ∀ (n : Nat) (ds : List Char),
    (∀ ch ∈ ds, ch.toNat ≠ 0) → ∀ ch ∈ Nat.toDigitsCore 10 f n ds, ch.toNat ≠ 0 := by
  induction f with
  | zero => intro n ds h; exact h
  | succ f ih =>
    intro n ds h
    have hd := digitChar_toNat (n % 10) (Nat.mod_lt _ (by decide))
    have h1 : ∀ ch ∈ Nat.digitChar (n % 10) :: ds, ch.toNat ≠ 0 := by
      intro ch hc
      rcases List.mem_cons.1 hc with e | e
      · rw [e, hd]; omega
      · exact h ch e
    unfold Nat.toDigitsCore
    simp only
    split
    · exact h1
    · exact ih _ _ h1

/-- The text `%d` prints for a natural number stands for it, has no NUL byte
and, below 10^10, has at most 10 bytes. -/
theorem decimal_nat (k : Nat) :
    dec_value (decimal (k : Int)) = k ∧ (0 : Nat) ∉ decimal (k : Int) ∧
    (k < 10 ^ 10 → (decimal (k : Int)).length ≤ 10) := by
  have hk : ¬ ((k : Int) < 0) := by omega
  unfold decimal
  simp only [hk, if_false, Int.natAbs_ofNat]
  refine ⟨dec_value_toDigitsCore (k + 1) k (by omega), ?_, ?_⟩
  · intro h0
    obtain ⟨ch, hc, he⟩ := List.mem_map.1 h0
    exact toDigitsCore_ne_zero (k + 1) k [] (by simp) ch hc he
  · intro hlt
    rw [List.length_map]
    exact Nat.toDigitsCore_length 10 (by decide) (k + 1) k 10 hlt (by decide)

/-- Every buffer state has `MSG_SIZE` bytes. -/
theorem write_state_length (i : Nat) : (write_state i).length = MSG_SIZE := by
  induction i with
  | zero => simp [write_state]
  | succ i ih =>
    unfold write_state snprintf
    have h : (List.take (MSG_SIZE - 1) (format_msg (↑i + 1))).length ≤ MSG_SIZE - 1 :=
      List.length_take_le _ _
    simp only [List.length_append, List.length_drop, ih, List.length_cons, List.length_nil]
    have : MSG_SIZE = 64 := rfl
    omega

/-- The shape of a buffer state after a message numbered below 10^10. -/
theorem write_state_succ (i : Nat) (h : i + 1 < 10 ^ 10) :
    ∃ tail, write_state (i + 1) = MSG_STR ++ (decimal ((i + 1 : Nat) : Int) ++ 0 :: tail) := by
  have hl := (decimal_nat (i + 1)).2.2 h
  have hlen : (format_msg ((i + 1 : Nat) : Int)).length ≤ MSG_SIZE - 1 := by
    unfold format_msg
    rw [List.length_append]
    have : MSG_STR.length = 21 := rfl
    have : MSG_SIZE = 64 := rfl
    omega
  refine ⟨(write_state i).drop ((format_msg ((i + 1 : Nat) : Int)).length + 1), ?_⟩
  have e : write_state (i + 1) =
      snprintf (write_state i) MSG_SIZE (format_msg ((i + 1 : Nat) : Int)) := by
    simp only [write_state, Nat.cast_add, Nat.cast_one]
  rw [e]
  unfold snprintf
  rw [List.take_of_length_le hlen]
  unfold format_msg
  simp

/-- Two texts without NUL byte that are followed by a NUL byte at the head of
the same list are equal. -/
theorem eq_of_append_zero (s t a b : Bytes) (hs : (0 : Nat) ∉ s) (ht : (0 : Nat) ∉ t)
    (h : s ++ 0 :: a = t ++ 0 :: b) : s = t := by
  induction s generalizing t with
  | nil =>
    cases t with
    | nil => rfl
    | cons y t =>
      simp only [List.nil_append, List.cons_append, List.cons.injEq] at h
      exact absurd (by rw [← h.1]; simp) ht
  | cons x s ih =>
    cases t with
    | nil =>
      simp only [List.nil_append, List.cons_append, List.cons.injEq] at h
      exact absurd (by rw [h.1]; simp) hs
    | cons y t =>
      simp only [List.cons_append, List.cons.injEq] at h
      rw [h.1, ih t (fun hm => hs (List.mem_cons_of_mem _ hm))
        (fun hm => ht (List.mem_cons_of_mem _ hm)) h.2]

/-- Consecutive messages leave different buffer states. -/
theorem write_state_ne (i : Nat) (h : i + 1 < 10 ^ 10) : write_state i ≠ write_state (i + 1) := by
  obtain ⟨t2, e2⟩ := write_state_succ i h
  cases i with
  | zero =>
    rw [e2]
    simp [write_state, MSG_SIZE, MSG_STR, List.replicate]
  | succ j =>
    obtain ⟨t1, e1⟩ := write_state_succ j (by omega)
    rw [e1, e2]
    intro heq
    have h1 := List.append_cancel_left heq
    have d1 := decimal_nat (j + 1)
    have d2 := decimal_nat (j + 1 + 1)
    have := eq_of_append_zero _ _ _ _ d1.2.1 d2.2.1 h1
    have hv : dec_value (decimal ((j + 1 : Nat) : Int)) =
        dec_value (decimal ((j + 1 + 1 : Nat) : Int)) := by rw [this]
    rw [d1.1, d2.1] at hv
    omega

/-- Polls that skip no state, up to the `N`-th: the loop counts every state
and leaves with the `N`-th recorded. -/
theorem server_poll_loop_observed (N : Nat) (hN : N < 10 ^ 10) : ∀ (obs : List Nat) (c : Nat),
    c ≤ N → follows c obs = true → (c = N ∨ N ∈ obs) →
    (server_poll_loop (N : Int) (c : Int) (write_state c) (observed obs)).exit =
      LoopExit.reached ∧
    (server_poll_loop (N : Int) (c : Int) (write_state c) (observed obs)).count = (N : Int) ∧
    (server_poll_loop (N : Int) (c : Int) (write_state c) (observed obs)).last_buf =
      write_state N := by
  intro obs
  induction obs with
  | nil =>
    intro c _ _ h
    have hc : c = N := by simpa using h
    subst hc
    simp [observed, server_poll_loop]
  | cons j obs ih =>
    intro c hle hf hmem
    have e : observed (j :: obs) = (write_state j, write_state j) :: observed obs := rfl
    rw [e]
    unfold server_poll_loop
    by_cases hc : c = N
    · subst hc
      simp
    · have hlt : (c : Int) < (N : Int) := by omega
      simp only [follows, Bool.and_eq_true, Bool.or_eq_true, decide_eq_true_eq] at hf
      obtain ⟨hj, hrest⟩ := hf
      have hmem1 : N ∈ j :: obs := by
        rcases hmem with h | h
        · exact absurd h hc
        · exact h
      simp only [hlt, if_true]
      rcases hj with hj | hj
      · subst hj
        have hm : N ∈ obs := by
          rcases List.mem_cons.1 hmem1 with h | h
          · exact absurd h.symm hc
          · exact h
        simp only [ne_eq, not_true_eq_false, if_false]
        exact ih j hle hrest (Or.inr hm)
      · subst hj
        have hne : List.take MSG_SIZE (write_state c) ≠ List.take MSG_SIZE (write_state (c + 1)) := by
          rw [List.take_of_length_le (le_of_eq (write_state_length c)),
            List.take_of_length_le (le_of_eq (write_state_length (c + 1)))]
          exact write_state_ne c (by omega)
        simp only [ne_eq, hne, not_false_eq_true, if_true]
        rw [List.take_of_length_le (le_of_eq (write_state_length (c + 1)))]
        have hm : c + 1 = N ∨ N ∈ obs := by
          rcases List.mem_cons.1 hmem1 with h | h
          · exact Or.inl h.symm
          · exact Or.inr h
        have := ih (c + 1) (by omega) hrest hm
        simpa using this

/-- Polls that keep finding the contents last recorded count nothing. -/
theorem server_poll_loop_same (count c : Int) (last : Bytes) (k : Nat) (h : c < count) :
    (server_poll_loop count c last (List.replicate k (last, last))).exit = LoopExit.waiting ∧
    (server_poll_loop count c last (List.replicate k (last, last))).count = c := by
  induction k with
  | zero => simp [server_poll_loop, h]
  | succ k ih =>
    rw [List.replicate_succ]
    unfold server_poll_loop
    simp only [h, if_true, ne_eq, not_true_eq_false, if_false]
    exact ih

/-- The write client's loop, every write completing at the first poll: after
`n` more iterations its buffer, and the server's, hold the last message. -/
theorem client_loop_write_state (env : Env) (conn : rdma_connection) (fd : Int)
    (wr : ibv_send_wr) (hp : ∀ i, env.post_send i = true) : ∀ (n i : Nat) (m : Mem),
    m.data = write_state i →
    (client_loop Demo.write env conn fd wr n i m (List.replicate n write_done)).exit =
      Exit.finished ∧
    (client_loop Demo.write env conn fd wr n i m (List.replicate n write_done)).i = i + n ∧
    (client_loop Demo.write env conn fd wr n i m (List.replicate n write_done)).mem.data =
      write_state (i + n) ∧
    (0 < n →
      (client_loop Demo.write env conn fd wr n i m
        (List.replicate n write_done)).mem.remote_text = write_state (i + n)) := by
  intro n
  induction n with
  | zero =>
    intro i m hm
    simp [client_loop, hm]
  | succ n ih =>
    intro i m hm
    have hs : snprintf m.data MSG_SIZE (format_msg (↑i + 1)) = write_state (i + 1) := by
      rw [hm]; rfl
    have ht : List.take MSG_SIZE (write_state (i + 1)) = write_state (i + 1) :=
      List.take_of_length_le (le_of_eq (write_state_length (i + 1)))
    rw [List.replicate_succ]
    unfold client_loop
    simp only [hp, if_true, hs, wait_completion, write_done, wc_expect, complete,
      after_completion]
    have i1 := ih (i + 1)
      { data := write_state (i + 1), remote_counter := m.remote_counter,
        remote_text := List.take MSG_SIZE (write_state (i + 1)) } rfl
    simp [write_done] at i1
    obtain ⟨a1, a2, a3, a4⟩ := i1
    have e : i + (n + 1) = i + 1 + n := by omega
    rw [e]
    simp [IBV_WC_SUCCESS]
    simp [IBV_WC_SUCCESS] at a1 a2 a3 a4
    refine ⟨a1, a2, a3, ?_⟩
    by_cases hn : 0 < n
    · exact a4 hn
    · have hn0 : n = 0 := by omega
      subst hn0
      simp [client_loop, ht]

/-- C12 (as stated). With operation count 2, when both writes of the client
land before the server looks at its buffer, every poll finds the second
message: the server counts one buffer state, not two, and however many polls
follow it never leaves the loop. -/
theorem poll_loop_misses_overwritten_message :
    ((server_poll_loop 2 0 (List.replicate MSG_SIZE 0) (observed [2, 2, 2])).count = 1 ∧
      (server_poll_loop 2 0 (List.replicate MSG_SIZE 0) (observed [2, 2, 2])).exit =
        LoopExit.waiting ∧
      (run_server Demo.write ⟨ROLE_SERVER, "10.0.0.1", 18515, 2⟩
        { env_server with buf_polls := observed [2, 2, 2] }).ret = none) ∧
    (∀ k : Nat,
      (server_poll_loop 2 0 (List.replicate MSG_SIZE 0)
        (observed (List.replicate k 2))).exit = LoopExit.waiting ∧
      (server_poll_loop 2 0 (List.replicate MSG_SIZE 0)
        (observed (List.replicate k 2))).count ≤ 1) := by
  refine ⟨by decide, ?_⟩
  intro k
  cases k with
  | zero => decide
  | succ k =>
    have e : observed (List.replicate (k + 1) 2) =
        (write_state 2, write_state 2) ::
          List.replicate k (List.take MSG_SIZE (write_state 2), List.take MSG_SIZE (write_state 2)) := by
      simp [observed, List.replicate_succ, List.take_of_length_le (le_of_eq (write_state_length 2))]
    have hne : List.take MSG_SIZE (List.replicate MSG_SIZE 0) ≠ List.take MSG_SIZE (write_state 2) := by
      decide
    have hs := server_poll_loop_same 2 1 (List.take MSG_SIZE (write_state 2)) k (by decide)
    rw [e]
    unfold server_poll_loop
    simp only [hne, ne_eq, not_false_eq_true, if_true, zero_add]
    have h02 : (0 : Int) < 2 := by decide
    simp only [h02, if_true]
    exact ⟨hs.1, by rw [hs.2]⟩

/-- C12 (amended). In the write demo, for every operation count `N` from 1 to
2147483647: when every poll of the server finds in its buffer the state the
previous poll found or the next one (no message is overwritten before the
server has seen it, and `memcmp` and `memcpy` see the same contents) and the
`N`-th message is found, the polling loop counts exactly `N` buffer states,
leaves the loop, and the last content it recorded is the `N`-th message.  The
`N`-th message is what a client whose `N` writes all complete leaves in its own
buffer and in the server's. -/
theorem poll_loop_counts_each_state (N : Nat) (obs : List Nat) (h1 : 1 ≤ N)
    (h2 : N ≤ 2147483647) (hf : follows 0 obs = true) (hN : N ∈ obs) :
    (server_poll_loop (N : Int) 0 (List.replicate MSG_SIZE 0) (observed obs)).count = (N : Int) ∧
    (server_poll_loop (N : Int) 0 (List.replicate MSG_SIZE 0) (observed obs)).exit =
      LoopExit.reached ∧
    (server_poll_loop (N : Int) 0 (List.replicate MSG_SIZE 0) (observed obs)).last_buf =
      write_state N ∧
    (∀ (env : Env) (conn : rdma_connection) (fd : Int) (wr : ibv_send_wr) (m : Mem),
      (∀ i, env.post_send i = true) → m.data = List.replicate MSG_SIZE 0 →
      (client_loop Demo.write env conn fd wr N 0 m (List.replicate N write_done)).exit =
        Exit.finished ∧
      (client_loop Demo.write env conn fd wr N 0 m (List.replicate N write_done)).i = N ∧
      (client_loop Demo.write env conn fd wr N 0 m
        (List.replicate N write_done)).mem.remote_text = write_state N) ∧
    (∀ i, i < N → write_state i ≠ write_state (i + 1)) := by
  have hb : N < 10 ^ 10 := by omega
  obtain ⟨a1, a2, a3⟩ := server_poll_loop_observed N hb obs 0 (by omega) hf (Or.inr hN)
  refine ⟨a2, a1, a3, ?_, fun i hi => write_state_ne i (by omega)⟩
  intro env conn fd wr m hp hm
  obtain ⟨b1, b2, _, b4⟩ := client_loop_write_state env conn fd wr hp N 0 m hm
  simp only [zero_add] at b2 b4
  exact ⟨b1, b2, b4 (by omega)⟩

/-- C12 (amended) on a sample: operation count 3, the server polling before
the first write, twice after it, once after the second and the third. -/
theorem poll_loop_counts_each_state_witness :
    (1 ≤ 3 ∧ 3 ≤ 2147483647 ∧ follows 0 [0, 1, 1, 2, 3] = true ∧ 3 ∈ [0, 1, 1, 2, 3]) ∧
    ((server_poll_loop ((3 : Nat) : Int) 0 (List.replicate MSG_SIZE 0)
        (observed [0, 1, 1, 2, 3])).count = ((3 : Nat) : Int) ∧
    (server_poll_loop ((3 : Nat) : Int) 0 (List.replicate MSG_SIZE 0)
        (observed [0, 1, 1, 2, 3])).exit = LoopExit.reached ∧
    (server_poll_loop ((3 : Nat) : Int) 0 (List.replicate MSG_SIZE 0)
        (observed [0, 1, 1, 2, 3])).last_buf = write_state 3 ∧
    (∀ (env : Env) (conn : rdma_connection) (fd : Int) (wr : ibv_send_wr) (m : Mem),
      (∀ i, env.post_send i = true) → m.data = List.replicate MSG_SIZE 0 →
      (client_loop Demo.write env conn fd wr 3 0 m (List.replicate 3 write_done)).exit =
        Exit.finished ∧
      (client_loop Demo.write env conn fd wr 3 0 m (List.replicate 3 write_done)).i = 3 ∧
      (client_loop Demo.write env conn fd wr 3 0 m
        (List.replicate 3 write_done)).mem.remote_text = write_state 3) ∧
    (∀ i, i < 3 → write_state i ≠ write_state (i + 1))) ∧
    write_state 3 = MSG_STR ++ [51] ++ List.replicate 42 0 :=
  ⟨by decide, poll_loop_counts_each_state 3 [0, 1, 1, 2, 3] (by decide) (by decide) (by decide)
    (by decide), by decide⟩

/-- With enough fuel `Nat.toDigitsCore` does not depend on the fuel. -/
theorem toDigitsCore_fuel (f : Nat) : ∀ (g n : Nat), n < f → n < g →
    Nat.toDigitsCore 10 f n [] = Nat.toDigitsCore 10 g n [] := by
  induction f with
  | zero => intro g n h; omega
  | succ f ih =>
    intro g n hf hg
    cases g with
    | zero => omega
    | succ g =>
      simp only [Nat.toDigitsCore]
      split
      · rfl
      · rw [toDigitsCore_acc f, toDigitsCore_acc g, ih g (n / 10) (by omega) (by omega)]

/-- Number of decimal digits: one below 10, else one more than for the tenth. -/
theorem toDigits_length_step (n : Nat) :
    (Nat.toDigits 10 n).length =
      if n < 10 then 1 else (Nat.toDigits 10 (n / 10)).length + 1 := by
  unfold Nat.toDigits
  by_cases h : n < 10
  · have h0 : n / 10 = 0 := by omega
    simp [Nat.toDigitsCore, h0, h]
  · have h0 : ¬ n / 10 = 0 := by omega
    have e : Nat.toDigitsCore 10 (n + 1) n [] =
        Nat.toDigitsCore 10 n (n / 10) [Nat.digitChar (n % 10)] := by
      simp [Nat.toDigitsCore, h0]
    simp only [h, if_false]
    rw [e, toDigitsCore_acc, toDigitsCore_fuel n (n / 10 + 1) (n / 10) (by omega) (by omega)]
    simp

/-- A larger number has no fewer decimal digits. -/
theorem toDigits_length_mono : ∀ (m n : Nat), n ≤ m →
    (Nat.toDigits 10 n).length ≤ (Nat.toDigits 10 m).length := by
  intro m
  induction m using Nat.strong_induction_on with
  | _ m ih =>
    intro n hn
    rw [toDigits_length_step n, toDigits_length_step m]
    by_cases hm : m < 10
    · have h1 : n < 10 := by omega
      simp [hm, h1]
    · by_cases h1 : n < 10
      · simp [hm, h1]
      · simp only [hm, h1, if_false]
        have := ih (m / 10) (by omega) (n / 10) (Nat.div_le_div_right hn)
        omega

/-- The text `%d` prints grows in length with the number. -/
theorem decimal_length_mono (k : Nat) :
    (decimal (k : Int)).length ≤ (decimal ((k + 1 : Nat) : Int)).length := by
  have h1 : ¬ ((k : Int) < 0) := by omega
  have h2 : ¬ (((k + 1 : Nat) : Int) < 0) := by omega
  unfold decimal
  simp only [h1, h2, if_false, Int.natAbs_ofNat, List.length_map]
  exact toDigits_length_mono (k + 1) k (by omega)

/-- The buffer after the `i`-th message, below 10^10: the message, then zeros. -/
theorem write_state_zeros (k : Nat) (h : k + 1 < 10 ^ 10) :
    write_state (k + 1) = format_msg ((k + 1 : Nat) : Int) ++
      List.replicate (MSG_SIZE - (format_msg ((k + 1 : Nat) : Int)).length) 0 := by
  induction k with
  | zero => decide
  | succ k ih =>
    have ih1 := ih (by omega)
    have hl := (decimal_nat (k + 1 + 1)).2.2 h
    have hm := decimal_length_mono (k + 1)
    have h21 : MSG_STR.length = 21 := rfl
    have h64 : MSG_SIZE = 64 := rfl
    have l1 : (format_msg ((k + 1 : Nat) : Int)).length =
        21 + (decimal ((k + 1 : Nat) : Int)).length := by
      unfold format_msg; rw [List.length_append, h21]
    have l2 : (format_msg ((k + 1 + 1 : Nat) : Int)).length =
        21 + (decimal ((k + 1 + 1 : Nat) : Int)).length := by
      unfold format_msg; rw [List.length_append, h21]
    have e : write_state (k + 1 + 1) =
        snprintf (write_state (k + 1)) MSG_SIZE (format_msg ((k + 1 + 1 : Nat) : Int)) := by
      simp only [write_state, Nat.cast_add, Nat.cast_one]
    rw [e, ih1]
    unfold snprintf
    rw [List.take_of_length_le (by rw [l2, h64]; omega)]
    rw [List.drop_append_eq_append_drop, List.drop_eq_nil_of_le (by rw [l1, l2]; omega),
      List.nil_append, List.drop_replicate, List.append_assoc]
    congr 1
    rw [l1, l2, h64]
    have : 64 - (21 + (decimal ((k + 1 + 1 : Nat) : Int)).length) =
        (64 - (21 + (decimal ((k + 1 : Nat) : Int)).length) -
          (21 + (decimal ((k + 1 + 1 : Nat) : Int)).length + 1 -
            (21 + (decimal ((k + 1 : Nat) : Int)).length))) + 1 := by omega
    rw [this, List.replicate_succ]
    rfl

/-- Messages with different numbers leave different buffer states. -/
theorem write_state_inj (a b : Nat) (ha : a + 1 < 10 ^ 10) (hb : b + 1 < 10 ^ 10)
    (h : write_state (a + 1) = write_state (b + 1)) : a = b := by
  obtain ⟨t1, e1⟩ := write_state_succ a ha
  obtain ⟨t2, e2⟩ := write_state_succ b hb
  rw [e1, e2] at h
  have h1 := List.append_cancel_left h
  have d1 := decimal_nat (a + 1)
  have d2 := decimal_nat (b + 1)
  have := eq_of_append_zero _ _ _ _ d1.2.1 d2.2.1 h1
  have hv : dec_value (decimal ((a + 1 : Nat) : Int)) =
      dec_value (decimal ((b + 1 : Nat) : Int)) := by rw [this]
  rw [d1.1, d2.1] at hv
  omega

/-- C25. For every operation index `i` from 1 to 2^31 - 1 the message the write
client formats before its `i`-th post is the 21 bytes of `MSG_STR` followed by
the decimal digits of `i`, at most 10 of them: with its NUL it needs at most
32 bytes, so `snprintf` with the limit 64 does not truncate it.  The client's
64-byte buffer is then that string followed by zero bytes only; it differs
from the buffer for every other index and from the buffer before this message,
and it is what the `i`-th write leaves in the server's buffer. -/
theorem write_message_fits (i : Nat) (h1 : 1 ≤ i) (h2 : i ≤ 2 ^ 31 - 1) :
    format_msg (i : Int) = MSG_STR ++ decimal (i : Int) ∧ MSG_STR.length = 21 ∧
    dec_value (decimal (i : Int)) = i ∧ (decimal (i : Int)).length ≤ 10 ∧
    (format_msg (i : Int)).length + 1 ≤ 32 ∧
    (format_msg (i : Int)).take (MSG_SIZE - 1) = format_msg (i : Int) ∧
    write_state i = format_msg (i : Int) ++
      List.replicate (MSG_SIZE - (format_msg (i : Int)).length) 0 ∧
    (write_state i).length = 64 ∧
    (∀ j, 1 ≤ j → j ≤ 2 ^ 31 - 1 → j ≠ i → write_state j ≠ write_state i) ∧
    write_state (i - 1) ≠ write_state i ∧
    (∀ (env : Env) (conn : rdma_connection) (fd : Int) (wr : ibv_send_wr) (m : Mem),
      (∀ k, env.post_send k = true) → m.data = List.replicate MSG_SIZE 0 →
      (client_loop Demo.write env conn fd wr i 0 m (List.replicate i write_done)).mem.data =
        write_state i ∧
      (client_loop Demo.write env conn fd wr i 0 m
        (List.replicate i write_done)).mem.remote_text = write_state i) := by
  obtain ⟨k, rfl⟩ : ∃ k, i = k + 1 := ⟨i - 1, by omega⟩
  have hb : k + 1 < 10 ^ 10 := by omega
  have d := decimal_nat (k + 1)
  have hl := d.2.2 hb
  have h21 : MSG_STR.length = 21 := rfl
  have h64 : MSG_SIZE = 64 := rfl
  have l1 : (format_msg ((k + 1 : Nat) : Int)).length =
      21 + (decimal ((k + 1 : Nat) : Int)).length := by
    unfold format_msg; rw [List.length_append, h21]
  refine ⟨rfl, rfl, d.1, hl, by rw [l1]; omega, ?_, write_state_zeros k hb,
    write_state_length (k + 1), ?_, ?_, ?_⟩
  · exact List.take_of_length_le (by rw [l1, h64]; omega)
  · intro j hj1 hj2 hne heq
    obtain ⟨a, rfl⟩ : ∃ a, j = a + 1 := ⟨j - 1, by omega⟩
    have := write_state_inj a k (by omega) hb heq
    omega
  · exact write_state_ne k hb
  · intro env conn fd wr m hp hm
    obtain ⟨_, _, b3, b4⟩ := client_loop_write_state env conn fd wr hp (k + 1) 0 m hm
    simp only [zero_add] at b3 b4
    exact ⟨b3, b4 (by omega)⟩

/-- C25 at the largest index: the message for 2147483647 has 31 bytes. -/
theorem write_message_fits_witness :
    (1 ≤ 2147483647 ∧ 2147483647 ≤ 2 ^ 31 - 1) ∧
    (format_msg ((2147483647 : Nat) : Int) = MSG_STR ++ decimal ((2147483647 : Nat) : Int) ∧
    MSG_STR.length = 21 ∧
    dec_value (decimal ((2147483647 : Nat) : Int)) = 2147483647 ∧
    (decimal ((2147483647 : Nat) : Int)).length ≤ 10 ∧
    (format_msg ((2147483647 : Nat) : Int)).length + 1 ≤ 32 ∧
    (format_msg ((2147483647 : Nat) : Int)).take (MSG_SIZE - 1) =
      format_msg ((2147483647 : Nat) : Int) ∧
    write_state 2147483647 = format_msg ((2147483647 : Nat) : Int) ++
      List.replicate (MSG_SIZE - (format_msg ((2147483647 : Nat) : Int)).length) 0 ∧
    (write_state 2147483647).length = 64 ∧
    (∀ j, 1 ≤ j → j ≤ 2 ^ 31 - 1 → j ≠ 2147483647 → write_state j ≠ write_state 2147483647) ∧
    write_state (2147483647 - 1) ≠ write_state 2147483647 ∧
    (∀ (env : Env) (conn : rdma_connection) (fd : Int) (wr : ibv_send_wr) (m : Mem),
      (∀ k, env.post_send k = true) → m.data = List.replicate MSG_SIZE 0 →
      (client_loop Demo.write env conn fd wr 2147483647 0 m
        (List.replicate 2147483647 write_done)).mem.data = write_state 2147483647 ∧
      (client_loop Demo.write env conn fd wr 2147483647 0 m
        (List.replicate 2147483647 write_done)).mem.remote_text = write_state 2147483647)) ∧
    ((format_msg ((2147483647 : Nat) : Int)).length = 31 ∧
      write_state 3 = MSG_STR ++ [51] ++ List.replicate 42 0) :=
  ⟨by decide, write_message_fits 2147483647 (by decide) (by decide), by decide⟩

/-- The flag along a concatenation. -/
theorem outstanding_append (d : Demo) (s t : List Call) (b : Bool) :
    outstanding d b (s ++ t) = (outstanding d b s).bind (fun b1 => outstanding d b1 t) := by
  induction s generalizing b with
  | nil => rfl
  | cons c s ih =>
    simp only [List.cons_append, outstanding]
    cases pipeline_step d b c with
    | none => rfl
    | some b1 => simp [ih]

/-- Calls other than posts and polls leave the flag as it is. -/
theorem outstanding_of_kinds_in (d : Demo) (ks : List Kind) (t : List Call) (b : Bool)
    (ht : kinds_in ks t = true) (h1 : Kind.post ∉ ks) (h2 : Kind.poll ∉ ks) :
    outstanding d b t = some b := by
  induction t with
  | nil => rfl
  | cons c t ih =>
    simp only [kinds_in, List.all_cons, Bool.and_eq_true, decide_eq_true_eq] at ht
    have hc : pipeline_step d b c = some b := by
      cases c <;> first | rfl | exact absurd ht.1 h1 | exact absurd ht.1 h2
    simp only [outstanding, hc, Option.some_bind]
    exact ih ht.2

/-- A wait starts with a request outstanding and ends with none outstanding
exactly when it found the matching completion. -/
theorem outstanding_wait_completion (d : Demo) (cq : Option Handle) (ps : List PollResult) :
    outstanding d true (wait_completion (wc_expect d) cq ps).trace =
      some (decide ((wait_completion (wc_expect d) cq ps).outcome ≠ WaitOutcome.completed)) := by
  induction ps with
  | nil => rfl
  | cons r rs ih =>
    unfold wait_completion
    split_ifs with h1 h2 h3 h4
    · have : ¬ (0 < r.n) := by omega
      simp [outstanding, pipeline_step, is_match, this]
    · have : ¬ (0 < r.n) := by omega
      simp [outstanding, pipeline_step, is_match, this, ih]
    · simp [outstanding, pipeline_step, is_match, h3]
    · have hp : 0 < r.n := by omega
      have hs : r.status = IBV_WC_SUCCESS := by simpa using h3
      simp [outstanding, pipeline_step, is_match, hp, hs, h4]
    · simp [outstanding, pipeline_step, is_match, h4, ih]

/-- The `for` loop never posts while a request is outstanding. -/
theorem outstanding_client_loop (d : Demo) (env : Env) (conn : rdma_connection) (fd : Int)
    (wr : ibv_send_wr) (n i : Nat) (m : Mem) (ps : List PollResult) :
    (outstanding d false (client_loop d env conn fd wr n i m ps).trace).isSome = true := by
  induction n generalizing i m ps with
  | zero => rfl
  | succ n ih =>
    have hw := outstanding_wait_completion d conn.cq ps
    have ha : ∀ j m1, outstanding d false (after_completion d env fd j m1).2 = some false :=
      fun j m1 => outstanding_of_kinds_in d _ _ false (kinds_after_completion d env fd j m1)
        (by decide) (by decide)
    cases d
    all_goals
      unfold client_loop
      simp only [reduceCtorEq, if_false, if_true]
      repeat' split
      all_goals simp [outstanding, outstanding_append, pipeline_step, hw, ha, ih, *]

/-- One call changes the two counts as it changes the flag. -/
theorem pipeline_step_count (d : Demo) (b b1 : Bool) (c : Call)
    (h : pipeline_step d b c = some b1) :
    posted [c] + (if b then 1 else 0) = consumed d [c] + (if b1 then 1 else 0) := by
  cases c with
  | ibv_post_send q w ok =>
    cases b <;> cases ok <;> simp [pipeline_step] at h <;> subst h <;> rfl
  | ibv_poll_cq cq r =>
    cases hm : is_match d r <;> cases b <;> simp [pipeline_step, hm] at h <;> subst h <;>
      simp [posted, consumed, is_posted, is_consumed, hm]
  | _ =>
    simp only [pipeline_step, Option.some.injEq] at h
    subst h
    cases b <;> rfl

/-- The counts over a first call. -/
theorem posted_cons (c : Call) (t : List Call) : posted (c :: t) = posted [c] + posted t := by
  simp only [posted, List.filter_cons]
  split
  · simp; omega
  · simp

/-- The counts over a first call. -/
theorem consumed_cons (d : Demo) (c : Call) (t : List Call) :
    consumed d (c :: t) = consumed d [c] + consumed d t := by
  simp only [consumed, List.filter_cons]
  split
  · simp; omega
  · simp

/-- Along a trace that keeps the rule, the posts exceed the consumed matching
completions by the change of the flag. -/
theorem outstanding_count (d : Demo) : ∀ (t : List Call) (b b1 : Bool),
    outstanding d b t = some b1 →
    posted t + (if b then 1 else 0) = consumed d t + (if b1 then 1 else 0) := by
  intro t
  induction t with
  | nil =>
    intro b b1 h
    simp only [outstanding, Option.some.injEq] at h
    subst h
    rfl
  | cons c t ih =>
    intro b b1 h
    simp only [outstanding] at h
    cases hs : pipeline_step d b c with
    | none => rw [hs] at h; simp at h
    | some b2 =>
      rw [hs] at h
      simp only [Option.some_bind] at h
      have e1 := pipeline_step_count d b b2 c hs
      have e2 := ih b2 b1 h
      rw [posted_cons, consumed_cons]
      omega

/-- A trace that keeps the rule keeps it on every initial part. -/
theorem outstanding_prefix (d : Demo) (s t : List Call) (b b1 : Bool)
    (h : outstanding d b (s ++ t) = some b1) :
    ∃ b2, outstanding d b s = some b2 ∧ outstanding d b2 t = some b1 := by
  rw [outstanding_append] at h
  cases hs : outstanding d b s with
  | none => rw [hs] at h; simp at h
  | some b2 => rw [hs] at h; exact ⟨b2, rfl, by simpa using h⟩

/-- A client run never posts while a request is outstanding. -/
theorem outstanding_run_client (d : Demo) (cfg : Config) (env : Env) :
    (outstanding d false (run_client d cfg env).trace).isSome = true := by
  have k1 := outstanding_of_kinds_in d _ _ false (kinds_init cfg env) (by decide) (by decide)
  have k2 : outstanding d false (client_run_handshake d cfg env).trace = some false :=
    outstanding_of_kinds_in d _ _ false (kinds_client_handshake d env _) (by decide) (by decide)
  have k3 := outstanding_of_kinds_in d _ _ false (kinds_client_socket cfg env)
    (by decide) (by decide)
  have k4 : outstanding d false (client_run_exchange d cfg env).trace = some false :=
    outstanding_of_kinds_in d _ _ false (kinds_client_exchange d env
      (client_run_handshake d cfg env).conn (client_socket cfg env).sockfd) (by decide) (by decide)
  have k5 : (outstanding d false (client_run_loop d cfg env).trace).isSome = true :=
    outstanding_client_loop d env _ _ _ _ _ _ _
  have k6 : ∀ b conn fd, outstanding d b (client_cleanup conn fd) = some b := fun b conn fd =>
    outstanding_of_kinds_in d _ _ b (kinds_client_cleanup conn fd) (by decide) (by decide)
  obtain ⟨b5, h5⟩ := Option.isSome_iff_exists.1 k5
  rw [run_client_trace]
  simp only [outstanding_append, k1, Option.some_bind]
  repeat' split
  all_goals simp [outstanding_append, outstanding, pipeline_step, k2, k3, k4, h5, k6]

/-- C21. In every client run of each demo, after every number `k` of calls the
work requests posted so far exceed the matching successful completions
consumed so far by 0 or by 1.  No call of `ibv_post_send` is made while a work
request is outstanding: at each such call every work request posted before has
been consumed as a successful completion of the matching opcode.  In the
sample run three requests are posted and three completions consumed. -/
theorem one_outstanding_request (d : Demo) (cfg : Config) (env : Env) :
    (outstanding d false (run_client d cfg env).trace).isSome = true ∧
    (∀ k : Nat,
      (posted ((run_client d cfg env).trace.take k) : Int) -
          (consumed d ((run_client d cfg env).trace.take k) : Int) = 0 ∨
      (posted ((run_client d cfg env).trace.take k) : Int) -
          (consumed d ((run_client d cfg env).trace.take k) : Int) = 1) ∧
    (∀ pre qp wr ok rest,
      (run_client d cfg env).trace = pre ++ Call.ibv_post_send qp wr ok :: rest →
      outstanding d false pre = some false ∧ posted pre = consumed d pre) ∧
    (posted (run_client Demo.atomic cfg_client env_client).trace = 3 ∧
      consumed Demo.atomic (run_client Demo.atomic cfg_client env_client).trace = 3) := by
  have hr := outstanding_run_client d cfg env
  obtain ⟨b, hb⟩ := Option.isSome_iff_exists.1 hr
  refine ⟨hr, ?_, ?_, by decide⟩
  · intro k
    have hs : outstanding d false ((run_client d cfg env).trace.take k ++
        (run_client d cfg env).trace.drop k) = some b := by
      rw [List.take_append_drop]; exact hb
    obtain ⟨b2, h2, _⟩ := outstanding_prefix d _ _ false b hs
    have hc := outstanding_count d _ false b2 h2
    cases b2
    · left
      simp only [Bool.false_eq_true, if_false, add_zero] at hc
      omega
    · right
      simp only [Bool.false_eq_true, if_false, if_true, add_zero] at hc
      omega
  · intro pre qp wr ok rest ht
    rw [ht] at hb
    obtain ⟨b2, h2, h3⟩ := outstanding_prefix d _ _ false b hb
    have hb2 : b2 = false := by
      cases b2
      · rfl
      · simp [outstanding, pipeline_step] at h3
    subst hb2
    have hc := outstanding_count d _ false false h2
    exact ⟨h2, by simpa using hc⟩

/-- The steps of a concatenation. -/
theorem steps_append (d : Demo) (s t : List Call) : steps d (s ++ t) = steps d s ++ steps d t := by
  simp [steps, List.filterMap_append]

/-- Calls other than posts, polls and writes are no steps. -/
theorem steps_of_kinds_in (d : Demo) (ks : List Kind) (t : List Call)
    (ht : kinds_in ks t = true) (h1 : Kind.post ∉ ks) (h2 : Kind.poll ∉ ks) (h3 : Kind.wr ∉ ks) :
    steps d t = [] :=
  filterMap_of_kinds_in ks _ t ht (fun c hc => by
    cases c <;> first | rfl | exact absurd hc h1 | exact absurd hc h2 | exact absurd hc h3)

/-- The steps of a trace with a first call. -/
theorem steps_cons (d : Demo) (c : Call) (t : List Call) :
    steps d (c :: t) = (step_of d c).toList ++ steps d t := by
  cases h : step_of d c <;> simp [steps, List.filterMap_cons, h]

/-- The empty trace has no step. -/
theorem steps_nil (d : Demo) : steps d [] = [] := rfl

/-- The only step of a wait is the matching completion that ends it. -/
theorem steps_wait_completion (d : Demo) (cq : Option Handle) (ps : List PollResult) :
    steps d (wait_completion (wc_expect d) cq ps).trace =
      if (wait_completion (wc_expect d) cq ps).outcome = WaitOutcome.completed then [Step.done]
      else [] := by
  induction ps with
  | nil => rfl
  | cons r rs ih =>
    unfold wait_completion
    by_cases h1 : r.n < 0
    · have hn : ¬ (0 < r.n) := by omega
      simp [h1, steps_cons, steps_nil, step_of, is_match, hn]
    · by_cases h2 : r.n = 0
      · have hn : ¬ (0 < r.n) := by omega
        simp [h1, h2, steps_cons, step_of, is_match, ih]
      · by_cases h3 : r.status = IBV_WC_SUCCESS
        · by_cases h4 : r.opcode = wc_expect d
          · have hp : 0 < r.n := by omega
            simp [h1, h2, h3, h4, hp, steps_cons, steps_nil, step_of, is_match]
          · simp [h1, h2, h3, h4, steps_cons, step_of, is_match, ih]
        · simp [h1, h2, h3, steps_cons, steps_nil, step_of, is_match]

/-- After a completion the atomic and read clients send the 3 bytes of "ACK",
the write client nothing, when the iteration goes on. -/
theorem steps_after_completion (d : Demo) (env : Env) (fd : Int) (i : Nat) (m : Mem)
    (h : (after_completion d env fd i m).1 = true) :
    steps d (after_completion d env fd i m).2 = (iteration d).drop 2 := by
  cases d
  · unfold after_completion at h ⊢
    by_cases h3 : env.ack_write i = 3
    · simp [h3, steps_cons, steps_nil, step_of, iteration]
    · simp [h3] at h
  · unfold after_completion at h ⊢
    by_cases h3 : env.ack_write i = 3
    · simp [h3, steps_cons, steps_nil, step_of, iteration]
    · simp [h3] at h
  · rfl

/-- A `for` loop that runs to its end made `n` iterations of post, completion
and (atomic and read demo) acknowledgement. -/
theorem steps_client_loop (d : Demo) (env : Env) (conn : rdma_connection) (fd : Int)
    (wr : ibv_send_wr) : ∀ (n i : Nat) (m : Mem) (ps : List PollResult),
    (client_loop d env conn fd wr n i m ps).exit = Exit.finished →
    steps d (client_loop d env conn fd wr n i m ps).trace = iterations d n ∧
    (client_loop d env conn fd wr n i m ps).i = i + n := by
  intro n
  induction n with
  | zero => intro i m ps _; exact ⟨rfl, rfl⟩
  | succ n ih =>
    intro i m ps
    have hw := steps_wait_completion d conn.cq ps
    cases d
    all_goals
      unfold client_loop
      simp only [reduceCtorEq, if_false, if_true]
      repeat' split
      all_goals
        intro h
        first
        | (simp at h; done)
        | (simp only at h
           obtain ⟨e1, e2⟩ := ih _ _ _ h
           have sa := steps_after_completion _ _ _ _ _ (by assumption)
           simp only [e2]
           refine ⟨?_, by omega⟩
           simp [steps_append, steps_cons, steps_nil, step_of, hw, sa, e1, iterations,
             iteration, *])

/-- A descriptor's 16 bytes are not the 3 bytes of "ACK". -/
theorem mr_info_bytes_ne_ACK (info : mr_info) (pad : Bytes) : mr_info_bytes info pad ≠ ACK := by
  intro h
  have hl := congrArg List.length h
  simp only [mr_info_bytes, List.length_append, le_bytes_length, ACK, List.length_cons,
    List.length_nil] at hl
  omega

/-- The client makes no step of its loop before the loop. -/
theorem steps_client_setup (d : Demo) (cfg : Config) (env : Env) :
    steps d (client_setup d cfg env) = [] := by
  have k1 := steps_of_kinds_in d _ _ (kinds_init cfg env) (by decide) (by decide) (by decide)
  have k2 : steps d (client_run_handshake d cfg env).trace = [] :=
    steps_of_kinds_in d _ _ (kinds_client_handshake d env _) (by decide) (by decide) (by decide)
  have k3 := steps_of_kinds_in d _ _ (kinds_client_socket cfg env) (by decide) (by decide)
    (by decide)
  have k4 : steps d (client_run_exchange d cfg env).trace = [] := by
    unfold client_run_exchange client_exchange
    simp only
    repeat' split
    all_goals simp [steps_append, steps_cons, steps_nil, step_of, mr_info_bytes_ne_ACK]
  unfold client_setup
  simp only [steps_append, k1, k2, k3, k4, List.append_nil]

/-- The statements at `cleanup` are no steps of the loop. -/
theorem steps_client_cleanup (d : Demo) (conn : rdma_connection) (fd : Int) :
    steps d (client_cleanup conn fd) = [] :=
  steps_of_kinds_in d _ _ (kinds_client_cleanup conn fd) (by decide) (by decide) (by decide)

/-- Posts and acknowledgement bytes of `n` iterations. -/
theorem iterations_count (d : Demo) (n : Nat) :
    posts (iterations d n) = n ∧
    ack_bytes (iterations d n) = (if d = Demo.write then 0 else 3 * (n : Int)) ∧
    (d = Demo.write → ∀ k, Step.ack k ∉ iterations d n) := by
  induction n with
  | zero => cases d <;> simp [iterations, posts, ack_bytes]
  | succ n ih =>
    obtain ⟨i1, i2, i3⟩ := ih
    cases d
    · simp only [reduceCtorEq, if_false] at i2
      simp [iterations, iteration, posts, ack_bytes, i1, i2]
      omega
    · simp only [reduceCtorEq, if_false] at i2
      simp [iterations, iteration, posts, ack_bytes, i1, i2]
      omega
    · simp only [if_true] at i2
      have := i3 rfl
      simp [iterations, iteration, posts, ack_bytes, i1, i2, this]

/-- In the write demo the client closes the side channel in its set-up, which
posts nothing, and leaves `sockfd` at -1. -/
theorem write_client_closes_first (cfg : Config) (env : Env)
    (h : (client_run_exchange Demo.write cfg env).ret = 0) :
    Call.close (client_socket cfg env).sockfd ∈ client_setup Demo.write cfg env ∧
    (client_run_exchange Demo.write cfg env).sockfd = -1 := by
  unfold client_setup
  unfold client_run_exchange client_exchange at h ⊢
  simp only at h ⊢
  by_cases h1 : env.read_info = sizeof_mr_info
  · by_cases h2 : env.write_info = sizeof_mr_info
    · simp [h1, h2]
    · simp [h1, h2] at h
  · simp [h1] at h

/-- The work requests posted are the successful posts among the steps. -/
theorem posts_steps (d : Demo) (t : List Call) : posts (steps d t) = posted t := by
  induction t with
  | nil => rfl
  | cons c t ih =>
    rw [steps_cons, posted_cons, ← ih]
    cases c with
    | ibv_post_send q w ok =>
      cases ok
      · simp [step_of, posts, posted, is_posted]
      · simp [step_of, posts, posted, is_posted]; omega
    | ibv_poll_cq cq r =>
      by_cases hm : is_match d r = true
      · simp [step_of, hm, posts, posted, is_posted]
      · simp [step_of, hm, posts, posted, is_posted]
    | write fd data n =>
      by_cases hm : data = ACK
      · simp [step_of, hm, posts, posted, is_posted]
      · simp [step_of, hm, posts, posted, is_posted]
    | _ => simp [step_of, posts, posted, is_posted]

/-- C22. A client run in which no step fails (the `for` loop ran to its end)
returns 0 and its posts, matching completions and acknowledgements are those
of `cfg->count` iterations, none when the count is not positive: in the atomic
and read demos post, completion, then a `write` of "ACK" that returned 3,
before the next post; in the write demo post and completion only.  The client
thus posts `cfg->count` work requests and sends 3 bytes per operation in the
atomic and read demos.  In the write demo it sends no acknowledgement, and the
side channel is closed in the set-up, before the loop and so before the first
post. -/
theorem client_posts_and_acks (d : Demo) (cfg : Config) (env : Env) (l : ClientLoop)
    (h : (run_client d cfg env).loop = some l) (hf : l.exit = Exit.finished) :
    (run_client d cfg env).ret = some 0 ∧
    steps d (run_client d cfg env).trace = iterations d cfg.count.toNat ∧
    posts (steps d (run_client d cfg env).trace) = cfg.count.toNat ∧
    posted (run_client d cfg env).trace = cfg.count.toNat ∧
    (cfg.count ≤ 0 → posts (steps d (run_client d cfg env).trace) = 0) ∧
    (0 ≤ cfg.count → (posts (steps d (run_client d cfg env).trace) : Int) = cfg.count) ∧
    (d ≠ Demo.write →
      ack_bytes (steps d (run_client d cfg env).trace) = 3 * (cfg.count.toNat : Int)) ∧
    (d ≠ Demo.write → 0 ≤ cfg.count →
      ack_bytes (steps d (run_client d cfg env).trace) = 3 * cfg.count) ∧
    (d = Demo.write →
      (∀ k, Step.ack k ∉ steps d (run_client d cfg env).trace) ∧
      ack_bytes (steps d (run_client d cfg env).trace) = 0 ∧
      (∃ rest, (run_client d cfg env).trace = client_setup d cfg env ++ rest) ∧
      steps d (client_setup d cfg env) = [] ∧
      Call.close (client_socket cfg env).sockfd ∈ client_setup d cfg env ∧
      (client_run_exchange d cfg env).sockfd = -1) := by
  obtain ⟨hl, _, _, _, hx, ht, hr⟩ := run_client_entered d cfg env l h
  have hne : l.exit ≠ Exit.waiting := by rw [hf]; decide
  simp only [hne, if_false] at ht hr
  have hs : steps d (run_client d cfg env).trace = iterations d cfg.count.toNat := by
    rw [ht, steps_append, steps_append, steps_client_setup, steps_client_cleanup, hl]
    have := (steps_client_loop d env _ _ _ cfg.count.toNat 0 _ env.polls (by
      rw [hl] at hf; exact hf)).1
    simpa [client_run_loop] using this
  obtain ⟨c1, c2, c3⟩ := iterations_count d cfg.count.toNat
  have hp : posted (run_client d cfg env).trace = cfg.count.toNat := by
    rw [← posts_steps d, hs, c1]
  refine ⟨hr, hs, by rw [hs, c1], hp, ?_, ?_, ?_, ?_, ?_⟩
  · intro h0
    rw [hs, c1]
    omega
  · intro h0
    rw [hs, c1]
    omega
  · intro hd
    rw [hs, c2]
    simp [hd]
  · intro hd h0
    rw [hs, c2]
    simp only [hd, if_false]
    omega
  · intro hd
    subst hd
    obtain ⟨w1, w2⟩ := write_client_closes_first cfg env hx
    refine ⟨by rw [hs]; exact c3 rfl, by rw [hs, c2]; simp, ⟨_, by rw [ht, List.append_assoc]⟩,
      steps_client_setup _ cfg env, w1, w2⟩

/-- C22 on the sample run of the atomic client with count 3, and on a write
client whose three writes complete. -/
theorem client_posts_and_acks_witness :
    ((run_client Demo.atomic cfg_client env_client).loop =
        some (client_run_loop Demo.atomic cfg_client env_client) ∧
      (client_run_loop Demo.atomic cfg_client env_client).exit = Exit.finished) ∧
    ((run_client Demo.atomic cfg_client env_client).ret = some 0 ∧
    steps Demo.atomic (run_client Demo.atomic cfg_client env_client).trace =
      iterations Demo.atomic cfg_client.count.toNat ∧
    posts (steps Demo.atomic (run_client Demo.atomic cfg_client env_client).trace) =
      cfg_client.count.toNat ∧
    posted (run_client Demo.atomic cfg_client env_client).trace = cfg_client.count.toNat ∧
    (cfg_client.count ≤ 0 →
      posts (steps Demo.atomic (run_client Demo.atomic cfg_client env_client).trace) = 0) ∧
    (0 ≤ cfg_client.count →
      (posts (steps Demo.atomic (run_client Demo.atomic cfg_client env_client).trace) : Int) =
        cfg_client.count) ∧
    (Demo.atomic ≠ Demo.write →
      ack_bytes (steps Demo.atomic (run_client Demo.atomic cfg_client env_client).trace) =
        3 * (cfg_client.count.toNat : Int)) ∧
    (Demo.atomic ≠ Demo.write → 0 ≤ cfg_client.count →
      ack_bytes (steps Demo.atomic (run_client Demo.atomic cfg_client env_client).trace) =
        3 * cfg_client.count) ∧
    (Demo.atomic = Demo.write →
      (∀ k, Step.ack k ∉ steps Demo.atomic (run_client Demo.atomic cfg_client env_client).trace) ∧
      ack_bytes (steps Demo.atomic (run_client Demo.atomic cfg_client env_client).trace) = 0 ∧
      (∃ rest, (run_client Demo.atomic cfg_client env_client).trace =
        client_setup Demo.atomic cfg_client env_client ++ rest) ∧
      steps Demo.atomic (client_setup Demo.atomic cfg_client env_client) = [] ∧
      Call.close (client_socket cfg_client env_client).sockfd ∈
        client_setup Demo.atomic cfg_client env_client ∧
      (client_run_exchange Demo.atomic cfg_client env_client).sockfd = -1)) ∧
    (steps Demo.atomic (run_client Demo.atomic cfg_client env_client).trace =
        [Step.post true, Step.done, Step.ack 3, Step.post true, Step.done, Step.ack 3,
          Step.post true, Step.done, Step.ack 3] ∧
      steps Demo.write (run_client Demo.write cfg_client
          { env_client with polls := List.replicate 3 write_done }).trace =
        [Step.post true, Step.done, Step.post true, Step.done, Step.post true, Step.done] ∧
      (run_client Demo.write cfg_client
          { env_client with polls := List.replicate 3 write_done }).ret = some 0) :=
  ⟨⟨rfl, by decide⟩,
    client_posts_and_acks Demo.atomic cfg_client env_client
      (client_run_loop Demo.atomic cfg_client env_client) rfl (by decide),
    by decide⟩

/-- A property of calls that holds on the initialisation, on the handshake, on
the socket set-up, on the observation loop and on every call of the exchange
and of `cleanup` holds on the whole server run. -/
theorem all_run_server_split (p : Call → Bool) (d : Demo) (cfg : Config) (env : Env)
    (h0 : p (Call.stderr "初始化会话资源失败") = true)
    (h1 : (rdma_connection_init cfg env).trace.all p = true)
    (h2 : (server_run_handshake d cfg env).trace.all p = true)
    (k3 : (server_socket cfg env).trace.all p = true)
    (k5 : (server_loop d cfg env (server_socket cfg env).conn_sock).trace.all p = true)
    (k7 : (server_finish d env).all p = true)
    (h3 : ∀ c, c.kind ∈ [Kind.rd, Kind.wr, Kind.close, Kind.diag, Kind.release] → p c = true) :
    (run_server d cfg env).trace.all p = true := by
  have k4 := all_of_kinds_in _ p _
    (kinds_in_mono _ _ _ (by decide) (kinds_server_exchange d env
      (server_run_handshake d cfg env).conn (server_socket cfg env).listen_sock
      (server_socket cfg env).conn_sock)) h3
  have k6 : ∀ conn s1 s2, (server_cleanup conn s1 s2).all p = true := fun conn s1 s2 =>
    all_of_kinds_in _ p _ (kinds_in_mono _ _ _ (by decide) (kinds_server_cleanup conn s1 s2)) h3
  have k4' : (server_run_exchange d cfg env).2.all p = true := k4
  rw [run_server_trace]
  simp only [List.all_append, h1, Bool.true_and]
  repeat' split
  all_goals simp only [List.all_append, List.all_cons, List.all_nil, h0, h2, k3, k4', k5, k6,
    k7, Bool.and_self]

/-- Calls that are no stores, by their class. -/
theorem no_store_of_kind (c : Call) (h : c.kind ≠ Kind.store) : no_store c = true := by
  cases c <;> first | rfl | exact absurd rfl h

/-- Calls that are no loads, by their class. -/
theorem load_from_of_kind (rs : List AckRead) (c : Call) (h : c.kind ≠ Kind.load) :
    load_from rs c = true := by
  cases c <;> first | rfl | exact absurd rfl h

/-- The atomic server's handshake stores nothing in the buffer. -/
theorem no_store_server_handshake (env : Env) (conn0 : rdma_connection) :
    (server_handshake Demo.atomic env conn0).trace.all no_store = true := by
  have hk : ∀ c : Call, c.kind ∈ [Kind.verbs, Kind.diag] → no_store c = true :=
    fun c hc => no_store_of_kind c (fun h => by rw [h] at hc; exact absurd hc (by decide))
  have hb := fun c => all_of_kinds_in _ no_store _ (kinds_build_qp_verbs c env) hk
  have hr := fun c => all_of_kinds_in _ no_store _ (kinds_reg_mem_verbs Demo.atomic c env) hk
  have hw : ∀ conn e r, (wait_event conn e r).trace.all no_store = true := by
    intro conn e r
    unfold wait_event
    repeat' split
    all_goals rfl
  unfold server_handshake
  simp only [reduceCtorEq, if_false]
  repeat' split
  all_goals simp [List.all_append, hw, hb, hr, no_store]

/-- The atomic server's observation loop reads the side channel and loads the
counter, nothing else; each load follows a read that returned data. -/
theorem atomic_ack_loop_loads (fd count : Int) (all : List AckRead) :
    ∀ (rs : List AckRead) (c : Int), (∀ r ∈ rs, r ∈ all) →
    (server_ack_loop Demo.atomic fd count c rs).trace.all no_store = true ∧
    (server_ack_loop Demo.atomic fd count c rs).trace.all (load_from all) = true := by
  intro rs
  induction rs with
  | nil =>
    intro c _
    unfold server_ack_loop
    split <;> exact ⟨rfl, rfl⟩
  | cons r rs ih =>
    intro c hall
    have hr : r ∈ all := hall r (List.mem_cons_self _ _)
    have ih1 := fun c1 => ih c1 (fun x hx => hall x (List.mem_cons_of_mem _ hx))
    unfold server_ack_loop
    by_cases h1 : c < count
    · by_cases h2 : r.n > 0
      · have ha : all.any (fun x => decide (0 < x.n) && decide (r.counter = x.counter)) = true :=
          List.any_eq_true.2 ⟨r, hr, by simp; exact h2⟩
        simp [h1, h2, List.all_append, ack_effect, no_store, load_from, ih1, ha]
      · by_cases h3 : r.n = 0
        · simp [h1, h3, no_store, load_from]
        · by_cases h4 : r.errno = EINTR
          · simp [h1, h2, h3, h4, no_store, load_from, ih1]
          · simp [h1, h2, h3, h4, no_store, load_from]
    · simp [h1]

/-- Calls that are no loads, by their class. -/
theorem load_any_of_kind (env : Env) (c : Call) (h : c.kind ≠ Kind.load) :
    load_any env c = true := by
  cases c <;> first | rfl | exact absurd rfl h

/-- A value found after a read that returned data is one the server can find. -/
theorem load_any_of_load_from (env : Env) (c : Call) (h : load_from env.ack_reads c = true) :
    load_any env c = true := by
  cases c <;> first | rfl | (simp only [load_from] at h; simp [load_any, h])

/-- The atomic server's handshake loads the counter once, right after
`reg_mem`, and finds the 0 that `reg_mem` stored. -/
theorem loads_server_handshake (env : Env) (conn0 : rdma_connection) :
    ((server_handshake Demo.atomic env conn0).ret = 0 →
      loads (server_handshake Demo.atomic env conn0).trace = [0]) ∧
    (loads (server_handshake Demo.atomic env conn0).trace = [] ∨
      loads (server_handshake Demo.atomic env conn0).trace = [0]) := by
  have hw := fun c e r => loads_of_kinds_in _ _ (kinds_wait_event c e r) (by decide)
  have hb := fun c => loads_of_kinds_in _ _ (kinds_build_qp_verbs c env) (by decide)
  have hr := fun c => loads_of_kinds_in _ _ (kinds_reg_mem_verbs Demo.atomic c env) (by decide)
  have hz : ∀ c, ¬ (reg_mem Demo.atomic c env).ret ≠ 0 →
      le_value (reg_mem Demo.atomic c env).data = 0 := by
    intro c hc
    rw [reg_mem_data Demo.atomic c env (by simpa using hc)]
    decide
  unfold server_handshake
  simp only [reduceCtorEq, if_false, if_true]
  repeat' split
  all_goals
    simp only [loads_append, hw, hb, hr, List.nil_append, List.append_nil]
    first
    | (refine ⟨fun h => ?_, Or.inl rfl⟩
       simp at h)
    | (rw [hz _ (by assumption)]
       exact ⟨fun _ => rfl, Or.inr rfl⟩)

/-- C23. In the atomic demo `reg_mem` leaves the 8-byte counter at 0, and no
call of a server run stores into the registered buffer afterwards: the
handshake, the observation loop and the statement after the loop only load the
counter.  The load after `reg_mem` finds the 0 that `reg_mem` stored; every
later load finds a value set from outside the server's code: the one found
after a read that returned data, or the one found after the loop.  In the read
demo, by contrast, the server does store into its buffer. -/
theorem atomic_counter_frame (cfg : Config) (env : Env) :
    (∀ conn, (reg_mem Demo.atomic conn env).ret = 0 →
      (reg_mem Demo.atomic conn env).data = List.replicate COUNTER_SIZE 0 ∧
      le_value (reg_mem Demo.atomic conn env).data = 0) ∧
    (run_server Demo.atomic cfg env).trace.all no_store = true ∧
    (∀ k, Call.snprintf_buf k ∉ (run_server Demo.atomic cfg env).trace) ∧
    (∀ fd, (server_loop Demo.atomic cfg env fd).trace.all no_store = true) ∧
    (server_finish Demo.atomic env).all no_store = true ∧
    ((server_run_handshake Demo.atomic cfg env).ret = 0 →
      loads (server_run_handshake Demo.atomic cfg env).trace = [0]) ∧
    (∀ fd, (server_loop Demo.atomic cfg env fd).trace.all (load_from env.ack_reads) = true) ∧
    (∀ l, (run_server Demo.atomic cfg env).loop = some l →
      loads (run_server Demo.atomic cfg env).trace =
        0 :: (loads l.trace ++
          (if l.exit = LoopExit.waiting then [] else [env.final_counter]))) ∧
    (run_server Demo.atomic cfg env).trace.all (load_any env) = true ∧
    (∀ v, Call.load_counter v ∈ (run_server Demo.atomic cfg env).trace →
      v = 0 ∨ (∃ r ∈ env.ack_reads, 0 < r.n ∧ v = r.counter) ∨ v = env.final_counter) ∧
    (loads (run_server Demo.atomic cfg_server env_server).trace = [0, 1, 2, 2] ∧
      Call.snprintf_buf 1 ∈ (run_server Demo.read cfg_server env_server).trace) := by
  have hloop : ∀ fd, (server_loop Demo.atomic cfg env fd).trace.all no_store = true ∧
      (server_loop Demo.atomic cfg env fd).trace.all (load_from env.ack_reads) = true :=
    fun fd => atomic_ack_loop_loads fd cfg.count env.ack_reads env.ack_reads 0 (fun _ h => h)
  have hfin : (server_finish Demo.atomic env).all no_store = true := rfl
  have hs : (run_server Demo.atomic cfg env).trace.all no_store = true := by
    refine all_run_server_split no_store Demo.atomic cfg env rfl ?_
      (no_store_server_handshake env _) ?_ (hloop _).1 hfin ?_
    · unfold rdma_connection_init
      repeat' split
      all_goals rfl
    · exact all_of_kinds_in _ _ _ (kinds_server_socket cfg env) (fun c hc =>
        no_store_of_kind c (fun h => by rw [h] at hc; exact absurd hc (by decide)))
    · exact fun c hc => no_store_of_kind c (fun h => by rw [h] at hc; exact absurd hc (by decide))
  have hh := loads_server_handshake env (rdma_connection_init cfg env).conn
  have hha : (server_run_handshake Demo.atomic cfg env).trace.all (load_any env) = true := by
    rw [List.all_eq_true]
    intro c hc
    cases c with
    | load_counter v =>
      have hv : v ∈ loads (server_run_handshake Demo.atomic cfg env).trace := by
        unfold loads
        exact List.mem_filterMap.2 ⟨_, hc, rfl⟩
      have h0 : v = 0 := by
        rcases hh.2 with e | e
        · rw [show loads (server_run_handshake Demo.atomic cfg env).trace = [] from e] at hv
          simp at hv
        · rw [show loads (server_run_handshake Demo.atomic cfg env).trace = [0] from e] at hv
          simpa using hv
      simp [load_any, h0]
    | _ => rfl
  have hl : (run_server Demo.atomic cfg env).trace.all (load_any env) = true := by
    refine all_run_server_split _ Demo.atomic cfg env rfl ?_ hha ?_ ?_ ?_ ?_
    · exact all_of_kinds_in _ _ _ (kinds_init cfg env) (fun c hc =>
        load_any_of_kind _ c (fun h => by rw [h] at hc; exact absurd hc (by decide)))
    · exact all_of_kinds_in _ _ _ (kinds_server_socket cfg env) (fun c hc =>
        load_any_of_kind _ c (fun h => by rw [h] at hc; exact absurd hc (by decide)))
    · rw [List.all_eq_true]
      intro c hc
      exact load_any_of_load_from env c (List.all_eq_true.1 (hloop _).2 c hc)
    · simp [server_finish, load_any]
    · exact fun c hc =>
        load_any_of_kind _ c (fun h => by rw [h] at hc; exact absurd hc (by decide))
  refine ⟨?_, hs, ?_, fun fd => (hloop fd).1, hfin, hh.1, fun fd => (hloop fd).2, ?_, hl, ?_,
    by decide⟩
  · intro conn h
    have hd := reg_mem_data Demo.atomic conn env h
    rw [hd]
    exact ⟨rfl, by decide⟩
  · intro k hk
    have := List.all_eq_true.1 hs _ hk
    simp [no_store] at this
  · intro l h
    obtain ⟨_, _, h2, _, _, ht, _⟩ := run_server_entered Demo.atomic cfg env l h
    have e1 := loads_of_kinds_in _ _ (kinds_init cfg env) (by decide)
    have e2 : loads (server_run_handshake Demo.atomic cfg env).trace = [0] := hh.1 h2
    have e3 := loads_of_kinds_in _ _ (kinds_server_socket cfg env) (by decide)
    have e4 : loads (server_run_exchange Demo.atomic cfg env).2 = [] :=
      loads_of_kinds_in _ _ (kinds_server_exchange Demo.atomic env _ _ _) (by decide)
    have e5 := fun conn s1 s2 =>
      loads_of_kinds_in _ _ (kinds_server_cleanup conn s1 s2) (by decide)
    rw [ht]
    simp only [server_setup, loads_append, e1, e2, e3, e4, List.nil_append, List.append_nil,
      List.singleton_append, List.cons.injEq, true_and, List.append_cancel_left_eq]
    split
    · rfl
    · simp only [loads_append, e5, List.append_nil]
      rfl
  · intro v hv
    have := List.all_eq_true.1 hl _ hv
    simp only [load_any, Bool.or_eq_true, decide_eq_true_eq, List.any_eq_true,
      Bool.and_eq_true] at this
    rcases this with (h | h) | h
    · exact Or.inl h
    · exact Or.inr (Or.inl h)
    · exact Or.inr (Or.inr h)

/-- The `close` calls of a concatenation. -/
theorem close_calls_append (s t : List Call) :
    close_calls (s ++ t) = close_calls s ++ close_calls t := by
  simp [close_calls, List.filter_append]

/-- A trace without calls of the class `close` closes nothing. -/
theorem close_calls_of_kinds_in (ks : List Kind) (t : List Call) (ht : kinds_in ks t = true)
    (h : Kind.close ∉ ks) : close_calls t = [] :=
  filter_of_kinds_in ks _ t ht (fun c hc => by cases c <;> first | rfl | exact absurd hc h)

/-- `rdma_connection_cleanup` closes no descriptor. -/
theorem close_calls_cleanup (conn : rdma_connection) :
    close_calls (rdma_connection_cleanup conn) = [] := by
  simp only [close_calls, List.filter_eq_nil_iff]
  intro c hc
  rcases (mem_cleanup conn c).1 hc with ⟨x, -, rfl⟩ | ⟨x, -, rfl⟩ | ⟨x, -, rfl⟩ |
    ⟨x, -, rfl⟩ | ⟨x, -, rfl⟩ | ⟨x, -, rfl⟩ | ⟨x, -, rfl⟩ <;> simp [is_close]

/-- The `close` calls of a write server run that leaves its polling loop: both
descriptors are closed after the exchange and again at `cleanup`. -/
theorem close_calls_write_server (cfg : Config) (env : Env) (l : LoopResult)
    (h : (run_server Demo.write cfg env).loop = some l) (hl : l.exit ≠ LoopExit.waiting) :
    close_calls (run_server Demo.write cfg env).trace =
      [Call.close (server_socket cfg env).conn_sock,
       Call.close (server_socket cfg env).listen_sock,
       Call.close (server_socket cfg env).conn_sock,
       Call.close (server_socket cfg env).listen_sock] := by
  obtain ⟨e, _, _, hs, hx, ht, _⟩ := run_server_entered Demo.write cfg env l h
  obtain ⟨p1, p2⟩ := server_socket_ok cfg env hs
  have k1 := close_calls_of_kinds_in _ _ (kinds_init cfg env) (by decide)
  have k2 : close_calls (server_run_handshake Demo.write cfg env).trace = [] :=
    close_calls_of_kinds_in _ _ (kinds_server_handshake Demo.write env _) (by decide)
  have k3 := close_calls_of_kinds_in _ _ (kinds_server_socket cfg env) (by decide)
  have k5 : close_calls l.trace = [] := by
    rw [e]
    exact close_calls_of_kinds_in _ _ (kinds_server_loop Demo.write cfg env _) (by decide)
  have k6 := close_calls_cleanup
  have k4 : close_calls (server_run_exchange Demo.write cfg env).2 =
      [Call.close (server_socket cfg env).conn_sock,
       Call.close (server_socket cfg env).listen_sock] := by
    unfold server_run_exchange server_exchange at hx ⊢
    simp only at hx ⊢
    by_cases h1 : env.write_info = sizeof_mr_info
    · by_cases h2 : env.read_info = sizeof_mr_info
      · simp [h1, h2, close_calls, is_close]
      · simp [h1, h2] at hx
    · simp [h1] at hx
  rw [ht]
  simp only [hl, if_false, server_setup, server_cleanup, close_calls_append, k1, k2, k3, k4, k5,
    k6, ge_iff_le, p1, p2, if_true, List.nil_append, List.append_nil]
  rfl

/-- When the socket set-up succeeds its trace holds the `socket` and the
`accept` that gave the two descriptors. -/
theorem server_socket_opened (cfg : Config) (env : Env) (h : (server_socket cfg env).ret = 0) :
    Call.socket (server_socket cfg env).listen_sock ∈ (server_socket cfg env).trace ∧
    Call.accept (server_socket cfg env).listen_sock (server_socket cfg env).conn_sock ∈
      (server_socket cfg env).trace := by
  unfold server_socket at h ⊢
  simp only at h ⊢
  by_cases h1 : env.socket < 0
  · simp [h1] at h
  · by_cases h2 : env.bind < 0
    · simp [h1, h2] at h
    · by_cases h3 : env.sock_accept < 0
      · simp [h1, h2, h3] at h
      · simp [h1, h2, h3]

/-- C24. An undisturbed server run of the write demo, the client's three
messages arriving one by one: `socket` gives descriptor 3, `accept` gives 4,
both are closed after the descriptor exchange and both are passed to `close`
a second time at `cleanup`; the run returns 0.  This holds for every write
server run that leaves its polling loop.  The atomic server and the write
client close each descriptor once. -/
theorem write_server_closes_sockets_twice :
    ((run_server Demo.write cfg_server { env_server with buf_polls := observed [1, 2, 3] }).ret =
        some 0 ∧
      Call.socket 3 ∈
        (run_server Demo.write cfg_server
          { env_server with buf_polls := observed [1, 2, 3] }).trace ∧
      Call.accept 3 4 ∈
        (run_server Demo.write cfg_server
          { env_server with buf_polls := observed [1, 2, 3] }).trace ∧
      close_calls (run_server Demo.write cfg_server
          { env_server with buf_polls := observed [1, 2, 3] }).trace =
        [Call.close 4, Call.close 3, Call.close 4, Call.close 3]) ∧
    (∀ (cfg : Config) (env : Env) (l : LoopResult),
      (run_server Demo.write cfg env).loop = some l → l.exit ≠ LoopExit.waiting →
      (run_server Demo.write cfg env).ret = some 0 ∧
      Call.socket (server_socket cfg env).listen_sock ∈ (run_server Demo.write cfg env).trace ∧
      Call.accept (server_socket cfg env).listen_sock (server_socket cfg env).conn_sock ∈
        (run_server Demo.write cfg env).trace ∧
      close_calls (run_server Demo.write cfg env).trace =
        [Call.close (server_socket cfg env).conn_sock,
         Call.close (server_socket cfg env).listen_sock,
         Call.close (server_socket cfg env).conn_sock,
         Call.close (server_socket cfg env).listen_sock]) ∧
    (close_calls (run_server Demo.atomic cfg_server env_server).trace =
        [Call.close 4, Call.close 3] ∧
      close_calls (run_client Demo.write cfg_client
          { env_client with polls := List.replicate 3 write_done }).trace = [Call.close 5]) := by
  refine ⟨by decide, ?_, by decide⟩
  intro cfg env l h hl
  obtain ⟨_, _, _, hs, _, ht, hr⟩ := run_server_entered Demo.write cfg env l h
  obtain ⟨o1, o2⟩ := server_socket_opened cfg env hs
  simp only [hl, if_false] at hr
  refine ⟨hr, ?_, ?_, close_calls_write_server cfg env l h hl⟩
  · rw [ht]
    simp only [server_setup, List.mem_append]
    exact Or.inl (Or.inl (Or.inl (Or.inr o1)))
  · rw [ht]
    simp only [server_setup, List.mem_append]
    exact Or.inl (Or.inl (Or.inl (Or.inr o2)))

end Rdma
